import Mathlib

/-!
# Bracket progression and match resolution of the tournament backend

A shallow embedding of `src/matchSimulator.js`, `src/tournamentBracket.js`, the classes of
`src/models`, `Validators.sanitizeString` of `src/utils/validation.js` and
`src/scripts/simulateAllMatches.js`.

Conventions of the embedding.

* JavaScript numbers that the code only uses as small non-negative integers (goal counts,
  minutes, penalty tallies, ratings) are natural numbers or integers; arithmetic on random
  draws is exact rational arithmetic.
* `Math.random()` is a stream of draws in `[0, 1)`; every function that draws takes the stream
  and, when later code draws again, returns what is left of it.
* A JavaScript exception (`TypeError` on reading a property of `undefined`) is the `error`
  branch of `Except`.
* `Math.pow`, whose values for the exponent 0.8 are not rational, is a parameter of the
  functions that call it; a loop that need not end takes a bound on its iterations and gives
  no result when the bound is reached.
* The document store is the interface of the spec, `getMatch(id) -> Match | absent`,
  `putMatch(Match)`: a collection is an association list from document ids to documents, a
  reference built from an id that names no document resolves to no document.
* The namespace `Js` holds a second embedding of `generateScore`, `updateNextRound`,
  `simulateMatch` and `Match.simulate`, in which nothing of the two conventions above is
  idealised: numbers are binary64 numbers, rounded after every operation, and documents are
  reached through the `doc` call of the Firestore SDK, which cuts an id at its slashes and
  throws on a `null` id. The properties that fail on ids and squads which the routes let
  through are stated there.
-/

namespace ANLeague

deriving instance DecidableEq for Except

/-! ## Random draws -/

/-- One result of `Math.random()`: a number in `[0, 1)`. -/
structure Draw where
  val : ℚ
  nonneg : 0 ≤ val
  lt_one : val < 1

/-- The stream of results of successive `Math.random()` calls. -/
abbrev Rng := Nat → Draw

/-- The stream after `k` draws have been consumed. -/
def Rng.drop (rng : Rng) (k : Nat) : Rng := fun i => rng (i + k)

/-- `Math.floor(u * n)` for a draw `u` and an array length (or range size) `n`. -/
def floorMul (u : Draw) (n : Nat) : Nat := (Int.floor (u.val * n)).toNat

/-- `Math.round(x)`: the nearest integer, halves rounded up. -/
def jsRound (x : ℚ) : Int := Int.floor (x + 1 / 2)

/-! ## Data model -/

/-- A player as serialised by `Player.toJSON`. -/
structure Player where
  name : String
  position : String
  isCaptain : Bool
  ratings : List (String × Nat)
deriving DecidableEq, Repr, Inhabited

/-- A team slot of a match: `{ country, teamId, players }`; `teamId` is `null` in a placeholder. -/
structure TeamSlot where
  country : String
  teamId : Option String
  players : List Player
deriving DecidableEq, Repr, Inhabited

/-- The winner record `{ ...team, wonBy }`. -/
structure Winner where
  country : String
  teamId : Option String
  players : List Player
  wonBy : String
deriving DecidableEq, Repr, Inhabited

/-- A goal-scorer event `{ player, team, minute }`. -/
structure Scorer where
  player : String
  team : String
  minute : Nat
deriving DecidableEq, Repr, Inhabited

/-- One penalty kick `{ player, team, scored, suddenDeath? }`; the `suddenDeath` field is only
present (and `true`) on sudden-death kicks, `false` here stands for its absence. -/
structure Kick where
  player : String
  team : String
  scored : Bool
  suddenDeath : Bool
deriving DecidableEq, Repr, Inhabited

/-- The two kick ledgers `penalties = { team1: [], team2: [] }`. -/
structure Penalties where
  team1 : List Kick
  team2 : List Kick
deriving DecidableEq, Repr, Inhabited

/-- The penalty tally `{ team1, team2 }`. -/
structure PenaltyScore where
  team1 : Nat
  team2 : Nat
deriving DecidableEq, Repr, Inhabited

/-- The record returned by `generatePenaltyShootout`. -/
structure Shootout where
  penalties : Penalties
  score : PenaltyScore
  winner : String
  rounds : Nat
deriving DecidableEq, Repr, Inhabited

/-! ## `generatePenaltyShootout` -/

/-- The expression `players[Math.floor(Math.random() * players.length)]` followed by the read of
`.name` on it: reading `.name` of `undefined` throws. -/
def pickTaker (players : List Player) (u : Draw) : Except String Player :=
  match players.get? (floorMul u players.length) with
  | some p => .ok p
  | none => .error "TypeError: Cannot read properties of undefined (reading 'name')"

/-- The test `Math.random() > 0.3`. -/
def converts (u : Draw) : Bool := decide (u.val > 3 / 10)

/-- The mutable locals of `generatePenaltyShootout`. -/
structure ShootoutState where
  penalties : Penalties
  team1Score : Nat
  team2Score : Nat
  round : Nat
deriving DecidableEq, Repr

/-- The loop `for (let i = 0; i < 5; i++)` of `generatePenaltyShootout`, `n` iterations of it:
each iteration draws the taker and the outcome of team 1's kick, then of team 2's kick. -/
def regularKicks (team1Country : String) (team1Players : List Player)
    (team2Country : String) (team2Players : List Player) :
    Nat → Penalties → Rng → Except String (Penalties × Rng)
  | 0, pens, rng => .ok (pens, rng)
  | n + 1, pens, rng =>
    match pickTaker team1Players (rng 0) with
    | .error e => .error e
    | .ok taker1 =>
      let scored1 := converts (rng 1)
      match pickTaker team2Players (rng 2) with
      | .error e => .error e
      | .ok taker2 =>
        let scored2 := converts (rng 3)
        regularKicks team1Country team1Players team2Country team2Players n
          { team1 := pens.team1 ++ [⟨taker1.name, team1Country, scored1, false⟩],
            team2 := pens.team2 ++ [⟨taker2.name, team2Country, scored2, false⟩] }
          (rng.drop 4)

/-- The loop `while (team1Score === team2Score && round <= 10)` of `generatePenaltyShootout`.
The first argument bounds the number of iterations; the loop is entered with `round = 6` and
leaves at the latest with `round = 11`, so five iterations are all it can make. -/
def suddenDeath (team1Country : String) (team1Players : List Player)
    (team2Country : String) (team2Players : List Player) :
    Nat → ShootoutState → Rng → Except String ShootoutState
  | 0, st, _ => .ok st
  | n + 1, st, rng =>
    if st.team1Score = st.team2Score ∧ st.round ≤ 10 then
      match pickTaker team1Players (rng 0) with
      | .error e => .error e
      | .ok taker1 =>
        let scored1 := converts (rng 1)
        let team1Score := if scored1 then st.team1Score + 1 else st.team1Score
        match pickTaker team2Players (rng 2) with
        | .error e => .error e
        | .ok taker2 =>
          let scored2 := converts (rng 3)
          let team2Score := if scored2 then st.team2Score + 1 else st.team2Score
          let pens : Penalties :=
            { team1 := st.penalties.team1 ++ [⟨taker1.name, team1Country, scored1, true⟩],
              team2 := st.penalties.team2 ++ [⟨taker2.name, team2Country, scored2, true⟩] }
          if team1Score ≠ team2Score then
            .ok ⟨pens, team1Score, team2Score, st.round⟩
          else
            suddenDeath team1Country team1Players team2Country team2Players n
              ⟨pens, team1Score, team2Score, st.round + 1⟩ (rng.drop 4)
    else .ok st

/-- The function `generatePenaltyShootout(team1Country, team1Players, team2Country, team2Players,
winner)`; the last parameter is not used by the body. -/
def generatePenaltyShootout (team1Country : String) (team1Players : List Player)
    (team2Country : String) (team2Players : List Player) (_winner : Winner) (rng : Rng) :
    Except String Shootout :=
  match regularKicks team1Country team1Players team2Country team2Players 5 ⟨[], []⟩ rng with
  | .error e => .error e
  | .ok (pens, rng1) =>
    let team1Score := (pens.team1.filter (fun p => p.scored)).length
    let team2Score := (pens.team2.filter (fun p => p.scored)).length
    match suddenDeath team1Country team1Players team2Country team2Players 5
        ⟨pens, team1Score, team2Score, 6⟩ rng1 with
    | .error e => .error e
    | .ok st =>
      let actualWinner := if st.team1Score > st.team2Score then team1Country else team2Country
      .ok { penalties := st.penalties,
            score := ⟨st.team1Score, st.team2Score⟩,
            winner := actualWinner,
            rounds := st.round - 1 }

/-! ## Score, scorers and the coin flip of `determineWinner` -/

/-- The function `generateScore(rating1, rating2)`: two draws, one per side. The arithmetic is
exact; `Js.generateScore` rounds as the code does. -/
def generateScore (rating1 rating2 : ℚ) (rng : Rng) : (Int × Int) × Rng :=
  let prob1 := rating1 / (rating1 + rating2)
  let prob2 := rating2 / (rating1 + rating2)
  let goals1 := jsRound (max 0 (((rng 0).val + prob1) * 3))
  let goals2 := jsRound (max 0 (((rng 1).val + prob2) * 3))
  ((goals1, goals2), rng.drop 2)

/-- The loop `for (let i = 0; i < numGoals; i++)` of `generateScorers`, `n` iterations of it:
one draw picks the scorer in the pool, the next one the minute. -/
def scorerLoop (teamCountry : String) (pool : List Player) :
    Nat → List Scorer → Rng → Except String (List Scorer × Rng)
  | 0, scorers, rng => .ok (scorers, rng)
  | n + 1, scorers, rng =>
    match pickTaker pool (rng 0) with
    | .error e => .error e
    | .ok scorer =>
      scorerLoop teamCountry pool n
        (scorers ++ [⟨scorer.name, teamCountry, floorMul (rng 1) 90 + 1⟩]) (rng.drop 2)

/-- The sort `scorers.sort((a, b) => a.minute - b.minute)`: ascending by minute, stable. -/
def sortByMinute (scorers : List Scorer) : List Scorer :=
  scorers.insertionSort (fun a b => a.minute ≤ b.minute)

/-- The function `generateScorers(teamCountry, players, numGoals)`. -/
def generateScorers (teamCountry : String) (players : List Player) (numGoals : Int)
    (rng : Rng) : Except String (List Scorer × Rng) :=
  if players.length = 0 then .ok ([], rng)
  else
    let attackers := players.filter (fun p => p.position = "AT" ∨ p.position = "MD")
    let pool := if attackers.length > 0 then attackers else players
    match scorerLoop teamCountry pool numGoals.toNat [] rng with
    | .error e => .error e
    | .ok (scorers, rng1) => .ok (sortByMinute scorers, rng1)

/-- The object `{ ...team, wonBy }`. -/
def TeamSlot.wonBy (team : TeamSlot) (how : String) : Winner :=
  ⟨team.country, team.teamId, team.players, how⟩

/-- The function `determineWinner(team1, score1, team2, score2)`; the coin
`Math.random() > 0.5` is only flipped on equal scores. -/
def determineWinner (team1 : TeamSlot) (score1 : Int) (team2 : TeamSlot) (score2 : Int)
    (rng : Rng) : Winner × Rng :=
  if score1 > score2 then (team1.wonBy "normal", rng)
  else if score2 > score1 then (team2.wonBy "normal", rng)
  else
    let penaltyWinner := if (rng 0).val > 1 / 2 then team1 else team2
    (penaltyWinner.wonBy "penalties", rng.drop 1)

/-! ## Documents and the store -/

/-- The field `score: { team1, team2 }` of a match, `null` on both sides until it is played. -/
structure MatchScore where
  team1 : Option Int
  team2 : Option Int
deriving DecidableEq, Repr, Inhabited

/-- A document of the `matches` collection. `dependsOn` is absent on quarterfinals;
`penaltyShootout` is `none` both when the field is absent and when it is `null`. -/
structure MatchDoc where
  matchId : String
  round : String
  matchNumber : Nat
  team1 : TeamSlot
  team2 : TeamSlot
  status : String
  winner : Option Winner
  score : MatchScore
  goalScorers : List Scorer
  commentary : Option String
  simulationType : Option String
  timestamp : Option String
  nextMatch : Option String
  dependsOn : Option (List String)
  penaltyShootout : Option Shootout
deriving DecidableEq, Repr, Inhabited

/-- A document of the `teams` collection, as written by `Team.toJSON`. -/
structure TeamDoc where
  country : String
  manager : String
  createdBy : String
  teamRating : Nat
  players : List Player
  createdAt : String
deriving DecidableEq, Repr

/-- An element of the array built by `getAllTeams`: `{ id: docSnap.id, ...docSnap.data() }`. -/
structure Team where
  id : String
  country : String
  manager : String
  createdBy : String
  teamRating : Nat
  players : List Player
  createdAt : String
deriving DecidableEq, Repr

/-- The document `tournament/current`. -/
structure TournamentDoc where
  status : String
  currentRound : Option String
  createdAt : Option String
  teamsCount : Option Nat
  resetAt : Option String
deriving DecidableEq, Repr

/-- A document of the `users` collection. -/
structure UserDoc where
  uid : String
  email : String
  role : String
  country : Option String
  displayName : String
  createdAt : String
deriving DecidableEq, Repr

/-- A collection: documents by id, in the order `getDocs` lists them. -/
abbrev Coll (β : Type) := List (String × β)

/-- The read `getDoc(doc(db, coll, id))`: `none` when the snapshot does not exist. The id is
looked up as it stands; `Js.doc` is the resolution of an id by the SDK. -/
def getDoc {β : Type} : Coll β → String → Option β
  | [], _ => none
  | (k, v) :: rest, id => if k = id then some v else getDoc rest id

/-- The read of a reference whose id comes from a nullable field or an array index; a missing
id is read as a missing document (`Js.doc` throws on it, as the SDK does). -/
def getDocAt {β : Type} (c : Coll β) (id : Option String) : Option β :=
  id.bind (getDoc c)

/-- The write `setDoc(doc(db, coll, id), v)`: replaces the document or creates it. -/
def setDoc {β : Type} : Coll β → String → β → Coll β
  | [], id, v => [(id, v)]
  | (k, w) :: rest, id, v => if k = id then (k, v) :: rest else (k, w) :: setDoc rest id v

/-- The write `updateDoc(doc(db, coll, id), fields)`, the fields given as the change `f` they
make to the stored document. Every call in the code follows a read that found the document. -/
def updateDoc {β : Type} (c : Coll β) (id : String) (f : β → β) : Coll β :=
  match getDoc c id with
  | some d => setDoc c id (f d)
  | none => c

/-- The document store. -/
structure Db where
  teams : Coll TeamDoc
  matches_ : Coll MatchDoc
  tournament : Coll TournamentDoc
  users : Coll UserDoc
deriving DecidableEq, Repr

/-! ## `updateNextRound` and `simulateMatch` -/

/-- The call `dependsOn.indexOf(matchId)`: the first index holding the id, `-1` if none does. -/
def indexOf : List String → String → Int
  | [], _ => -1
  | y :: ys, x => if y = x then 0 else if indexOf ys x = -1 then -1 else indexOf ys x + 1

/-- The test `dep.exists() && dep.data().status === "completed"`. -/
def isCompleted (dep : Option MatchDoc) : Bool :=
  match dep with
  | some d => decide (d.status = "completed")
  | none => false

/-- The function `updateNextRound(matchId, winner)`. -/
def updateNextRound (db : Db) (matchId : String) (winner : Winner) : Db :=
  match getDoc db.matches_ matchId with
  | none => db
  | some m =>
    match m.nextMatch with
    | none => db
    | some next =>
      if next = "" then db
      else
        match getDoc db.matches_ next with
        | none => db
        | some nextMatch =>
          let dependsOn := nextMatch.dependsOn.getD []
          let slotIndex := indexOf dependsOn matchId
          let slot : TeamSlot := ⟨winner.country, winner.teamId, winner.players⟩
          let db1 : Db :=
            if slotIndex = 0 then
              { db with matches_ := updateDoc db.matches_ next (fun d => { d with team1 := slot }) }
            else if slotIndex = 1 then
              { db with matches_ := updateDoc db.matches_ next (fun d => { d with team2 := slot }) }
            else db
          let dep1 := getDocAt db1.matches_ (dependsOn.get? 0)
          let dep2 := getDocAt db1.matches_ (dependsOn.get? 1)
          if isCompleted dep1 ∧ isCompleted dep2 then
            { db1 with
              matches_ := updateDoc db1.matches_ next (fun d => { d with status := "pending" }) }
          else db1

/-- The value `teamDoc.data()?.teamRating || 50`. -/
def ratingOrDefault (teamDoc : Option TeamDoc) : ℚ :=
  match teamDoc with
  | some t => if t.teamRating = 0 then 50 else (t.teamRating : ℚ)
  | none => 50

/-- The object returned by a `simulateMatch` call that runs to its end. -/
structure SimResult where
  match_ : MatchDoc
  score1 : Int
  score2 : Int
  scorers : List Scorer
  winner : Winner
  penaltyShootout : Option Shootout
deriving DecidableEq, Repr, Inhabited

/-- How a `simulateMatch` call ends: `return null`, an exception, or the result object. -/
inductive Outcome where
  | null
  | threw (e : String)
  | returned (r : SimResult)
deriving DecidableEq, Repr

/-- The fields written by the `updateDoc(matchRef, { status: "completed", ... })` of
`simulateMatch`. -/
def completeMatch (score1 score2 : Int) (scorers : List Scorer) (winner : Winner)
    (penaltyShootout : Option Shootout) (now : String) (d : MatchDoc) : MatchDoc :=
  { d with
    status := "completed"
    score := ⟨some score1, some score2⟩
    goalScorers := scorers
    winner := some winner
    penaltyShootout := penaltyShootout
    simulationType := some "simulated"
    timestamp := some now }

/-- The block `if (score1 === score2) { ... }` of `simulateMatch`: the shootout record and the
winner after the overwrite of `country`, `teamId`, `players` and `wonBy`. -/
def resolveDraw (m : MatchDoc) (winner : Winner) (rng : Rng) :
    Except String (Winner × Option Shootout) :=
  match generatePenaltyShootout m.team1.country m.team1.players m.team2.country
      m.team2.players winner rng with
  | .error e => .error e
  | .ok shootout =>
    if shootout.winner = m.team1.country then
      .ok (⟨m.team1.country, m.team1.teamId, m.team1.players, "penalties"⟩, some shootout)
    else
      .ok (⟨m.team2.country, m.team2.teamId, m.team2.players, "penalties"⟩, some shootout)

/-- The function `simulateMatch(matchId)`, on the store `db`, with the stream `rng` of its
`Math.random()` draws and `now` the text of `new Date().toISOString()`. It returns the store
after the call and how the call ended. The e-mail notification that follows the progression
writes nothing to the store and its failures are swallowed by the `try`/`catch` around it. -/
def simulateMatch (db : Db) (matchId : String) (rng : Rng) (now : String) : Db × Outcome :=
  match getDoc db.matches_ matchId with
  | none => (db, .null)
  | some m =>
    if m.status ≠ "pending" then (db, .null)
    else
      let rating1 := ratingOrDefault (getDocAt db.teams m.team1.teamId)
      let rating2 := ratingOrDefault (getDocAt db.teams m.team2.teamId)
      let ((score1, score2), rng1) := generateScore rating1 rating2 rng
      match generateScorers m.team1.country m.team1.players score1 rng1 with
      | .error e => (db, .threw e)
      | .ok (scorers1, rng2) =>
        match generateScorers m.team2.country m.team2.players score2 rng2 with
        | .error e => (db, .threw e)
        | .ok (scorers2, rng3) =>
          let scorers := scorers1 ++ scorers2
          let (winner0, rng4) := determineWinner m.team1 score1 m.team2 score2 rng3
          let resolved : Except String (Winner × Option Shootout) :=
            if score1 = score2 then resolveDraw m winner0 rng4 else .ok (winner0, none)
          match resolved with
          | .error e => (db, .threw e)
          | .ok (winner, penaltyShootout) =>
            let db1 : Db :=
              { db with
                matches_ := updateDoc db.matches_ matchId
                  (completeMatch score1 score2 scorers winner penaltyShootout now) }
            (updateNextRound db1 matchId winner,
              .returned ⟨m, score1, score2, scorers, winner, penaltyShootout⟩)

/-- The method `Match.canBePlayed()` of `src/models/Match.js`, on a stored document. -/
def MatchDoc.canBePlayed (m : MatchDoc) : Bool :=
  decide (m.status = "pending") && decide (m.team1.country ≠ "TBD") &&
    decide (m.team2.country ≠ "TBD")

/-! ## `tournamentBracket.js` -/

/-- The swap `[a[i], a[j]] = [a[j], a[i]]`. -/
def swapAt {α : Type} (a : List α) (i j : Nat) : List α :=
  match a.get? i, a.get? j with
  | some x, some y => (a.set i y).set j x
  | _, _ => a

/-- The loop `for (let i = n; i > 0; i--)` of `shuffleArray`, from `i = n` down to `1`. -/
def shuffleLoop {α : Type} : Nat → List α → Rng → List α × Rng
  | 0, shuffled, rng => (shuffled, rng)
  | i + 1, shuffled, rng =>
    let j := floorMul (rng 0) (i + 1 + 1)
    shuffleLoop i (swapAt shuffled (i + 1) j) (rng.drop 1)

/-- The function `shuffleArray(array)`. -/
def shuffleArray {α : Type} (array : List α) (rng : Rng) : List α × Rng :=
  shuffleLoop (array.length - 1) array rng

/-- The object `{ quarterFinals, semiFinals, final }` returned by `createBracket`. -/
structure Bracket where
  quarterFinals : List MatchDoc
  semiFinals : List MatchDoc
  final : List MatchDoc
deriving DecidableEq, Repr

/-- The slot `{ country: t.country, teamId: t.id, players: t.players }`. -/
def Team.slot (t : Team) : TeamSlot := ⟨t.country, some t.id, t.players⟩

/-- The placeholder slot `{ country: "TBD", teamId: null, players: [] }`. -/
def tbdSlot : TeamSlot := ⟨"TBD", none, []⟩

/-- A quarterfinal literal of `createBracket`. -/
def quarterFinal (matchId : String) (matchNumber : Nat) (t1 t2 : Team) (nextMatch : String) :
    MatchDoc :=
  { matchId := matchId, round := "Quarter-Final", matchNumber := matchNumber,
    team1 := t1.slot, team2 := t2.slot, status := "pending", winner := none,
    score := ⟨none, none⟩, goalScorers := [], commentary := none, simulationType := none,
    timestamp := none, nextMatch := some nextMatch, dependsOn := none,
    penaltyShootout := none }

/-- A semifinal or final literal of `createBracket`. -/
def lockedMatch (matchId round : String) (matchNumber : Nat) (nextMatch : Option String)
    (dependsOn : List String) : MatchDoc :=
  { matchId := matchId, round := round, matchNumber := matchNumber,
    team1 := tbdSlot, team2 := tbdSlot, status := "locked", winner := none,
    score := ⟨none, none⟩, goalScorers := [], commentary := none, simulationType := none,
    timestamp := none, nextMatch := nextMatch, dependsOn := some dependsOn,
    penaltyShootout := none }

/-- The function `createBracket(teams)`. Reading `shuffled[k].country` past the end of the array
would throw. -/
def createBracket (teams : List Team) (rng : Rng) : Except String Bracket :=
  if teams.length ≠ 8 then .error ("Need exactly 8 teams, got " ++ toString teams.length)
  else
    match (shuffleArray teams rng).1 with
    | [s0, s1, s2, s3, s4, s5, s6, s7] =>
      .ok
        { quarterFinals :=
            [quarterFinal "QF1" 1 s0 s1 "SF1", quarterFinal "QF2" 2 s2 s3 "SF1",
             quarterFinal "QF3" 3 s4 s5 "SF2", quarterFinal "QF4" 4 s6 s7 "SF2"],
          semiFinals :=
            [lockedMatch "SF1" "Semi-Final" 1 (some "FINAL") ["QF1", "QF2"],
             lockedMatch "SF2" "Semi-Final" 2 (some "FINAL") ["QF3", "QF4"]],
          final := [lockedMatch "FINAL" "Final" 1 none ["SF1", "SF2"]] }
    | _ => .error "TypeError: Cannot read properties of undefined (reading 'country')"

/-- The array `allMatches` of `uploadBracket`. -/
def Bracket.allMatches (b : Bracket) : List MatchDoc :=
  b.quarterFinals ++ b.semiFinals ++ b.final

/-- The function `uploadBracket(bracket)`. -/
def uploadBracket (db : Db) (bracket : Bracket) (now : String) : Db :=
  { db with
    matches_ := bracket.allMatches.foldl (fun c m => setDoc c m.matchId m) db.matches_
    tournament := setDoc db.tournament "current"
      ⟨"ready", some "Quarter-Final", some now, some 8, none⟩ }

/-- A store holds the freshly generated bracket of `teams` when its `matches` collection holds
the seven documents that `uploadBracket` writes for a bracket that `createBracket` makes of
them, and no other. -/
def FreshBracketOf (teams : List Team) (db : Db) : Prop :=
  ∃ rng b now, createBracket teams rng = .ok b ∧
    ∀ id, getDoc db.matches_ id = getDoc (uploadBracket ⟨[], [], [], []⟩ b now).matches_ id

/-- A store holds a freshly generated bracket. -/
def FreshBracket (db : Db) : Prop := ∃ teams, FreshBracketOf teams db

/-- The states that `simulateMatch` calls lead to from `db0`, whatever the match ids, the
random draws and the clock of the calls. -/
inductive Reachable (db0 : Db) : Db → Prop
  | start : Reachable db0 db0
  | call (db : Db) (matchId : String) (rng : Rng) (now : String) :
      Reachable db0 db → Reachable db0 (simulateMatch db matchId rng now).1

/-! ## Notions used to state the properties -/

/-- The tallies kept by the sudden-death loop are the numbers of converted kicks in the two
ledgers. -/
def ShootoutState.Consistent (st : ShootoutState) : Prop :=
  st.team1Score = (st.penalties.team1.filter (fun p => p.scored)).length ∧
  st.team2Score = (st.penalties.team2.filter (fun p => p.scored)).length

/-- The slot write of `updateNextRound` on the next match's document: `team1` for slot index
`0`, `team2` for slot index `1`, nothing for any other index. -/
def fillSlot (slotIndex : Int) (winner : Winner) (d : MatchDoc) : MatchDoc :=
  if slotIndex = 0 then { d with team1 := ⟨winner.country, winner.teamId, winner.players⟩ }
  else if slotIndex = 1 then { d with team2 := ⟨winner.country, winner.teamId, winner.players⟩ }
  else d

/-- The next match that `updateNextRound(matchId, _)` gets to work on: its id and its document,
when the match exists, names a next match and that one exists. -/
def nextTarget (db : Db) (matchId : String) : Option (String × MatchDoc) :=
  match getDoc db.matches_ matchId with
  | none => none
  | some m =>
    match m.nextMatch with
    | none => none
    | some next =>
      if next = "" then none
      else
        match getDoc db.matches_ next with
        | none => none
        | some nextMatch => some (next, nextMatch)

/-- The two dependencies of a next match are both stored with status `"completed"`. -/
def depsCompleted (db : Db) (nextMatch : MatchDoc) : Bool :=
  isCompleted (getDocAt db.matches_ ((nextMatch.dependsOn.getD []).get? 0)) &&
    isCompleted (getDocAt db.matches_ ((nextMatch.dependsOn.getD []).get? 1))

/-- The document of the next match once `updateNextRound(matchId, winner)` is done with it. -/
def progressDoc (db : Db) (matchId : String) (winner : Winner) (nextMatch : MatchDoc) :
    MatchDoc :=
  let filled := fillSlot (indexOf (nextMatch.dependsOn.getD []) matchId) winner nextMatch
  if depsCompleted db nextMatch then { filled with status := "pending" } else filled

/-- How `simulateMatch` settles a match `m` with regulation score `score1`-`score2`: the higher
score wins `"normal"` with no shootout record; on equal scores a shootout record made by
`generatePenaltyShootout` for the two squads is kept and the winner is the slot whose country
the record names (team 2 when it names neither), `"penalties"`. -/
def Resolved (m : MatchDoc) (score1 score2 : Int) (winner : Winner)
    (penaltyShootout : Option Shootout) : Prop :=
  (score1 > score2 ∧ winner = m.team1.wonBy "normal" ∧ penaltyShootout = none) ∨
  (score2 > score1 ∧ winner = m.team2.wonBy "normal" ∧ penaltyShootout = none) ∨
  (score1 = score2 ∧ ∃ rec w0 rng1,
    generatePenaltyShootout m.team1.country m.team1.players m.team2.country m.team2.players
      w0 rng1 = .ok rec ∧
    penaltyShootout = some rec ∧
    winner = (if rec.winner = m.team1.country then m.team1 else m.team2).wonBy "penalties")

/-- The regulation score that `simulateMatch` draws for the match `m` from the stream `rng`. -/
def regulationScore (db : Db) (m : MatchDoc) (rng : Rng) : Int × Int :=
  (generateScore (ratingOrDefault (getDocAt db.teams m.team1.teamId))
    (ratingOrDefault (getDocAt db.teams m.team2.teamId)) rng).1

/-- The store after the first write of `simulateMatch`, before `updateNextRound` runs. -/
def afterOwnWrite (db : Db) (matchId : String) (r : SimResult) (now : String) : Db :=
  { db with
    matches_ := updateDoc db.matches_ matchId
      (completeMatch r.score1 r.score2 r.scorers r.winner r.penaltyShootout now) }

/-- Two match documents agree on every field other than the two team slots and the status. -/
def SameButSlotsAndStatus (d e : MatchDoc) : Prop :=
  e.matchId = d.matchId ∧ e.round = d.round ∧ e.matchNumber = d.matchNumber ∧
  e.winner = d.winner ∧ e.score = d.score ∧ e.goalScorers = d.goalScorers ∧
  e.commentary = d.commentary ∧ e.simulationType = d.simulationType ∧
  e.timestamp = d.timestamp ∧ e.nextMatch = d.nextMatch ∧ e.dependsOn = d.dependsOn ∧
  e.penaltyShootout = d.penaltyShootout

/-- The slot `{ country, teamId, players }` that `updateNextRound` writes for a winner. -/
def Winner.slot (w : Winner) : TeamSlot := ⟨w.country, w.teamId, w.players⟩

/-- The call ended with the result object. -/
def Outcome.isReturned : Outcome → Bool
  | .returned _ => true
  | _ => false

/-- A team slot holds a real team: not the `"TBD"` placeholder name, and a team reference. -/
def TeamSlot.isReal (s : TeamSlot) : Prop := s.country ≠ "TBD" ∧ s.teamId ≠ none

/-- The wiring of a bracket, read off the stored documents: a match that names a next match is
one of the two distinct dependencies that this other match lists, and a dependency list is a
pair of stored matches that both name the listing match as their next match. -/
def Wired (db : Db) : Prop :=
  (∀ id m n, getDoc db.matches_ id = some m → m.nextMatch = some n →
    n ≠ "" ∧ n ≠ id ∧ ∃ nm a b, getDoc db.matches_ n = some nm ∧
      nm.dependsOn = some [a, b] ∧ a ≠ b ∧ (id = a ∨ id = b)) ∧
  (∀ n nm l, getDoc db.matches_ n = some nm → nm.dependsOn = some l →
    ∃ a b ma mb, l = [a, b] ∧ getDoc db.matches_ a = some ma ∧
      getDoc db.matches_ b = some mb ∧ ma.nextMatch = some n ∧ mb.nextMatch = some n)

/-- A match with dependencies is locked exactly when one of them is not completed. -/
def LockInv (db : Db) : Prop :=
  ∀ n nm a b, getDoc db.matches_ n = some nm → nm.dependsOn = some [a, b] →
    (nm.status = "locked" ↔
      ¬ (isCompleted (getDoc db.matches_ a) = true ∧ isCompleted (getDoc db.matches_ b) = true))

/-- Every status is one of the three, and a match without dependencies is never locked. -/
def StatusInv (db : Db) : Prop :=
  ∀ id m, getDoc db.matches_ id = some m →
    (m.status = "locked" ∨ m.status = "pending" ∨ m.status = "completed") ∧
    (m.dependsOn = none → m.status ≠ "locked")

/-- The slots that are filled satisfy `P`: both slots of a match without dependencies, and the
slot fed by a completed dependency. -/
def SlotInv (P : TeamSlot → Prop) (db : Db) : Prop :=
  (∀ id m, getDoc db.matches_ id = some m → m.dependsOn = none → P m.team1 ∧ P m.team2) ∧
  (∀ n nm a b, getDoc db.matches_ n = some nm → nm.dependsOn = some [a, b] →
    (isCompleted (getDoc db.matches_ a) = true → P nm.team1) ∧
    (isCompleted (getDoc db.matches_ b) = true → P nm.team2))

/-- The seven documents of a bracket over the shuffled teams `s0 .. s7`, by id. -/
def bracketDocs (s0 s1 s2 s3 s4 s5 s6 s7 : Team) : Coll MatchDoc :=
  [("QF1", quarterFinal "QF1" 1 s0 s1 "SF1"), ("QF2", quarterFinal "QF2" 2 s2 s3 "SF1"),
   ("QF3", quarterFinal "QF3" 3 s4 s5 "SF2"), ("QF4", quarterFinal "QF4" 4 s6 s7 "SF2"),
   ("SF1", lockedMatch "SF1" "Semi-Final" 1 (some "FINAL") ["QF1", "QF2"]),
   ("SF2", lockedMatch "SF2" "Semi-Final" 2 (some "FINAL") ["QF3", "QF4"]),
   ("FINAL", lockedMatch "FINAL" "Final" 1 none ["SF1", "SF2"])]

/-- What every state of a bracket under simulation satisfies. -/
def BracketInv (P : TeamSlot → Prop) (db : Db) : Prop :=
  Wired db ∧ LockInv db ∧ StatusInv db ∧ SlotInv P db

/-! ## Concrete data for the worked examples -/

/-- The draw `0.5`. -/
def half : Draw := ⟨1 / 2, by norm_num, by norm_num⟩

/-- The draw `0`. -/
def zeroDraw : Draw := ⟨0, by norm_num, by norm_num⟩

/-- The stream whose every draw is `0.5`: every kick is converted. -/
def allHalf : Rng := fun _ => half

/-- The draw `0.9`; a stream of it makes `shuffleArray` leave the order as it is. -/
def nineTenths : Draw := ⟨9 / 10, by norm_num, by norm_num⟩

/-- A one-player squad. -/
def squadOf (name : String) : List Player := [⟨name, "AT", false, []⟩]

/-- A registered team with a one-player squad; its document id is its country. -/
def teamOf (country : String) (rating : Nat) : Team :=
  ⟨country, country, "manager", "admin", rating, squadOf country, "2025-01-01T00:00:00.000Z"⟩

/-- The document of a team built by `teamOf`. -/
def teamDocOf (country : String) (rating : Nat) : String × TeamDoc :=
  (country, ⟨country, "manager", "admin", rating, squadOf country, "2025-01-01T00:00:00.000Z"⟩)

/-- Eight registered teams: Kenya and Mali are rated alike, Ghana above Togo. -/
def sampleTeams : List Team :=
  [teamOf "Kenya" 60, teamOf "Mali" 60, teamOf "Ghana" 80, teamOf "Togo" 40,
   teamOf "Egypt" 70, teamOf "Chad" 70, teamOf "Benin" 50, teamOf "Niger" 50]

/-- The bracket that `createBracket` makes of `sampleTeams` when the shuffle keeps the order. -/
def sampleBracket : Bracket :=
  { quarterFinals :=
      [quarterFinal "QF1" 1 (teamOf "Kenya" 60) (teamOf "Mali" 60) "SF1",
       quarterFinal "QF2" 2 (teamOf "Ghana" 80) (teamOf "Togo" 40) "SF1",
       quarterFinal "QF3" 3 (teamOf "Egypt" 70) (teamOf "Chad" 70) "SF2",
       quarterFinal "QF4" 4 (teamOf "Benin" 50) (teamOf "Niger" 50) "SF2"],
    semiFinals :=
      [lockedMatch "SF1" "Semi-Final" 1 (some "FINAL") ["QF1", "QF2"],
       lockedMatch "SF2" "Semi-Final" 2 (some "FINAL") ["QF3", "QF4"]],
    final := [lockedMatch "FINAL" "Final" 1 none ["SF1", "SF2"]] }

/-- The store right after the bracket of `sampleTeams` was generated. -/
def sampleDb : Db :=
  uploadBracket
    ⟨[teamDocOf "Kenya" 60, teamDocOf "Mali" 60, teamDocOf "Ghana" 80, teamDocOf "Togo" 40,
      teamDocOf "Egypt" 70, teamDocOf "Chad" 70, teamDocOf "Benin" 50, teamDocOf "Niger" 50],
     [], [], []⟩
    sampleBracket "2025-01-01T00:00:00.000Z"

/-- A store with one pending quarterfinal, Kenya against Mali, in which Kenya's squad is
empty; no team document is stored, so both ratings default to 50. -/
def emptySquadDb : Db :=
  ⟨[], [("QF1", quarterFinal "QF1" 1
      ⟨"Kenya", "Kenya", "manager", "admin", 60, [], "2025-01-01T00:00:00.000Z"⟩
      (teamOf "Mali" 60) "SF1")], [], []⟩

/-- A store with one pending quarterfinal, Ghana against Togo, in which Togo's squad is
empty. -/
def emptySquadDb2 : Db :=
  ⟨[], [("QF2", quarterFinal "QF2" 2 (teamOf "Ghana" 60)
      ⟨"Togo", "Togo", "manager", "admin", 60, [], "2025-01-01T00:00:00.000Z"⟩ "SF1")], [], []⟩

/-- A store whose only match names itself as its next match and as both its dependencies. -/
def selfFedDb : Db :=
  ⟨[], [("M", { quarterFinal "M" 1 (teamOf "Ghana" 80) (teamOf "Togo" 40) "M" with
      dependsOn := some ["M", "M"] })], [], []⟩

/-- The result object of an outcome, a blank one when the call did not run to its end. -/
def Outcome.resultD : Outcome → SimResult
  | .returned r => r
  | _ => default

end ANLeague

namespace ANLeague

/-! ## `generateTournament` -/

/-- The function `getAllTeams()`: one element `{ id: docSnap.id, ...docSnap.data() }` per
document of the `teams` collection. -/
def getAllTeams (db : Db) : List Team :=
  db.teams.map (fun e =>
    ⟨e.1, e.2.country, e.2.manager, e.2.createdBy, e.2.teamRating, e.2.players, e.2.createdAt⟩)

/-- The function `generateTournament()`: the store it leaves and how the call ends, `.ok` with
the boolean it returns or `.error` with the exception of `createBracket`. -/
def generateTournament (db : Db) (rng : Rng) (now : String) : Db × Except String Bool :=
  let teams := getAllTeams db
  if teams.length ≠ 8 then (db, .ok false)
  else
    match createBracket teams rng with
    | .error e => (db, .error e)
    | .ok bracket => (uploadBracket db bracket now, .ok true)

/-! ## `getTopScorers` -/

/-- An element of the array returned by `getTopScorers`. -/
structure TopScorer where
  player : String
  team : String
  goals : Nat
deriving DecidableEq, Repr

/-- The template literal of `getTopScorers` that makes the key of a scorer event. -/
def scorerKey (s : Scorer) : String := s.player ++ "|" ++ s.team

/-- The update `scorerCounts[key] = (scorerCounts[key] || 0) + 1` of an object whose own
properties are listed in the order of their creation, as `Object.entries` lists them (a key
holds a `|`, so none is an array index). -/
def bump : List (String × Nat) → String → List (String × Nat)
  | [], key => [(key, 1)]
  | (k, n) :: rest, key => if k = key then (k, n + 1) :: rest else (k, n) :: bump rest key

/-- The call `key.split("|")`, on the characters of the key. -/
def splitBar : List Char → List (List Char)
  | [] => [[]]
  | c :: cs =>
    if c = '|' then [] :: splitBar cs
    else
      match splitBar cs with
      | piece :: pieces => (c :: piece) :: pieces
      | [] => [[c]]

/-- The callback `([key, goals]) => { const [player, team] = key.split("|"); return { player,
team, goals } }`. A key holds a `|`, so the split has at least two pieces; with fewer the
missing fields would be `undefined`, which the last two cases stand for. -/
def entryOf (key : String) (goals : Nat) : TopScorer :=
  match splitBar key.data with
  | player :: team :: _ => ⟨String.mk player, String.mk team, goals⟩
  | [player] => ⟨String.mk player, "", goals⟩
  | [] => ⟨"", "", goals⟩

/-- The sort `.sort((a, b) => b.goals - a.goals)`: descending by goals, stable. -/
def sortByGoals (entries : List TopScorer) : List TopScorer :=
  entries.insertionSort (fun a b => a.goals ≥ b.goals)

/-- The function `getTopScorers()`; the documents are visited in the order of the
collection. -/
def getTopScorers (db : Db) : List TopScorer :=
  let scorerCounts := db.matches_.foldl
    (fun counts e => e.2.goalScorers.foldl (fun c scorer => bump c (scorerKey scorer)) counts) []
  sortByGoals (scorerCounts.map (fun e => entryOf e.1 e.2))

/-! ## Notions used to state the properties of the ledgers, the bracket and the leaderboard -/

/-- The number of converted kicks among the first `k` of a ledger. -/
def convertedIn (k : Nat) (ledger : List Kick) : Nat :=
  ((ledger.take k).filter (fun p => p.scored)).length

/-- A pair of ledgers as the shootout builds them: equally long, the first five kicks of each
side unflagged and all later ones flagged `suddenDeath`, and the two sides level after each
full round from the fifth on, the last round excepted. -/
def Penalties.WellFormed (pens : Penalties) : Prop :=
  pens.team1.length = pens.team2.length ∧ 5 ≤ pens.team1.length ∧
  pens.team1.map (fun p => p.suddenDeath) =
    List.replicate 5 false ++ List.replicate (pens.team1.length - 5) true ∧
  pens.team2.map (fun p => p.suddenDeath) =
    List.replicate 5 false ++ List.replicate (pens.team2.length - 5) true ∧
  ∀ k, 5 ≤ k → k < pens.team1.length → convertedIn k pens.team1 = convertedIn k pens.team2

/-- The state of the sudden-death loop at the head of an iteration. -/
def ShootoutState.AtLoopHead (st : ShootoutState) : Prop :=
  st.Consistent ∧ st.penalties.WellFormed ∧ st.penalties.team1.length + 1 = st.round ∧
  (st.round = 6 ∨ st.team1Score = st.team2Score)

/-- How the sudden-death loop leaves its locals: the ledgers are well formed and the tallies
count their converted kicks; either the tallies differed after the five regular rounds, or a
sudden-death round made them differ and `round` still numbers that round, or they are level
after round 10. -/
def ShootoutState.AtExit (st : ShootoutState) : Prop :=
  st.Consistent ∧ st.penalties.WellFormed ∧ st.penalties.team1.length ≤ 10 ∧
  ((st.penalties.team1.length = 5 ∧ st.round = 6 ∧ st.team1Score ≠ st.team2Score) ∨
   (6 ≤ st.penalties.team1.length ∧ st.round = st.penalties.team1.length ∧
      st.team1Score ≠ st.team2Score) ∨
   (st.penalties.team1.length = 10 ∧ st.round = 11 ∧ st.team1Score = st.team2Score))

/-- The bracket literal of `createBracket` for the shuffled order `s0, ..., s7`. -/
def bracketOf (s0 s1 s2 s3 s4 s5 s6 s7 : Team) : Bracket :=
  { quarterFinals :=
      [quarterFinal "QF1" 1 s0 s1 "SF1", quarterFinal "QF2" 2 s2 s3 "SF1",
       quarterFinal "QF3" 3 s4 s5 "SF2", quarterFinal "QF4" 4 s6 s7 "SF2"],
    semiFinals :=
      [lockedMatch "SF1" "Semi-Final" 1 (some "FINAL") ["QF1", "QF2"],
       lockedMatch "SF2" "Semi-Final" 2 (some "FINAL") ["QF3", "QF4"]],
    final := [lockedMatch "FINAL" "Final" 1 none ["SF1", "SF2"]] }

/-- The scorer events of all match records, in the order `getTopScorers` visits them. -/
def allScorerEvents (db : Db) : List Scorer := db.matches_.flatMap (fun e => e.2.goalScorers)

/-! ## More concrete data for the worked examples -/

/-- The stream whose every draw is `0.5` but the one at index `k`, which is `0`. With
`k = 23` all ten regular kicks are converted and so is team 1's first sudden-death kick, and
team 2's first sudden-death kick (outcome draw 23) is missed. -/
def missAt (k : Nat) : Rng := fun i => if i = k then zeroDraw else half

/-- A kick taken by the only player of a `squadOf` squad. -/
def kickOf (country : String) (scored suddenDeath : Bool) : Kick :=
  ⟨country, country, scored, suddenDeath⟩

/-- The shootout record of Kenya against Mali under the stream `missAt 23`; its value is
checked against `generatePenaltyShootout` where it is used. -/
def sampleShootout : Shootout :=
  { penalties :=
      { team1 := List.replicate 5 (kickOf "Kenya" true false) ++ [kickOf "Kenya" true true],
        team2 := List.replicate 5 (kickOf "Mali" true false) ++ [kickOf "Mali" false true] },
    score := ⟨6, 5⟩, winner := "Kenya", rounds := 5 }

/-- The stream whose draws 2 to 5 are `0.9` and whose other draws are `0`. In `simulateMatch`
draws 0 and 1 make the score and the next ones the scorer events, two draws an event: the
pick in the pool, then the minute. -/
def lateThenEarly : Rng := fun i => if 2 ≤ i ∧ i < 6 then nineTenths else zeroDraw

/-- A squad with one AT player among players of other positions. -/
def mixedSquad : List Player :=
  [⟨"Keeper", "GK", false, []⟩, ⟨"Striker", "AT", true, []⟩, ⟨"Back", "DF", false, []⟩]

/-- A store whose `teams` collection holds one team for each of the given countries and whose
other collections are empty. -/
def registeredDb (countries : List String) : Db :=
  ⟨countries.map (fun c => teamDocOf c 50), [], [], []⟩

/-- A store whose only match record has the given scorer events. -/
def scorersDb (events : List Scorer) : Db :=
  ⟨[], [("QF1", { quarterFinal "QF1" 1 (teamOf "Ivory|Coast" 60) (teamOf "Ghana" 60) "SF1" with
      status := "completed", goalScorers := events })], [], []⟩

end ANLeague

namespace ANLeague

/-! ## `src/models/Match.js`: the methods of the class `Match`

The state of a `Match` object is the record of its fields, which `toJSON` writes as they are:
a `MatchDoc` (the class has no `penaltyShootout` field). A method that can throw returns the
state it leaves together with the exception, if any. The methods `simulate` and
`determineWinner`, whose scores are JavaScript numbers, are `Js.Match.simulate` and
`Js.Match.determineWinner` below. -/

/-- The method `Match.addGoalScorer(playerName, team, minute)` for an integer `minute`. -/
def MatchDoc.addGoalScorer (m : MatchDoc) (playerName team : String) (minute : Int) :
    MatchDoc × Option String :=
  if minute < 1 ∨ minute > 90 then (m, some "Goal minute must be between 1 and 90")
  else
    ({ m with goalScorers := sortByMinute (m.goalScorers ++ [⟨playerName, team, minute.toNat⟩]) },
      none)

/-! ## `src/models/Player.js` -/

/-- The method `Player.weightedRandom(min, max, weight)`. The function `Math.pow` is the
parameter `pow`: the exponent 0.8 has no exact rational power. -/
def weightedRandom (pow : ℚ → ℚ → ℚ) (min max : Nat) (weight : ℚ) (u : Draw) : Nat :=
  (Int.floor (pow u.val weight * (((max : ℚ) - min) + 1))).toNat + min

/-- The callback of `positions.forEach` in `Player.generateRatings()`: the rating written
under the key `pos`. -/
def ratingFor (pow : ℚ → ℚ → ℚ) (position pos : String) (u : Draw) : Nat :=
  if pos = position then weightedRandom pow 50 100 (4 / 5) u
  else weightedRandom pow 0 50 2 u

/-- The method `Player.generateRatings()`: one draw per key, in the order GK, DF, MD, AT. -/
def generateRatings (pow : ℚ → ℚ → ℚ) (position : String) (rng : Rng) :
    List (String × Nat) × Rng :=
  ([("GK", ratingFor pow position "GK" (rng 0)), ("DF", ratingFor pow position "DF" (rng 1)),
    ("MD", ratingFor pow position "MD" (rng 2)), ("AT", ratingFor pow position "AT" (rng 3))],
   rng.drop 4)

/-- The constructor `new Player(name, position, isCaptain)`. -/
def Player.create (pow : ℚ → ℚ → ℚ) (name position : String) (isCaptain : Bool) (rng : Rng) :
    Player × Rng :=
  (⟨name, position, isCaptain, (generateRatings pow position rng).1⟩, rng.drop 4)

/-- The method `Player.getOverallRating()`. -/
def Player.getOverallRating (p : Player) : Int :=
  jsRound ((((p.ratings.map Prod.snd).sum : Nat) : ℚ) / 4)

/-- The method `Player.isValid()`, as a truth value; the keys of `ratings` are the first
components of the list. -/
def Player.isValid (p : Player) : Bool :=
  decide (p.name ≠ "") && decide (p.position ≠ "") &&
    decide (p.position ∈ ["GK", "DF", "MD", "AT"]) && decide (p.ratings.length = 4)

/-! ## `src/models/Team.js`

The state of a `Team` object is the record of its fields, a `TeamDoc`. -/

/-- The method `Team.updateTeamRating()`. -/
def TeamDoc.updateTeamRating (t : TeamDoc) : TeamDoc :=
  if t.players.length = 0 then { t with teamRating := 0 }
  else
    let total : Int := (t.players.map Player.getOverallRating).sum
    { t with teamRating := (jsRound ((total : ℚ) / (t.players.length : ℚ))).toNat }

/-- The method `Team.addPlayer(player)`; a value of type `Player` is an instance of the
class. -/
def TeamDoc.addPlayer (t : TeamDoc) (player : Player) : TeamDoc × Option String :=
  if t.players.length ≥ 23 then (t, some "Squad is full (max 23 players)")
  else (({ t with players := t.players ++ [player] }).updateTeamRating, none)

/-- The array `firstNames` of `Team.generatePlayerName()`. -/
def firstNames : List String :=
  ["Abel", "Tunde", "Kwame", "Amina", "Fatou", "Sibusiso", "Mohamed", "Lindiwe",
   "Samuel", "Chidi", "Aisha", "Kofi", "Nia", "Thabo", "Zola", "Ama", "Tariq",
   "Ngozi", "Keita", "Mamadou", "Youssef", "Kwesi", "Nkosi", "Sekou", "Amara",
   "Blessing", "Emmanuel", "Chiamaka", "Tendai", "Rashid", "Kabiru", "Jelani"]

/-- The array `lastNames` of `Team.generatePlayerName()`. -/
def lastNames : List String :=
  ["Mensah", "Nkosi", "Adomako", "Okeke", "Mokoena", "Diallo", "Mohammed",
   "Kamara", "Abebe", "Chukwu", "Dlamini", "Kone", "Otieno", "Sekou",
   "Toure", "Ndlovu", "Okafor", "Musa", "Traore", "Balogun", "Zuma"]

/-- The method `Team.generatePlayerName()`: two draws. An index past the end of an array,
which no draw gives, would read `undefined`. -/
def generatePlayerName (rng : Rng) : String × Rng :=
  (firstNames.getD (floorMul (rng 0) firstNames.length) "undefined" ++ " " ++
    lastNames.getD (floorMul (rng 1) lastNames.length) "undefined", rng.drop 2)

/-- The loop `while (usedNames.has(name)) { name = this.generatePlayerName(); }` of
`Team.generateSquad()`, entered with the name `name`. The first argument bounds the number
of iterations; `none` stands for a loop that has not ended within the bound. -/
def freshName (usedNames : List String) : Nat → String → Rng → Option (String × Rng)
  | 0, name, rng => if name ∈ usedNames then none else some (name, rng)
  | fuel + 1, name, rng =>
    if name ∈ usedNames then
      freshName usedNames fuel (generatePlayerName rng).1 (generatePlayerName rng).2
    else some (name, rng)

/-- The loop `for (let i = 0; i < 23; i++)` of `Team.generateSquad()`, `n` iterations of it:
a draw for the position, the draws of the name, then the four draws of the ratings. -/
def squadLoop (pow : ℚ → ℚ → ℚ) (fuel : Nat) :
    Nat → List Player → List String → Rng → Option (List Player × Rng)
  | 0, players, _, rng => some (players, rng)
  | n + 1, players, usedNames, rng =>
    let position := ["GK", "DF", "MD", "AT"].getD (floorMul (rng 0) 4) "undefined"
    match freshName usedNames fuel (generatePlayerName (rng.drop 1)).1
        (generatePlayerName (rng.drop 1)).2 with
    | none => none
    | some (name, rng1) =>
      squadLoop pow fuel n (players ++ [(Player.create pow name position false rng1).1])
        (usedNames ++ [name]) (Player.create pow name position false rng1).2

/-- The method `Team.generateSquad()`. The result is `none` when a name loop has not ended
within `fuel` iterations; the assignment `this.players[captainIndex].isCaptain = true` throws
when the index names no player. -/
def TeamDoc.generateSquad (pow : ℚ → ℚ → ℚ) (fuel : Nat) (t : TeamDoc) (rng : Rng) :
    Option (Except String TeamDoc) :=
  match squadLoop pow fuel 23 [] [] rng with
  | none => none
  | some (players, rng1) =>
    let captainIndex := floorMul (rng1 0) 23
    match players.get? captainIndex with
    | none => some (.error "TypeError: Cannot set properties of undefined (setting 'isCaptain')")
    | some captain =>
      some (.ok ({ t with
        players := players.set captainIndex { captain with isCaptain := true } }).updateTeamRating)

/-- The method `Team.isValidSquad()`. -/
def TeamDoc.isValidSquad (t : TeamDoc) : Bool :=
  decide (t.players.length = 23) && t.players.any (fun p => p.isCaptain) &&
    t.players.all (fun p => p.isValid)

/-- The constructor `new Team(country, manager, createdBy)`, with `now` the text of
`new Date().toISOString()`. -/
def TeamDoc.create (country manager createdBy now : String) : Except String TeamDoc :=
  if country = "" ∨ manager = "" then .error "Country and manager are required"
  else .ok ⟨country, manager, createdBy, 0, [], now⟩

/-! ## `resetTournament` of `src/tournamentBracket.js` -/

/-- The write `deleteDoc(ref)` on the reference of the document `id`. -/
def deleteDoc {β : Type} (c : Coll β) (id : String) : Coll β :=
  c.filter (fun e => decide (e.1 ≠ id))

/-- The function `resetTournament()`, with `now` the text of `new Date().toISOString()`: every
document of the snapshot of `matches` is deleted, then `tournament/current` is overwritten;
the new document has no `createdAt` and no `teamsCount`. -/
def resetTournament (db : Db) (now : String) : Db :=
  { db with
    matches_ := db.matches_.foldl (fun c docSnap => deleteDoc c docSnap.1) db.matches_
    tournament := setDoc db.tournament "current" ⟨"reset", none, none, none, some now⟩ }

/-! ## `Validators.sanitizeString` of `src/utils/validation.js`

A text is the list of its characters. Each regular expression of the function is the
function that gives, for a text, the length of the match that starts at its first character,
if there is one; none of them matches the empty text. -/

/-- Two characters that the flag `i` does not tell apart: the same letter of the ASCII
alphabet in either case, or the same character. -/
def sameLetter (a b : Char) : Bool := a.toLower == b.toLower

/-- The text after the literal `pat` at the start of a text, letters compared without case. -/
def dropLiteral : List Char → List Char → Option (List Char)
  | [], s => some s
  | _ :: _, [] => none
  | p :: ps, c :: cs => if sameLetter p c then dropLiteral ps cs else none

/-- The class `\w` without the flag `u`: letters of the ASCII alphabet, digits, underscore. -/
def isWordChar (c : Char) : Bool := c.isAlphanum || c == '_'

/-- The line terminators, which `.` does not match: U+000A, U+000D, U+2028 and U+2029. -/
def isLineTerminator (c : Char) : Bool :=
  c.toNat == 0x0a || c.toNat == 0x0d || c.toNat == 0x2028 || c.toNat == 0x2029

/-- The class `\s`, also what `trim()` strips: the white space U+0009, U+000B, U+000C, U+0020,
U+00A0, U+1680, U+2000 to U+200A, U+202F, U+205F, U+3000 and U+FEFF, and the line
terminators. -/
def isSpace (c : Char) : Bool :=
  c.toNat == 0x09 || c.toNat == 0x0b || c.toNat == 0x0c || c.toNat == 0x20 ||
    c.toNat == 0xa0 || c.toNat == 0x1680 || (0x2000 ≤ c.toNat && c.toNat ≤ 0x200a) ||
    c.toNat == 0x202f || c.toNat == 0x205f || c.toNat == 0x3000 || c.toNat == 0xfeff ||
    isLineTerminator c

/-- The length of a match of `[^>]*>` at the start of a text: up to its first `>`. -/
def untilGt : List Char → Option Nat
  | [] => none
  | c :: cs => if c = '>' then some 1 else (untilGt cs).map (fun k => k + 1)

/-- The length of a match of `.*?<\/script>` (flag `i`) at the start of a text: up to the
first closing tag, when no line terminator comes before it. -/
def untilCloseScript : List Char → Option Nat
  | [] => none
  | c :: cs =>
    if (dropLiteral "</script>".data (c :: cs)).isSome then some 9
    else if isLineTerminator c then none
    else (untilCloseScript cs).map (fun k => k + 1)

/-- The expression `/<script[^>]*>.*?<\/script>/gi` at the start of a text. -/
def scriptTagAt (s : List Char) : Option Nat :=
  match dropLiteral "<script".data s with
  | none => none
  | some rest =>
    match untilGt rest with
    | none => none
    | some k => (untilCloseScript (rest.drop k)).map (fun j => 7 + k + j)

/-- The expression `/<[^>]*>/g` at the start of a text. -/
def tagAt : List Char → Option Nat
  | [] => none
  | c :: cs => if c = '<' then (untilGt cs).map (fun k => k + 1) else none

/-- The expression `/[<>]/g` at the start of a text. -/
def angleAt : List Char → Option Nat
  | [] => none
  | c :: _ => if c = '<' ∨ c = '>' then some 1 else none

/-- The expression `/javascript:/gi` at the start of a text. -/
def javascriptAt (s : List Char) : Option Nat :=
  (dropLiteral "javascript:".data s).map (fun _ => 11)

/-- The expression `/on\w+\s*=/gi` at the start of a text. -/
def handlerAt (s : List Char) : Option Nat :=
  match dropLiteral "on".data s with
  | none => none
  | some rest =>
    let k := (rest.takeWhile isWordChar).length
    let w := ((rest.drop k).takeWhile isSpace).length
    if k = 0 then none
    else
      match (rest.drop k).drop w with
      | c :: _ => if c = '=' then some (2 + k + w + 1) else none
      | [] => none

/-- The call `text.replace(re, '')` for a global expression `re` given by `matchAt`: the
matches are found from left to right, each search starting where the last match ended; the
first argument counts the characters of the current match that are still to be dropped. -/
def removeMatches (matchAt : List Char → Option Nat) : Nat → List Char → List Char
  | _, [] => []
  | skip + 1, _ :: cs => removeMatches matchAt skip cs
  | 0, c :: cs =>
    match matchAt (c :: cs) with
    | some (n + 1) => removeMatches matchAt n cs
    | _ => c :: removeMatches matchAt 0 cs

/-- The call `text.trim()`. -/
def trim (s : List Char) : List Char :=
  ((s.dropWhile isSpace).reverse.dropWhile isSpace).reverse

/-- The function `Validators.sanitizeString(input)` for an input that is a string. -/
def sanitizeString (input : String) : String :=
  String.mk (trim
    (removeMatches handlerAt 0
      (removeMatches javascriptAt 0
        (removeMatches angleAt 0
          (removeMatches tagAt 0
            (removeMatches scriptTagAt 0 input.data))))))

/-! ## `src/scripts/simulateAllMatches.js` -/

/-- The calls `await simulateMatch(id)` of a `try` block, one per id of the list, the call
number `i` with its own stream of draws `rng i` and clock `now i`: the store they leave and
how they ended. A call that throws ends the block, the calls after it are not made. -/
def simulateList (rng : Nat → Rng) (now : Nat → String) :
    List String → Nat → Db → Db × List Outcome
  | [], _, db => (db, [])
  | id :: rest, i, db =>
    match (simulateMatch db id (rng i) (now i)).2 with
    | .threw e => ((simulateMatch db id (rng i) (now i)).1, [.threw e])
    | o =>
      ((simulateList rng now rest (i + 1) (simulateMatch db id (rng i) (now i)).1).1,
        o :: (simulateList rng now rest (i + 1) (simulateMatch db id (rng i) (now i)).1).2)

/-- The function `simulateAllMatches()` of `src/scripts/simulateAllMatches.js`. -/
def simulateAllMatches (rng : Nat → Rng) (now : Nat → String) (db : Db) : Db × List Outcome :=
  simulateList rng now ["QF1", "QF2", "QF3", "QF4", "SF1", "SF2", "FINAL"] 0 db

/-! ## Notions used to state the properties of the classes -/

/-- What the model asks of the parameter that stands for `Math.pow`: a number of `[0, 1)`
raised to a positive power is a number of `[0, 1)`. -/
def PowInUnit (pow : ℚ → ℚ → ℚ) : Prop :=
  ∀ x w, 0 ≤ x → x < 1 → 0 < w → 0 ≤ pow x w ∧ pow x w < 1

/-- The rating of a squad in the words of the specification: the mean of the overall ratings
of its players, rounded, and 0 for an empty squad. -/
def squadRating (players : List Player) : Int :=
  if players = [] then 0
  else jsRound ((((players.map Player.getOverallRating).sum : Int) : ℚ) / (players.length : ℚ))

/-- The calls `addPlayer(p)` for the players `p` of a list, one after the other, on the team
`t`; a call that throws leaves the team as it is. -/
def addPlayers (t : TeamDoc) (players : List Player) : TeamDoc :=
  players.foldl (fun s p => (s.addPlayer p).1) t

/-! ## Notions used to state the run of a whole tournament -/

/-- Every completed match has a winner who is one of its own two teams. -/
def WinnerInv (db : Db) : Prop :=
  ∀ id e, getDoc db.matches_ id = some e → e.status = "completed" →
    ∃ w, e.winner = some w ∧ (w.slot = e.team1 ∨ w.slot = e.team2)

/-- A state of the bracket `db0` in which exactly the matches of `done` are completed. -/
def Stage (db0 db : Db) (done : List String) : Prop :=
  Reachable db0 db ∧ WinnerInv db ∧
    ∀ k, isCompleted (getDoc db.matches_ k) = decide (k ∈ done)

/-- A schedule can be played after the matches of `done`: no match of it is played twice, and
each one is in the bracket `db0` and has no dependencies or two that come before it. -/
def Playable (db0 : Db) : List String → List String → Prop
  | _, [] => True
  | done, id :: rest =>
    id ∉ done ∧
    (∃ d, getDoc db0.matches_ id = some d ∧
      (d.dependsOn = none ∨ ∃ a b, d.dependsOn = some [a, b] ∧ a ∈ done ∧ b ∈ done)) ∧
    Playable db0 (id :: done) rest

/-! ## Concrete data for the examples of the classes -/

/-- The stream of draws `(k mod 32) / 32`, where `k` is the index of the draw divided by 7:
in `generateSquad` the player number `k` draws the first name number `k`. -/
def namesApart : Rng := fun i =>
  ⟨((i / 7 % 32 : Nat) : ℚ) / 32, by positivity, by
    rw [div_lt_one (by norm_num)]
    exact_mod_cast Nat.mod_lt _ (by norm_num)⟩

/-- A stand-in for `Math.pow` that ignores the exponent. -/
def powId : ℚ → ℚ → ℚ := fun x _ => x

/-- A match object whose scorer list is out of order, minute 80 before minute 10. -/
def unsortedMatch : MatchDoc :=
  { quarterFinal "QF1" 1 (teamOf "Kenya" 60) (teamOf "Mali" 60) "SF1" with
    goalScorers := [⟨"Kenya", "Kenya", 80⟩, ⟨"Mali", "Mali", 10⟩] }

/-- The squad that `generateSquad` makes for Kenya from the stream `namesApart`, with the
identity in the place of the power and no retry of a name. -/
def sampleSquad : TeamDoc :=
  match TeamDoc.generateSquad powId 0 ⟨"Kenya", "manager", "admin", 0, [], "now"⟩ namesApart with
  | some (.ok t) => t
  | _ => ⟨"", "", "", 0, [], ""⟩

/-- A team whose squad is full: 23 players added one by one to the empty squad. -/
def fullSquad : TeamDoc :=
  addPlayers ⟨"Kenya", "manager", "admin", 0, [], "now"⟩
    (List.replicate 23 ⟨"Kofi", "AT", false, []⟩)

end ANLeague
namespace ANLeague

/-! ## JavaScript numbers

The functions above compute with exact rationals. The definitions of the namespace `Js` below
compute as the code does, in IEEE 754 binary64 with rounding to nearest, ties to even, after
every operation; the negative zero is not told apart from zero. -/

/-- The position of the leading binary digit of a positive natural number, `0` for `0` and
`1`; the first argument bounds the number of halvings and any bound of at least `n` will do. -/
def ilog : Nat → Nat → Nat
  | 0, _ => 0
  | fuel + 1, n => if n < 2 then 0 else ilog fuel (n / 2) + 1

/-- The binary exponent of a positive rational `x`: the `e` with `2 ^ e <= x < 2 ^ (e + 1)`. -/
def expo (x : ℚ) : Int :=
  let e0 : Int := (ilog x.num.toNat x.num.toNat : Int) - (ilog x.den x.den : Int)
  if (2 : ℚ) ^ e0 ≤ x then e0 else e0 - 1

/-- The integer nearest to `y`, the even one of the two when `y` is half-way between them. -/
def roundEven (y : ℚ) : Int :=
  if 2 * (y - Int.floor y) < 1 then Int.floor y
  else if 2 * (y - Int.floor y) > 1 then Int.floor y + 1
  else if Int.floor y % 2 = 0 then Int.floor y else Int.floor y + 1

/-- The gap between neighbouring binary64 numbers around a positive rational `x`: 52 binary
digits below its leading digit, and `2 ^ (-1074)` in the subnormal range. -/
def ulp (x : ℚ) : ℚ := (2 : ℚ) ^ (max (expo x) (-1022) - 52)

/-- The binary64 number nearest to a non-negative rational, were the exponent range unbounded
above. -/
def round64 (x : ℚ) : ℚ :=
  if x ≤ 0 then 0 else (roundEven (x / ulp x) : ℚ) * ulp x

/-- A JavaScript number: a finite number, an infinity or `NaN`. -/
inductive JsNum where
  | fin (q : ℚ)
  | posInf
  | negInf
  | nan
deriving DecidableEq

/-- The rounding of an exact result to a JavaScript number: to the nearest binary64 number,
and to an infinity from `2 ^ 1024` on. -/
def JsNum.fl (x : ℚ) : JsNum :=
  if 0 ≤ x then
    if round64 x < (2 : ℚ) ^ (1024 : Int) then .fin (round64 x) else .posInf
  else
    if round64 (-x) < (2 : ℚ) ^ (1024 : Int) then .fin (-round64 (-x)) else .negInf

/-- The operator `+` on numbers. -/
def JsNum.add : JsNum → JsNum → JsNum
  | .fin a, .fin b => JsNum.fl (a + b)
  | .nan, _ => .nan
  | _, .nan => .nan
  | .posInf, .negInf => .nan
  | .negInf, .posInf => .nan
  | .posInf, _ => .posInf
  | _, .posInf => .posInf
  | .negInf, _ => .negInf
  | _, .negInf => .negInf

/-- The operator `*` on numbers. -/
def JsNum.mul : JsNum → JsNum → JsNum
  | .fin a, .fin b => JsNum.fl (a * b)
  | .nan, _ => .nan
  | _, .nan => .nan
  | .fin a, .posInf => if a = 0 then .nan else if 0 < a then .posInf else .negInf
  | .fin a, .negInf => if a = 0 then .nan else if 0 < a then .negInf else .posInf
  | .posInf, .fin b => if b = 0 then .nan else if 0 < b then .posInf else .negInf
  | .negInf, .fin b => if b = 0 then .nan else if 0 < b then .negInf else .posInf
  | .posInf, .posInf => .posInf
  | .negInf, .negInf => .posInf
  | .posInf, .negInf => .negInf
  | .negInf, .posInf => .negInf

/-- The operator `/` on numbers; a zero divisor counts as the positive zero. -/
def JsNum.div : JsNum → JsNum → JsNum
  | .fin a, .fin b =>
    if b = 0 then (if a = 0 then .nan else if 0 < a then .posInf else .negInf)
    else JsNum.fl (a / b)
  | .nan, _ => .nan
  | _, .nan => .nan
  | .fin _, .posInf => .fin 0
  | .fin _, .negInf => .fin 0
  | .posInf, .fin b => if 0 ≤ b then .posInf else .negInf
  | .negInf, .fin b => if 0 ≤ b then .negInf else .posInf
  | .posInf, .posInf => .nan
  | .posInf, .negInf => .nan
  | .negInf, .posInf => .nan
  | .negInf, .negInf => .nan

/-- The call `Math.max(0, x)`. -/
def JsNum.max0 : JsNum → JsNum
  | .fin a => .fin (max 0 a)
  | .posInf => .posInf
  | .negInf => .fin 0
  | .nan => .nan

/-- The call `Math.round(x)`. -/
def JsNum.round : JsNum → JsNum
  | .fin a => .fin (jsRound a)
  | x => x

/-- The comparison `x > y` of two numbers, false when one of them is `NaN`. -/
def JsNum.gt : JsNum → JsNum → Bool
  | .fin a, .fin b => decide (a > b)
  | .posInf, .fin _ => true
  | .posInf, .negInf => true
  | .fin _, .negInf => true
  | _, _ => false

/-- A rational is a JavaScript number: rounding leaves it as it is. -/
def IsDouble (x : ℚ) : Prop := JsNum.fl x = .fin x

namespace Js

/-- The function `generateScore(rating1, rating2)` in the arithmetic of the code: two draws,
one per side. -/
def generateScore (rating1 rating2 : JsNum) (rng : Rng) : (JsNum × JsNum) × Rng :=
  let prob1 := rating1.div (rating1.add rating2)
  let prob2 := rating2.div (rating1.add rating2)
  let goals1 := ((((JsNum.fin (rng 0).val).add prob1).mul (.fin 3)).max0).round
  let goals2 := ((((JsNum.fin (rng 1).val).add prob2).mul (.fin 3)).max0).round
  ((goals1, goals2), rng.drop 2)

end Js


/-- The integer that a number holds, `0` for an infinity or `NaN`; `simulateMatch` takes it of
its goal counts, which are finite integers whatever the stored ratings. -/
def JsNum.toInt : JsNum → Int
  | .fin q => Int.floor q
  | _ => 0

/-! ## Document references of the Firestore SDK

The call `doc(db, coll, id)` of the SDK builds the path of the document from its arguments:
each argument is cut at the character `/`, the empty pieces are dropped, and the pieces of all
the arguments together must be even in number. An argument that is `null` or `undefined`
throws a `TypeError`, an argument holding `//` and a path with an odd number of pieces throw a
`FirestoreError`. The definitions of the namespace `Js` below read and write through such
references; `getDoc`, `getDocAt` and `updateDoc` above look a document up by its id as it
stands. -/

namespace Js

/-- The test `path.indexOf('//') >= 0`. -/
def hasDoubleSlash : List Char → Bool
  | [] => false
  | c :: rest => (c == '/' && rest.head? == some '/') || hasDoubleSlash rest

/-- The call `path.split('/')`. -/
def splitSlash : List Char → List (List Char)
  | [] => [[]]
  | c :: cs =>
    if c = '/' then [] :: splitSlash cs
    else
      match splitSlash cs with
      | seg :: rest => (c :: seg) :: rest
      | [] => [[c]]

/-- The pieces `path.split('/').filter(segment => segment.length > 0)`. -/
def segments (path : String) : List String :=
  ((splitSlash path.data).filter (fun seg => seg.length > 0)).map String.mk

/-- A value that the code passes to `doc` as an id: a string, `null` (a `teamId` of a
placeholder slot) or `undefined` (an index past the end of `dependsOn`). -/
inductive Id where
  | str (s : String)
  | null
  | undefined
deriving DecidableEq

/-- The value of a field that is a string or `null`. -/
def Id.orNull : Option String → Id
  | some s => .str s
  | none => .null

/-- The value of an array element `a[i]`, `undefined` past the end of the array. -/
def Id.orUndefined : Option String → Id
  | some s => .str s
  | none => .undefined

/-- The call `doc(db, coll, id)` for a collection name `coll` without a slash, which is one
piece of the path: the reference is the list of the pieces of `id`, of which there must be an
odd number. An exception of the SDK is named by its class and the opening words of its
message. -/
def doc (id : Id) : Except String (List String) :=
  match id with
  | .null => .error "TypeError: Cannot read properties of null (reading 'indexOf')"
  | .undefined => .error "TypeError: Cannot read properties of undefined (reading 'indexOf')"
  | .str path =>
    if hasDoubleSlash path.data then .error "FirebaseError: Invalid segment"
    else if (segments path).length % 2 = 1 then .ok (segments path)
    else .error "FirebaseError: Invalid document reference"

/-- The read `getDoc(ref)` in the collection `c`: a reference of one piece is the document of
that id; a longer one is a document of a subcollection, and none is stored. -/
def getDoc {β : Type} (c : Coll β) (ref : List String) : Option β :=
  match ref with
  | [id] => ANLeague.getDoc c id
  | _ => none

/-- The write `updateDoc(ref, fields)` in the collection `c`, after a read that found the
document. -/
def updateDoc {β : Type} (c : Coll β) (ref : List String) (f : β → β) : Coll β :=
  match ref with
  | [id] => ANLeague.updateDoc c id f
  | _ => c

/-- The function `updateNextRound(matchId, winner)`: the store it leaves and the exception it
throws, if any. The two reads of the dependencies come after the write of the slot; `doc`
throws on `dependsOn[0]` or `dependsOn[1]` when the list is shorter. -/
def updateNextRound (db : Db) (matchId : String) (winner : Winner) : Db × Option String :=
  match doc (.str matchId) with
  | .error e => (db, some e)
  | .ok matchRef =>
    match getDoc db.matches_ matchRef with
    | none => (db, none)
    | some m =>
      match m.nextMatch with
      | none => (db, none)
      | some next =>
        if next = "" then (db, none)
        else
          match doc (.str next) with
          | .error e => (db, some e)
          | .ok nextMatchRef =>
            match getDoc db.matches_ nextMatchRef with
            | none => (db, none)
            | some nextMatch =>
              let dependsOn := nextMatch.dependsOn.getD []
              let slotIndex := indexOf dependsOn matchId
              let slot : TeamSlot := ⟨winner.country, winner.teamId, winner.players⟩
              let db1 : Db :=
                if slotIndex = 0 then
                  { db with
                    matches_ := updateDoc db.matches_ nextMatchRef
                      (fun d => { d with team1 := slot }) }
                else if slotIndex = 1 then
                  { db with
                    matches_ := updateDoc db.matches_ nextMatchRef
                      (fun d => { d with team2 := slot }) }
                else db
              match doc (Id.orUndefined (dependsOn.get? 0)) with
              | .error e => (db1, some e)
              | .ok ref1 =>
                match doc (Id.orUndefined (dependsOn.get? 1)) with
                | .error e => (db1, some e)
                | .ok ref2 =>
                  if isCompleted (getDoc db1.matches_ ref1) ∧
                      isCompleted (getDoc db1.matches_ ref2) then
                    ({ db1 with
                       matches_ := updateDoc db1.matches_ nextMatchRef
                         (fun d => { d with status := "pending" }) }, none)
                  else (db1, none)

/-- The function `simulateMatch(matchId)`, on the store `db`, with the stream `rng` of its
`Math.random()` draws and `now` the text of `new Date().toISOString()`: the store after the
call and how the call ended. The documents are reached through `doc`, the score is computed
in the arithmetic of the code, and an exception of `updateNextRound` comes after the write of
the match's own record. The e-mail notification that follows writes nothing to the store and
its failures are swallowed by the `try`/`catch` around it. -/
def simulateMatch (db : Db) (matchId : String) (rng : Rng) (now : String) : Db × Outcome :=
  match doc (.str matchId) with
  | .error e => (db, .threw e)
  | .ok matchRef =>
    match getDoc db.matches_ matchRef with
    | none => (db, .null)
    | some m =>
      if m.status ≠ "pending" then (db, .null)
      else
        match doc (Id.orNull m.team1.teamId) with
        | .error e => (db, .threw e)
        | .ok teamRef1 =>
          match doc (Id.orNull m.team2.teamId) with
          | .error e => (db, .threw e)
          | .ok teamRef2 =>
            let rating1 := ratingOrDefault (getDoc db.teams teamRef1)
            let rating2 := ratingOrDefault (getDoc db.teams teamRef2)
            let ((goals1, goals2), rng1) := generateScore (.fin rating1) (.fin rating2) rng
            let score1 := goals1.toInt
            let score2 := goals2.toInt
            match generateScorers m.team1.country m.team1.players score1 rng1 with
            | .error e => (db, .threw e)
            | .ok (scorers1, rng2) =>
              match generateScorers m.team2.country m.team2.players score2 rng2 with
              | .error e => (db, .threw e)
              | .ok (scorers2, rng3) =>
                let scorers := scorers1 ++ scorers2
                let (winner0, rng4) := determineWinner m.team1 score1 m.team2 score2 rng3
                let resolved : Except String (Winner × Option Shootout) :=
                  if score1 = score2 then resolveDraw m winner0 rng4 else .ok (winner0, none)
                match resolved with
                | .error e => (db, .threw e)
                | .ok (winner, penaltyShootout) =>
                  let db1 : Db :=
                    { db with
                      matches_ := updateDoc db.matches_ matchRef
                        (completeMatch score1 score2 scorers winner penaltyShootout now) }
                  match updateNextRound db1 matchId winner with
                  | (db2, some e) => (db2, .threw e)
                  | (db2, none) =>
                    (db2, .returned ⟨m, score1, score2, scorers, winner, penaltyShootout⟩)

/-- The field `score: { team1, team2 }` of a `Match` object. -/
structure Score where
  team1 : Option JsNum
  team2 : Option JsNum
deriving DecidableEq

/-- The state of an object of the class `Match` of `src/models/Match.js`: the fields that the
constructor sets, the scores being JavaScript numbers. -/
structure Match where
  matchId : String
  round : String
  matchNumber : Nat
  team1 : TeamSlot
  team2 : TeamSlot
  status : String
  score : Score
  goalScorers : List Scorer
  winner : Option Winner
  simulationType : Option String
  commentary : Option String
  timestamp : Option String
  nextMatch : Option String
  dependsOn : List String
deriving DecidableEq

/-- The constructor `new Match(matchId, round, matchNumber, team1, team2)`. -/
def Match.create (matchId round : String) (matchNumber : Nat) (team1 team2 : TeamSlot) : Match :=
  { matchId := matchId, round := round, matchNumber := matchNumber, team1 := team1,
    team2 := team2, status := "pending", score := ⟨none, none⟩, goalScorers := [],
    winner := none, simulationType := none, commentary := none, timestamp := none,
    nextMatch := none, dependsOn := [] }

/-- The method `Match.determineWinner()`; it reads `this.score`, in whose comparisons `null`
counts as 0, and flips the coin `Math.random() > 0.5` only when neither score is greater. -/
def Match.determineWinner (m : Match) (rng : Rng) : Match × Rng :=
  if (m.score.team1.getD (.fin 0)).gt (m.score.team2.getD (.fin 0)) then
    ({ m with winner := some (m.team1.wonBy "normal") }, rng)
  else if (m.score.team2.getD (.fin 0)).gt (m.score.team1.getD (.fin 0)) then
    ({ m with winner := some (m.team2.wonBy "normal") }, rng)
  else
    let penaltyWinner := if (rng 0).val > 1 / 2 then m.team1 else m.team2
    ({ m with winner := some (penaltyWinner.wonBy "penalties") }, rng.drop 1)

/-- The method `Match.simulate(rating1, rating2)`, with `now` the text of
`new Date().toISOString()`: the state it leaves and the exception it throws, if any. -/
def Match.simulate (m : Match) (rating1 rating2 : JsNum) (rng : Rng) (now : String) :
    Match × Option String :=
  if m.status = "completed" then (m, some "Match already completed")
  else if m.status = "locked" then
    (m, some "Match is locked. Previous matches must complete first.")
  else
    let prob1 := rating1.div (rating1.add rating2)
    let prob2 := rating2.div (rating1.add rating2)
    let goals1 := ((((JsNum.fin (rng 0).val).add prob1).mul (.fin 3)).max0).round
    let goals2 := ((((JsNum.fin (rng 1).val).add prob2).mul (.fin 3)).max0).round
    let m1 : Match := { m with score := ⟨some goals1, some goals2⟩ }
    let m2 := (m1.determineWinner (rng.drop 2)).1
    ({ m2 with status := "completed", timestamp := some now, simulationType := some "simulated" },
      none)

end Js

/-- A pending match object, Kenya against Mali. -/
def pendingMatch : Js.Match :=
  Js.Match.create "QF1" "Quarter-Final" 1 (teamOf "Kenya" 60).slot (teamOf "Mali" 60).slot

/-- A completed match object. -/
def completedMatch : Js.Match := { pendingMatch with status := "completed" }

/-- A locked match object. -/
def lockedSemiFinal : Js.Match :=
  { Js.Match.create "SF1" "Semi-Final" 1 tbdSlot tbdSlot with status := "locked" }

end ANLeague

namespace ANLeague

/-! ## Random draws and taker selection -/

theorem floorMul_lt (u : Draw) (n : Nat) (hn : 0 < n) : floorMul u n < n := by
  unfold floorMul
  have h0 : (0:ℚ) ≤ u.val * n := mul_nonneg u.nonneg (by positivity)
  have h1 : u.val * n < n := by
    have : (0:ℚ) < n := by exact_mod_cast hn
    nlinarith [u.lt_one]
  have h2 : Int.floor (u.val * n) < (n : Int) := by
    rw [Int.floor_lt]; exact_mod_cast h1
  have h3 : 0 ≤ Int.floor (u.val * n) := Int.floor_nonneg.mpr h0
  omega

theorem pickTaker_ok (players : List Player) (u : Draw) (h : players ≠ []) :
    ∃ p, pickTaker players u = .ok p ∧ p ∈ players := by
  unfold pickTaker
  have hlen : 0 < players.length := List.length_pos.mpr h
  have hlt := floorMul_lt u players.length hlen
  obtain ⟨p, hp⟩ : ∃ p, players.get? (floorMul u players.length) = some p :=
    ⟨_, List.get?_eq_get hlt⟩
  rw [hp]
  exact ⟨p, rfl, List.get?_mem hp⟩

theorem pickTaker_nil (u : Draw) : ∃ e, pickTaker [] u = .error e :=
  ⟨_, rfl⟩

/-! ## The penalty shootout -/

theorem filter_scored_append (l : List Kick) (k : Kick) :
    ((l ++ [k]).filter (fun p => p.scored)).length =
      (l.filter (fun p => p.scored)).length + (if k.scored then 1 else 0) := by
  rw [List.filter_append, List.length_append]
  cases h : k.scored <;> simp [List.filter, h]

theorem regularKicks_ok (c1 c2 : String) (p1 p2 : List Player) (h1 : p1 ≠ []) (h2 : p2 ≠ [])
    (n : Nat) (pens : Penalties) (rng : Rng) :
    ∃ pens1 rng1, regularKicks c1 p1 c2 p2 n pens rng = .ok (pens1, rng1) ∧
      pens1.team1.length = pens.team1.length + n ∧
      pens1.team2.length = pens.team2.length + n := by
  induction n generalizing pens rng with
  | zero => exact ⟨pens, rng, rfl, rfl, rfl⟩
  | succ n ih =>
    obtain ⟨t1, ht1, -⟩ := pickTaker_ok p1 (rng 0) h1
    obtain ⟨t2, ht2, -⟩ := pickTaker_ok p2 (rng 2) h2
    simp only [regularKicks, ht1, ht2]
    obtain ⟨pens1, rng1, h, hl1, hl2⟩ := ih
      { team1 := pens.team1 ++ [⟨t1.name, c1, converts (rng 1), false⟩],
        team2 := pens.team2 ++ [⟨t2.name, c2, converts (rng 3), false⟩] } (rng.drop 4)
    refine ⟨pens1, rng1, h, ?_, ?_⟩
    · rw [hl1]; simp; omega
    · rw [hl2]; simp; omega

theorem suddenDeath_ok (c1 c2 : String) (p1 p2 : List Player) (h1 : p1 ≠ []) (h2 : p2 ≠ [])
    (n : Nat) (st : ShootoutState) (rng : Rng)
    (hround : st.round + n = 11) (hcons : st.Consistent)
    (hlen1 : st.penalties.team1.length + 1 = st.round)
    (hlen2 : st.penalties.team2.length + 1 = st.round) :
    ∃ st1, suddenDeath c1 p1 c2 p2 n st rng = .ok st1 ∧ st1.Consistent ∧
      (st1.team1Score = st1.team2Score →
        st1.round = 11 ∧ st1.penalties.team1.length = 10 ∧ st1.penalties.team2.length = 10) := by
  induction n generalizing st rng with
  | zero =>
    refine ⟨st, rfl, hcons, fun _ => ⟨by omega, by omega, by omega⟩⟩
  | succ n ih =>
    unfold suddenDeath
    by_cases hc : st.team1Score = st.team2Score ∧ st.round ≤ 10
    · rw [if_pos hc]
      obtain ⟨t1, ht1, -⟩ := pickTaker_ok p1 (rng 0) h1
      obtain ⟨t2, ht2, -⟩ := pickTaker_ok p2 (rng 2) h2
      simp only [ht1, ht2]
      have hcons1 : ShootoutState.Consistent
          ⟨{ team1 := st.penalties.team1 ++ [⟨t1.name, c1, converts (rng 1), true⟩],
             team2 := st.penalties.team2 ++ [⟨t2.name, c2, converts (rng 3), true⟩] },
            (if converts (rng 1) then st.team1Score + 1 else st.team1Score),
            (if converts (rng 3) then st.team2Score + 1 else st.team2Score), st.round⟩ := by
        constructor
        · simp only [filter_scored_append, ← hcons.1]
          cases converts (rng 1) <;> simp
        · simp only [filter_scored_append, ← hcons.2]
          cases converts (rng 3) <;> simp
      by_cases hne : (if converts (rng 1) then st.team1Score + 1 else st.team1Score) ≠
          (if converts (rng 3) then st.team2Score + 1 else st.team2Score)
      · rw [if_pos hne]
        exact ⟨_, rfl, hcons1, fun h => absurd h hne⟩
      · rw [if_neg hne]
        have hr := hc.2
        exact ih _ _ (by show st.round + 1 + n = 11; omega) hcons1
          (by simp only [List.length_append, List.length_singleton]; omega)
          (by simp only [List.length_append, List.length_singleton]; omega)
    · rw [if_neg hc]
      refine ⟨st, rfl, hcons, fun h => ?_⟩
      have : ¬ st.round ≤ 10 := fun h' => hc ⟨h, h'⟩
      omega

theorem generatePenaltyShootout_spec (c1 c2 : String) (p1 p2 : List Player) (w : Winner)
    (rng : Rng) (h1 : p1 ≠ []) (h2 : p2 ≠ []) :
    ∃ rec, generatePenaltyShootout c1 p1 c2 p2 w rng = .ok rec ∧
      rec.score.team1 = (rec.penalties.team1.filter (fun p => p.scored)).length ∧
      rec.score.team2 = (rec.penalties.team2.filter (fun p => p.scored)).length ∧
      rec.winner = (if rec.score.team1 > rec.score.team2 then c1 else c2) ∧
      (rec.score.team1 = rec.score.team2 →
        rec.rounds = 10 ∧ rec.penalties.team1.length = 10 ∧
          rec.penalties.team2.length = 10) := by
  unfold generatePenaltyShootout
  obtain ⟨pens, rng1, hreg, hl1, hl2⟩ := regularKicks_ok c1 c2 p1 p2 h1 h2 5 ⟨[], []⟩ rng
  rw [hreg]
  obtain ⟨st, hsd, hcons, hlevel⟩ := suddenDeath_ok c1 c2 p1 p2 h1 h2 5
    ⟨pens, (pens.team1.filter (fun p => p.scored)).length,
      (pens.team2.filter (fun p => p.scored)).length, 6⟩ rng1 rfl ⟨rfl, rfl⟩
    (by simpa using hl1) (by simpa using hl2)
  simp only [hsd]
  refine ⟨_, rfl, hcons.1, hcons.2, rfl, fun h => ?_⟩
  obtain ⟨hr, ha, hb⟩ := hlevel h
  exact ⟨by show st.round - 1 = 10; omega, ha, hb⟩

/-- C2 (amended). For every two non-empty squads and every stream of draws,
`generatePenaltyShootout` returns a record whose two scores are the numbers of converted kicks
of the two ledgers; the scores differ unless the shootout went through all ten rounds (ten
kicks a side) with the tallies still level; and whenever the scores differ the winner is the
side whose tally is strictly greater. -/
theorem generatePenaltyShootout_winner (c1 c2 : String) (p1 p2 : List Player) (w : Winner)
    (rng : Rng) (h1 : p1 ≠ []) (h2 : p2 ≠ []) :
    ∃ rec, generatePenaltyShootout c1 p1 c2 p2 w rng = .ok rec ∧
      rec.score.team1 = (rec.penalties.team1.filter (fun p => p.scored)).length ∧
      rec.score.team2 = (rec.penalties.team2.filter (fun p => p.scored)).length ∧
      (rec.score.team1 ≠ rec.score.team2 ∨
        (rec.rounds = 10 ∧ rec.penalties.team1.length = 10 ∧
          rec.penalties.team2.length = 10)) ∧
      (rec.score.team1 > rec.score.team2 → rec.winner = c1) ∧
      (rec.score.team2 > rec.score.team1 → rec.winner = c2) := by
  obtain ⟨rec, hrec, ht1, ht2, hw, hlevel⟩ := generatePenaltyShootout_spec c1 c2 p1 p2 w rng h1 h2
  refine ⟨rec, hrec, ht1, ht2, ?_, fun h => ?_, fun h => ?_⟩
  · by_cases h : rec.score.team1 = rec.score.team2
    · exact Or.inr (hlevel h)
    · exact Or.inl h
  · rw [hw, if_pos h]
  · rw [hw, if_neg (by omega)]

/-- The amended C2 at two one-player squads and the stream of draws `0.5`. -/
theorem generatePenaltyShootout_winner_witness :
    squadOf "a" ≠ [] ∧ squadOf "b" ≠ [] ∧
    ∃ rec, generatePenaltyShootout "A" (squadOf "a") "B" (squadOf "b")
        ⟨"A", none, [], "penalties"⟩ allHalf = .ok rec ∧
      rec.score.team1 = (rec.penalties.team1.filter (fun p => p.scored)).length ∧
      rec.score.team2 = (rec.penalties.team2.filter (fun p => p.scored)).length ∧
      (rec.score.team1 ≠ rec.score.team2 ∨
        (rec.rounds = 10 ∧ rec.penalties.team1.length = 10 ∧
          rec.penalties.team2.length = 10)) ∧
      (rec.score.team1 > rec.score.team2 → rec.winner = "A") ∧
      (rec.score.team2 > rec.score.team1 → rec.winner = "B") :=
  ⟨by decide, by decide,
    generatePenaltyShootout_winner "A" "B" (squadOf "a") (squadOf "b") _ allHalf
      (by decide) (by decide)⟩

/-- C2 as stated fails: when every kick of all ten rounds is converted (every draw is `0.5`),
the returned record has `score.team1 = score.team2 = 10`, and names team 2 the winner. -/
theorem generatePenaltyShootout_level_at_cap :
    (generatePenaltyShootout "A" (squadOf "a") "B" (squadOf "b")
        ⟨"A", none, [], "penalties"⟩ allHalf).toOption.map
      (fun rec => (rec.score.team1, rec.score.team2, rec.winner, rec.rounds)) =
      some (10, 10, "B", 10) := by
  decide!

end ANLeague

namespace ANLeague

/-! ## The store -/

theorem getDoc_setDoc {β : Type} (c : Coll β) (id : String) (v : β) (k : String) :
    getDoc (setDoc c id v) k = if id = k then some v else getDoc c k := by
  induction c with
  | nil =>
    by_cases h : id = k <;> simp [setDoc, getDoc, h]
  | cons e rest ih =>
    obtain ⟨k0, w⟩ := e
    by_cases h0 : k0 = id
    · subst h0
      by_cases h : k0 = k <;> simp [setDoc, getDoc, h]
    · by_cases h : id = k
      · subst h
        simp [setDoc, getDoc, h0, ih]
      · by_cases h1 : k0 = k
        · subst h1
          simp [setDoc, getDoc, h0, h]
        · simp [setDoc, getDoc, h0, h, h1, ih]

theorem getDoc_updateDoc {β : Type} (c : Coll β) (id : String) (f : β → β) (k : String) :
    getDoc (updateDoc c id f) k = if id = k then (getDoc c id).map f else getDoc c k := by
  unfold updateDoc
  cases h : getDoc c id with
  | none =>
    by_cases hk : id = k
    · subst hk; simp [h]
    · simp [hk]
  | some d => simp [getDoc_setDoc]

theorem isCompleted_some (d : MatchDoc) : isCompleted (some d) = decide (d.status = "completed") :=
  rfl

/-! ## `updateNextRound` -/

theorem fillSlot_status (i : Int) (w : Winner) (d : MatchDoc) : (fillSlot i w d).status = d.status := by
  unfold fillSlot; split_ifs <;> rfl

theorem updateNextRound_of_nextTarget_none (db : Db) (id : String) (w : Winner)
    (h : nextTarget db id = none) : updateNextRound db id w = db := by
  unfold nextTarget at h
  unfold updateNextRound
  cases hm : getDoc db.matches_ id with
  | none => rfl
  | some m =>
    rw [hm] at h
    cases hn : m.nextMatch with
    | none => simp only [hn]
    | some next =>
      simp only [hn] at h ⊢
      by_cases he : next = ""
      · simp only [he, if_true]
      · simp only [he, if_false] at h ⊢
        cases hx : getDoc db.matches_ next with
        | none => simp only [hx]
        | some nm => simp [hx] at h

theorem nextTarget_some {db : Db} {id next : String} {nm : MatchDoc}
    (h : nextTarget db id = some (next, nm)) :
    ∃ m, getDoc db.matches_ id = some m ∧ m.nextMatch = some next ∧ next ≠ "" ∧
      getDoc db.matches_ next = some nm := by
  unfold nextTarget at h
  cases hm : getDoc db.matches_ id with
  | none => simp [hm] at h
  | some m =>
    rw [hm] at h
    cases hn : m.nextMatch with
    | none => simp [hn] at h
    | some n =>
      simp only [hn] at h
      by_cases he : n = ""
      · simp [he] at h
      · simp only [he, if_false] at h
        cases hx : getDoc db.matches_ n with
        | none => simp [hx] at h
        | some x =>
          simp only [hx, Option.some.injEq, Prod.mk.injEq] at h
          obtain ⟨rfl, rfl⟩ := h
          exact ⟨m, rfl, hn, he, hx⟩

/-- After a write that touches no status the dependencies are as complete as before it. -/
theorem isCompleted_getDocAt_updateDoc (c : Coll MatchDoc) (next : String)
    (f : MatchDoc → MatchDoc) (hf : ∀ d, (f d).status = d.status) (x : Option String) :
    isCompleted (getDocAt (updateDoc c next f) x) = isCompleted (getDocAt c x) := by
  cases x with
  | none => rfl
  | some k =>
    simp only [getDocAt, Option.some_bind, getDoc_updateDoc]
    by_cases h : next = k
    · subst h
      cases hnm : getDoc c next with
      | none => simp
      | some nm => simp [isCompleted, hf]
    · simp [h]

theorem updateNextRound_matches (db : Db) (id : String) (w : Winner) (next : String)
    (nm : MatchDoc) (h : nextTarget db id = some (next, nm)) (k : String) :
    getDoc (updateNextRound db id w).matches_ k =
      if next = k then some (progressDoc db id w nm) else getDoc db.matches_ k := by
  obtain ⟨m, hm, hn, he, hx⟩ := nextTarget_some h
  unfold updateNextRound
  simp only [hm, hn, he, if_false, hx]
  unfold progressDoc depsCompleted
  by_cases h0 : indexOf (nm.dependsOn.getD []) id = 0
  · simp only [h0, if_true]
    simp only [isCompleted_getDocAt_updateDoc, implies_true,
      Bool.and_eq_true, fillSlot, if_true]
    by_cases hc : isCompleted (getDocAt db.matches_ ((nm.dependsOn.getD []).get? 0)) = true ∧
        isCompleted (getDocAt db.matches_ ((nm.dependsOn.getD []).get? 1)) = true
    · simp only [hc, and_self, if_true, getDoc_updateDoc]
      by_cases hk : next = k
      · subst hk; simp [hx]
      · simp [hk]
    · simp only [hc, if_false, getDoc_updateDoc]
      by_cases hk : next = k
      · subst hk; simp [hx]
      · simp [hk]
  · by_cases h1 : indexOf (nm.dependsOn.getD []) id = 1
    · simp only [h1, if_true, one_ne_zero, if_false]
      simp only [isCompleted_getDocAt_updateDoc, implies_true,
        Bool.and_eq_true, fillSlot, if_true, one_ne_zero, if_false]
      by_cases hc : isCompleted (getDocAt db.matches_ ((nm.dependsOn.getD []).get? 0)) = true ∧
          isCompleted (getDocAt db.matches_ ((nm.dependsOn.getD []).get? 1)) = true
      · simp only [hc, and_self, if_true, getDoc_updateDoc]
        by_cases hk : next = k
        · subst hk; simp [hx]
        · simp [hk]
      · simp only [hc, if_false, getDoc_updateDoc]
        by_cases hk : next = k
        · subst hk; simp [hx]
        · simp [hk]
    · simp only [h0, h1, if_false, Bool.and_eq_true, fillSlot]
      by_cases hc : isCompleted (getDocAt db.matches_ ((nm.dependsOn.getD []).get? 0)) = true ∧
          isCompleted (getDocAt db.matches_ ((nm.dependsOn.getD []).get? 1)) = true
      · simp only [hc, and_self, if_true, getDoc_updateDoc]
        by_cases hk : next = k
        · subst hk; simp [hx]
        · simp [hk]
      · simp only [hc, if_false]
        by_cases hk : next = k
        · subst hk; simp [hx]
        · simp [hk]

theorem updateNextRound_frame (db : Db) (id : String) (w : Winner) :
    (updateNextRound db id w).teams = db.teams ∧
    (updateNextRound db id w).tournament = db.tournament ∧
    (updateNextRound db id w).users = db.users := by
  unfold updateNextRound
  split
  · exact ⟨rfl, rfl, rfl⟩
  · split
    · exact ⟨rfl, rfl, rfl⟩
    · split
      · exact ⟨rfl, rfl, rfl⟩
      · split
        · exact ⟨rfl, rfl, rfl⟩
        · dsimp only
          split_ifs <;> exact ⟨rfl, rfl, rfl⟩

end ANLeague

namespace ANLeague

/-! ## `simulateMatch` -/

theorem scorerLoop_ok (c : String) (pool : List Player) (hpool : pool ≠ []) (n : Nat)
    (acc : List Scorer) (rng : Rng) :
    ∃ l rng1, scorerLoop c pool n acc rng = .ok (l, rng1) := by
  induction n generalizing acc rng with
  | zero => exact ⟨acc, rng, rfl⟩
  | succ n ih =>
    obtain ⟨p, hp, -⟩ := pickTaker_ok pool (rng 0) hpool
    simp only [scorerLoop, hp]
    exact ih _ _

theorem generateScorers_ok (c : String) (players : List Player) (g : Int) (rng : Rng) :
    ∃ l rng1, generateScorers c players g rng = .ok (l, rng1) := by
  unfold generateScorers
  by_cases h : players.length = 0
  · simp [h]
  · simp only [h, if_false]
    have hpool : (if (players.filter (fun p => p.position = "AT" ∨ p.position = "MD")).length > 0
        then players.filter (fun p => p.position = "AT" ∨ p.position = "MD") else players) ≠ [] := by
      split_ifs with h1
      · exact List.length_pos.mp h1
      · intro h2; exact h (by simp [h2])
    obtain ⟨l, rng1, hl⟩ := scorerLoop_ok c _ hpool g.toNat [] rng
    rw [hl]
    exact ⟨_, _, rfl⟩

theorem regularKicks_error (c1 c2 : String) (p1 p2 : List Player) (h : p1 = [] ∨ p2 = [])
    (n : Nat) (pens : Penalties) (rng : Rng) :
    ∃ e, regularKicks c1 p1 c2 p2 (n + 1) pens rng = .error e := by
  unfold regularKicks
  by_cases h1 : p1 = []
  · subst h1
    exact ⟨_, rfl⟩
  · obtain ⟨t1, ht1, -⟩ := pickTaker_ok p1 (rng 0) h1
    have h2 : p2 = [] := h.resolve_left h1
    subst h2
    simp only [ht1]
    exact ⟨_, rfl⟩

theorem generatePenaltyShootout_error (c1 c2 : String) (p1 p2 : List Player) (w : Winner)
    (rng : Rng) (h : p1 = [] ∨ p2 = []) :
    ∃ e, generatePenaltyShootout c1 p1 c2 p2 w rng = .error e := by
  unfold generatePenaltyShootout
  obtain ⟨e, he⟩ := regularKicks_error c1 c2 p1 p2 h 4 ⟨[], []⟩ rng
  rw [he]
  exact ⟨e, rfl⟩

theorem simulateMatch_null (db : Db) (id : String) (rng : Rng) (now : String)
    (h : getDoc db.matches_ id = none ∨
      ∃ m, getDoc db.matches_ id = some m ∧ m.status ≠ "pending") :
    simulateMatch db id rng now = (db, .null) := by
  unfold simulateMatch
  rcases h with h | ⟨m, hm, hs⟩
  · rw [h]
  · rw [hm]
    simp only [hs, ne_eq, not_false_eq_true, if_true]

/-- A call on a pending match either throws in the shootout, on a drawn score with an empty
squad, before any write, or runs to its end. -/
theorem simulateMatch_pending (db : Db) (id : String) (rng : Rng) (now : String) (m : MatchDoc)
    (hm : getDoc db.matches_ id = some m) (hp : m.status = "pending") :
    (∃ e, simulateMatch db id rng now = (db, .threw e) ∧
      (regulationScore db m rng).1 = (regulationScore db m rng).2 ∧
      (m.team1.players = [] ∨ m.team2.players = [])) ∨
    (∃ r : SimResult, simulateMatch db id rng now =
        (updateNextRound (afterOwnWrite db id r now) id r.winner, .returned r) ∧
      r.match_ = m ∧ r.score1 = (regulationScore db m rng).1 ∧
      r.score2 = (regulationScore db m rng).2 ∧
      Resolved m r.score1 r.score2 r.winner r.penaltyShootout ∧
      ((regulationScore db m rng).1 = (regulationScore db m rng).2 →
        m.team1.players ≠ [] ∧ m.team2.players ≠ [])) := by
  unfold simulateMatch regulationScore
  rw [hm]
  simp only [hp, ne_eq, not_true_eq_false, if_false]
  rcases hgs : generateScore (ratingOrDefault (getDocAt db.teams m.team1.teamId))
    (ratingOrDefault (getDocAt db.teams m.team2.teamId)) rng with ⟨⟨s1, s2⟩, rng1⟩
  obtain ⟨l1, rng2, hl1⟩ := generateScorers_ok m.team1.country m.team1.players s1 rng1
  obtain ⟨l2, rng3, hl2⟩ := generateScorers_ok m.team2.country m.team2.players s2 rng2
  simp only [hl1, hl2]
  rcases hdw : determineWinner m.team1 s1 m.team2 s2 rng3 with ⟨w0, rng4⟩
  simp only []
  by_cases htie : s1 = s2
  · simp only [htie, if_true]
    by_cases hsq : m.team1.players = [] ∨ m.team2.players = []
    · left
      obtain ⟨e, he⟩ := generatePenaltyShootout_error m.team1.country m.team2.country
        m.team1.players m.team2.players w0 rng4 hsq
      simp only [resolveDraw, he]
      exact ⟨e, rfl, trivial, hsq⟩
    · right
      push_neg at hsq
      obtain ⟨rec, hrec, -⟩ := generatePenaltyShootout_spec m.team1.country m.team2.country
        m.team1.players m.team2.players w0 rng4 hsq.1 hsq.2
      simp only [resolveDraw, hrec]
      by_cases hw : rec.winner = m.team1.country
      · simp only [hw, if_true]
        refine ⟨⟨m, s2, s2, l1 ++ l2, _, some rec⟩, rfl, rfl, rfl, rfl, ?_, fun _ => hsq⟩
        exact Or.inr (Or.inr ⟨rfl, rec, w0, rng4, hrec, rfl, by simp [hw, TeamSlot.wonBy]⟩)
      · simp only [hw, if_false]
        refine ⟨⟨m, s2, s2, l1 ++ l2, _, some rec⟩, rfl, rfl, rfl, rfl, ?_, fun _ => hsq⟩
        exact Or.inr (Or.inr ⟨rfl, rec, w0, rng4, hrec, rfl, by simp [hw, TeamSlot.wonBy]⟩)
  · right
    simp only [htie, if_false]
    refine ⟨⟨m, s1, s2, l1 ++ l2, w0, none⟩, rfl, rfl, rfl, rfl, ?_, fun h => h.elim⟩
    unfold determineWinner at hdw
    by_cases h12 : s1 > s2
    · simp only [h12, if_true, Prod.mk.injEq] at hdw
      exact Or.inl ⟨h12, hdw.1.symm, rfl⟩
    · have h21 : s2 > s1 := by omega
      simp only [h12, h21, if_true, if_false, Prod.mk.injEq] at hdw
      exact Or.inr (Or.inl ⟨h21, hdw.1.symm, rfl⟩)

end ANLeague

namespace ANLeague

theorem completeMatch_fields (s1 s2 : Int) (l : List Scorer) (w : Winner) (ps : Option Shootout)
    (now : String) (d : MatchDoc) :
    (completeMatch s1 s2 l w ps now d).status = "completed" ∧
    (completeMatch s1 s2 l w ps now d).winner = some w ∧
    (completeMatch s1 s2 l w ps now d).penaltyShootout = ps ∧
    (completeMatch s1 s2 l w ps now d).score = ⟨some s1, some s2⟩ ∧
    (completeMatch s1 s2 l w ps now d).nextMatch = d.nextMatch ∧
    (completeMatch s1 s2 l w ps now d).dependsOn = d.dependsOn ∧
    (completeMatch s1 s2 l w ps now d).team1 = d.team1 ∧
    (completeMatch s1 s2 l w ps now d).team2 = d.team2 :=
  ⟨rfl, rfl, rfl, rfl, rfl, rfl, rfl, rfl⟩

theorem fillSlot_same (i : Int) (w : Winner) (d : MatchDoc) :
    SameButSlotsAndStatus d (fillSlot i w d) := by
  unfold fillSlot SameButSlotsAndStatus
  split_ifs <;> simp

theorem progressDoc_same (db : Db) (id : String) (w : Winner) (d : MatchDoc) :
    SameButSlotsAndStatus d (progressDoc db id w d) := by
  have h := fillSlot_same (indexOf (d.dependsOn.getD []) id) w d
  unfold progressDoc
  unfold SameButSlotsAndStatus at h ⊢
  split_ifs <;> simpa using h

theorem progressDoc_status (db : Db) (id : String) (w : Winner) (d : MatchDoc) :
    (progressDoc db id w d).status = if depsCompleted db d then "pending" else d.status := by
  unfold progressDoc
  split_ifs <;> simp [fillSlot_status]

theorem progressDoc_slots (db : Db) (id : String) (w : Winner) (d : MatchDoc) :
    (progressDoc db id w d).team1 = (fillSlot (indexOf (d.dependsOn.getD []) id) w d).team1 ∧
    (progressDoc db id w d).team2 = (fillSlot (indexOf (d.dependsOn.getD []) id) w d).team2 := by
  unfold progressDoc
  split_ifs <;> simp

theorem afterOwnWrite_matches (db : Db) (id : String) (r : SimResult) (now : String)
    (k : String) :
    getDoc (afterOwnWrite db id r now).matches_ k =
      if id = k then (getDoc db.matches_ id).map
          (completeMatch r.score1 r.score2 r.scorers r.winner r.penaltyShootout now)
        else getDoc db.matches_ k := by
  unfold afterOwnWrite
  simp only [getDoc_updateDoc]

/-- The lookups of a store after a call that ran to its end: the called match holds its
completed record, unless it is its own next match; the next match holds the progressed
record; every other document is as before. -/
theorem simulateMatch_returned (db : Db) (id : String) (rng : Rng) (now : String)
    (r : SimResult) (h : (simulateMatch db id rng now).2 = .returned r) :
    getDoc db.matches_ id = some r.match_ ∧ r.match_.status = "pending" ∧
    (simulateMatch db id rng now).1 = updateNextRound (afterOwnWrite db id r now) id r.winner ∧
    r.score1 = (regulationScore db r.match_ rng).1 ∧
    r.score2 = (regulationScore db r.match_ rng).2 ∧
    Resolved r.match_ r.score1 r.score2 r.winner r.penaltyShootout := by
  cases hm : getDoc db.matches_ id with
  | none =>
    rw [simulateMatch_null db id rng now (Or.inl hm)] at h
    cases h
  | some m =>
    by_cases hp : m.status = "pending"
    · rcases simulateMatch_pending db id rng now m hm hp with ⟨e, he, -⟩ | ⟨r1, hr, hmm, h1, h2, hres, -⟩
      · rw [he] at h; cases h
      · rw [hr] at h
        simp only [Outcome.returned.injEq] at h
        subst h
        subst hmm
        exact ⟨rfl, hp, by rw [hr], h1, h2, hres⟩
    · rw [simulateMatch_null db id rng now (Or.inr ⟨m, hm, hp⟩)] at h
      cases h

theorem simulateMatch_not_returned (db : Db) (id : String) (rng : Rng) (now : String)
    (h : (simulateMatch db id rng now).2.isReturned = false) :
    (simulateMatch db id rng now).1 = db := by
  cases hm : getDoc db.matches_ id with
  | none => rw [simulateMatch_null db id rng now (Or.inl hm)]
  | some m =>
    by_cases hp : m.status = "pending"
    · rcases simulateMatch_pending db id rng now m hm hp with ⟨e, he, -⟩ | ⟨r1, hr, -⟩
      · rw [he]
      · rw [hr] at h; cases h
    · rw [simulateMatch_null db id rng now (Or.inr ⟨m, hm, hp⟩)]

end ANLeague

namespace ANLeague

/-! ## Claims about one call -/

/-- What `updateNextRound` leaves of a stored document: the document is still there and only
its team slots and its status may differ. -/
theorem updateNextRound_same (db : Db) (id : String) (w : Winner) (k : String) (d : MatchDoc)
    (hd : getDoc db.matches_ k = some d) :
    ∃ e, getDoc (updateNextRound db id w).matches_ k = some e ∧ SameButSlotsAndStatus d e := by
  cases ht : nextTarget db id with
  | none =>
    rw [updateNextRound_of_nextTarget_none db id w ht]
    exact ⟨d, hd, by simp [SameButSlotsAndStatus]⟩
  | some p =>
    obtain ⟨next, nm⟩ := p
    rw [updateNextRound_matches db id w next nm ht]
    by_cases hk : next = k
    · subst hk
      obtain ⟨_, _, _, _, hx⟩ := nextTarget_some ht
      have hnd : d = nm := by rw [hx] at hd; exact (Option.some.inj hd).symm
      rw [hnd]
      exact ⟨_, if_pos rfl, progressDoc_same db id w nm⟩
    · rw [if_neg hk]
      exact ⟨d, hd, by simp [SameButSlotsAndStatus]⟩

/-- C1 as stated fails on an empty squad: the quarterfinal of `emptySquadDb` is pending, its
slots hold different countries and the regulation score is tied, yet the call throws in the
shootout; no record is produced, nothing is persisted and nothing is returned. The same holds
in the arithmetic and through the document references of the code. `generateScorers` tests
`players.length === 0` before it picks a player, `generatePenaltyShootout` does not. -/
theorem simulateMatch_draw_empty_squad_throws :
    getDoc emptySquadDb.matches_ "QF1" = some (quarterFinal "QF1" 1
      ⟨"Kenya", "Kenya", "manager", "admin", 60, [], "2025-01-01T00:00:00.000Z"⟩
      (teamOf "Mali" 60) "SF1") ∧
    (regulationScore emptySquadDb (quarterFinal "QF1" 1
      ⟨"Kenya", "Kenya", "manager", "admin", 60, [], "2025-01-01T00:00:00.000Z"⟩
      (teamOf "Mali" 60) "SF1") allHalf) = (3, 3) ∧
    simulateMatch emptySquadDb "QF1" allHalf "t1" =
      (emptySquadDb,
        .threw "TypeError: Cannot read properties of undefined (reading 'name')") ∧
    Js.simulateMatch emptySquadDb "QF1" allHalf "t1" =
      (emptySquadDb,
        .threw "TypeError: Cannot read properties of undefined (reading 'name')") := by
  decide!

end ANLeague

namespace ANLeague

/-- C10 as stated fails on an empty squad: in `emptySquadDb2` the regulation score is 3-3, yet
the call does not run to its end and no shootout record is on the match afterwards. The same
holds in the arithmetic and through the document references of the code: the call throws in
the shootout before it writes. -/
theorem simulateMatch_draw_without_record :
    regulationScore emptySquadDb2 (quarterFinal "QF2" 2 (teamOf "Ghana" 60)
      ⟨"Togo", "Togo", "manager", "admin", 60, [], "2025-01-01T00:00:00.000Z"⟩ "SF1")
      allHalf = (3, 3) ∧
    (simulateMatch emptySquadDb2 "QF2" allHalf "t1").2.isReturned = false ∧
    (getDoc (simulateMatch emptySquadDb2 "QF2" allHalf "t1").1.matches_ "QF2").map
      (fun e => (e.status, e.penaltyShootout)) = some ("pending", none) ∧
    Js.simulateMatch emptySquadDb2 "QF2" allHalf "t1" =
      (emptySquadDb2,
        .threw "TypeError: Cannot read properties of undefined (reading 'name')") := by
  decide!

end ANLeague

namespace ANLeague

theorem fillSlot_slots (i : Int) (w : Winner) (d : MatchDoc) :
    (i = 0 → (fillSlot i w d).team1 = w.slot ∧ (fillSlot i w d).team2 = d.team2) ∧
    (i = 1 → (fillSlot i w d).team2 = w.slot ∧ (fillSlot i w d).team1 = d.team1) ∧
    (i ≠ 0 → i ≠ 1 → (fillSlot i w d).team1 = d.team1 ∧ (fillSlot i w d).team2 = d.team2) := by
  unfold fillSlot Winner.slot
  refine ⟨fun h => ?_, fun h => ?_, fun h0 h1 => ?_⟩
  · subst h; simp
  · subst h; simp
  · simp [h0, h1]

/-- C8 (amended). For every match id and every store state in which `simulateMatch(id)` runs to
its end and the match is not its own next match, a second `simulateMatch(id)` on the resulting
state returns `null` and leaves the store exactly as it was after the first call. -/
theorem simulateMatch_twice (db : Db) (id : String) (rng : Rng) (now : String) (r : SimResult)
    (h : (simulateMatch db id rng now).2 = .returned r)
    (hself : r.match_.nextMatch ≠ some id) (rng2 : Rng) (now2 : String) :
    simulateMatch (simulateMatch db id rng now).1 id rng2 now2 =
      ((simulateMatch db id rng now).1, .null) := by
  obtain ⟨hm, -, hdb, -⟩ := simulateMatch_returned db id rng now r h
  apply simulateMatch_null
  right
  refine ⟨completeMatch r.score1 r.score2 r.scorers r.winner r.penaltyShootout now r.match_,
    ?_, by show "completed" ≠ "pending"; decide⟩
  have hown : getDoc (afterOwnWrite db id r now).matches_ id =
      some (completeMatch r.score1 r.score2 r.scorers r.winner r.penaltyShootout now
        r.match_) := by
    rw [afterOwnWrite_matches, if_pos rfl, hm]; rfl
  rw [hdb]
  cases ht : nextTarget (afterOwnWrite db id r now) id with
  | none => rw [updateNextRound_of_nextTarget_none _ id r.winner ht, hown]
  | some p =>
    obtain ⟨next, nm⟩ := p
    obtain ⟨m1, hm1, hn1, -, -⟩ := nextTarget_some ht
    rw [hown] at hm1
    have hnext : r.match_.nextMatch = some next := by
      rw [← hn1, ← Option.some.inj hm1]; rfl
    rw [updateNextRound_matches _ id r.winner next nm ht]
    have hne : next ≠ id := by
      rintro rfl
      exact hself hnext
    rw [if_neg hne, hown]

/-- The amended C8 at the quarterfinal Ghana - Togo of the sample bracket. -/
theorem simulateMatch_twice_witness :
    simulateMatch (simulateMatch sampleDb "QF2" allHalf "t1").1 "QF2" allHalf "t2" =
      ((simulateMatch sampleDb "QF2" allHalf "t1").1, .null) :=
  simulateMatch_twice sampleDb "QF2" allHalf "t1"
    (simulateMatch sampleDb "QF2" allHalf "t1").2.resultD (by decide!) (by decide!)
    allHalf "t2"

/-- C8 as stated fails on a store whose match feeds itself: in `selfFedDb` the call on `"M"`
runs to its end and its own progression step sets `"M"` back to `"pending"`, so a second call
runs to its end as well instead of returning `null`. -/
theorem simulateMatch_twice_self_fed :
    (simulateMatch selfFedDb "M" allHalf "t1").2.isReturned = true ∧
    (getDoc (simulateMatch selfFedDb "M" allHalf "t1").1.matches_ "M").map (fun e => e.status) =
      some "pending" ∧
    (simulateMatch (simulateMatch selfFedDb "M" allHalf "t1").1 "M" allHalf "t2").2.isReturned =
      true := by
  decide!

end ANLeague

namespace ANLeague

/-! ## Brackets under simulation -/

theorem indexOf_pair (a b id : String) (hab : a ≠ b) :
    (id = a → indexOf [a, b] id = 0) ∧ (id = b → indexOf [a, b] id = 1) := by
  constructor
  · rintro rfl; simp [indexOf]
  · rintro rfl; simp [indexOf, hab]

/-- The lookups of a wired store after a call that ran to its end. -/
theorem step_view (db : Db) (hW : Wired db) (id : String) (rng : Rng) (now : String)
    (r : SimResult) (h : (simulateMatch db id rng now).2 = .returned r) :
    getDoc db.matches_ id = some r.match_ ∧ r.match_.status = "pending" ∧
    (r.match_.nextMatch = none →
      ∀ k, getDoc (simulateMatch db id rng now).1.matches_ k =
        if k = id then some (completeMatch r.score1 r.score2 r.scorers r.winner
          r.penaltyShootout now r.match_) else getDoc db.matches_ k) ∧
    (∀ n, r.match_.nextMatch = some n →
      ∃ nm a b, n ≠ id ∧ getDoc db.matches_ n = some nm ∧ nm.dependsOn = some [a, b] ∧
        a ≠ b ∧ (id = a ∨ id = b) ∧
        ∀ k, getDoc (simulateMatch db id rng now).1.matches_ k =
          if k = id then some (completeMatch r.score1 r.score2 r.scorers r.winner
            r.penaltyShootout now r.match_)
          else if k = n then some (progressDoc (afterOwnWrite db id r now) id r.winner nm)
          else getDoc db.matches_ k) := by
  obtain ⟨hm, hp, hdb, -⟩ := simulateMatch_returned db id rng now r h
  have hown : getDoc (afterOwnWrite db id r now).matches_ id =
      some (completeMatch r.score1 r.score2 r.scorers r.winner r.penaltyShootout now
        r.match_) := by
    rw [afterOwnWrite_matches, if_pos rfl, hm]; rfl
  have hother : ∀ k, k ≠ id →
      getDoc (afterOwnWrite db id r now).matches_ k = getDoc db.matches_ k := by
    intro k hk
    rw [afterOwnWrite_matches, if_neg (fun h' => hk h'.symm)]
  refine ⟨hm, hp, fun hnone => ?_, fun n hn => ?_⟩
  · have ht : nextTarget (afterOwnWrite db id r now) id = none := by
      unfold nextTarget
      rw [hown]
      have : (completeMatch r.score1 r.score2 r.scorers r.winner r.penaltyShootout now
          r.match_).nextMatch = none := hnone
      simp only [this]
    intro k
    rw [hdb, updateNextRound_of_nextTarget_none _ id r.winner ht]
    by_cases hk : k = id
    · rw [if_pos hk, hk, hown]
    · rw [if_neg hk, hother k hk]
  · obtain ⟨hne, hnid, nm, a, b, hnm, hdeps, hab, hid⟩ := hW.1 id r.match_ n hm hn
    have ht : nextTarget (afterOwnWrite db id r now) id = some (n, nm) := by
      unfold nextTarget
      rw [hown]
      have : (completeMatch r.score1 r.score2 r.scorers r.winner r.penaltyShootout now
          r.match_).nextMatch = some n := hn
      simp only [this, hne, if_false, hother n hnid, hnm]
    refine ⟨nm, a, b, hnid, hnm, hdeps, hab, hid, fun k => ?_⟩
    rw [hdb, updateNextRound_matches _ id r.winner n nm ht]
    by_cases hk : k = id
    · have : n ≠ k := by rw [hk]; exact hnid
      rw [if_neg this, if_pos hk, hk, hown]
    · rw [if_neg hk]
      by_cases hkn : k = n
      · rw [if_pos hkn.symm, if_pos hkn]
      · rw [if_neg (fun h' => hkn h'.symm), if_neg hkn, hother k hk]

theorem isCompleted_afterOwnWrite (db : Db) (id : String) (r : SimResult) (now : String)
    (hm : getDoc db.matches_ id = some r.match_) (k : String) :
    isCompleted (getDoc (afterOwnWrite db id r now).matches_ k) =
      (decide (k = id) || isCompleted (getDoc db.matches_ k)) := by
  rw [afterOwnWrite_matches]
  by_cases hk : id = k
  · subst hk
    simp [hm, isCompleted, completeMatch]
  · have : ¬ k = id := fun h => hk h.symm
    simp [hk, this]

/-- The progressed record of the next match of a wired bracket. -/
theorem progress_in_bracket (db : Db) (id : String) (r : SimResult) (now : String)
    (nm : MatchDoc) (a b : String) (hm : getDoc db.matches_ id = some r.match_)
    (hdeps : nm.dependsOn = some [a, b]) (hab : a ≠ b) (hid : id = a ∨ id = b) :
    (progressDoc (afterOwnWrite db id r now) id r.winner nm).status =
      (if (id = a ∨ isCompleted (getDoc db.matches_ a) = true) ∧
          (id = b ∨ isCompleted (getDoc db.matches_ b) = true) then "pending"
        else nm.status) ∧
    (progressDoc (afterOwnWrite db id r now) id r.winner nm).team1 =
      (if id = a then r.winner.slot else nm.team1) ∧
    (progressDoc (afterOwnWrite db id r now) id r.winner nm).team2 =
      (if id = a then nm.team2 else r.winner.slot) ∧
    (progressDoc (afterOwnWrite db id r now) id r.winner nm).nextMatch = nm.nextMatch ∧
    (progressDoc (afterOwnWrite db id r now) id r.winner nm).dependsOn = nm.dependsOn := by
  have hsame := progressDoc_same (afterOwnWrite db id r now) id r.winner nm
  obtain ⟨s1, s2⟩ := progressDoc_slots (afterOwnWrite db id r now) id r.winner nm
  obtain ⟨i0, i1⟩ := indexOf_pair a b id hab
  have hd : nm.dependsOn.getD [] = [a, b] := by rw [hdeps]; rfl
  refine ⟨?_, ?_, ?_, hsame.2.2.2.2.2.2.2.2.2.1, hsame.2.2.2.2.2.2.2.2.2.2.1⟩
  · rw [progressDoc_status]
    have hc : depsCompleted (afterOwnWrite db id r now) nm =
        ((decide (a = id) || isCompleted (getDoc db.matches_ a)) &&
          (decide (b = id) || isCompleted (getDoc db.matches_ b))) := by
      unfold depsCompleted
      rw [hd]
      simp only [List.get?_cons_zero, List.get?_cons_succ, getDocAt, Option.some_bind,
        isCompleted_afterOwnWrite db id r now hm]
    rw [hc]
    by_cases ha : id = a <;> by_cases hb : id = b <;>
      cases isCompleted (getDoc db.matches_ a) <;>
      cases isCompleted (getDoc db.matches_ b) <;>
      simp [ha, hb, eq_comm]
  · rw [s1, hd]
    obtain ⟨g0, g1, -⟩ := fillSlot_slots (indexOf [a, b] id) r.winner nm
    by_cases ha : id = a
    · rw [if_pos ha]; exact (g0 (i0 ha)).1
    · rw [if_neg ha]; exact (g1 (i1 (hid.resolve_left ha))).2
  · rw [s2, hd]
    obtain ⟨g0, g1, -⟩ := fillSlot_slots (indexOf [a, b] id) r.winner nm
    by_cases ha : id = a
    · rw [if_pos ha]; exact (g0 (i0 ha)).2
    · rw [if_neg ha]; exact (g1 (i1 (hid.resolve_left ha))).1

end ANLeague

namespace ANLeague

/-- In a wired bracket that keeps its locks, the next match of a pending match is locked. -/
theorem next_locked (db : Db) (hL : LockInv db) (id : String) (m nm : MatchDoc) (n a b : String)
    (hm : getDoc db.matches_ id = some m) (hp : m.status = "pending")
    (hnm : getDoc db.matches_ n = some nm) (hdeps : nm.dependsOn = some [a, b])
    (hid : id = a ∨ id = b) : nm.status = "locked" := by
  rw [hL n nm a b hnm hdeps]
  have hc : isCompleted (getDoc db.matches_ id) = false := by
    rw [hm]; simp [isCompleted, hp]
  rintro ⟨ha, hb⟩
  rcases hid with rfl | rfl
  · rw [hc] at ha; cases ha
  · rw [hc] at hb; cases hb

/-- After a call that ran to its end the completed matches are the called match and those that
were completed before. -/
theorem step_completed (db : Db) (hW : Wired db) (hL : LockInv db) (id : String) (rng : Rng)
    (now : String) (r : SimResult) (h : (simulateMatch db id rng now).2 = .returned r)
    (k : String) :
    isCompleted (getDoc (simulateMatch db id rng now).1.matches_ k) =
      (decide (k = id) || isCompleted (getDoc db.matches_ k)) := by
  obtain ⟨hm, hp, hnone, hsome⟩ := step_view db hW id rng now r h
  cases hn : r.match_.nextMatch with
  | none =>
    rw [hnone hn k]
    by_cases hk : k = id
    · simp [hk, isCompleted, completeMatch]
    · simp [hk]
  | some n =>
    obtain ⟨nm, a, b, hnid, hnm, hdeps, hab, hid, hview⟩ := hsome n hn
    rw [hview k]
    by_cases hk : k = id
    · simp [hk, isCompleted, completeMatch]
    · rw [if_neg hk]
      by_cases hkn : k = n
      · subst hkn
        have hlock := next_locked db hL id r.match_ nm k a b hm hp hnm hdeps hid
        obtain ⟨hs, -⟩ := progress_in_bracket db id r now nm a b hm hdeps hab hid
        rw [if_pos rfl, hnm]
        simp only [isCompleted, hs, hlock, hk, decide_False, Bool.false_or]
        split_ifs <;> decide
      · simp [hk, hkn]

/-- What a call that ran to its end does to each stored document of a wired bracket. -/
theorem step_docs (db : Db) (hW : Wired db) (hL : LockInv db) (id : String) (rng : Rng)
    (now : String) (r : SimResult) (h : (simulateMatch db id rng now).2 = .returned r)
    (k : String) :
    (getDoc db.matches_ k = none ∧ getDoc (simulateMatch db id rng now).1.matches_ k = none) ∨
    ∃ d e, getDoc db.matches_ k = some d ∧
      getDoc (simulateMatch db id rng now).1.matches_ k = some e ∧
      e.nextMatch = d.nextMatch ∧ e.dependsOn = d.dependsOn ∧
      ((k = id ∧ d.status = "pending" ∧ e.status = "completed") ∨
        (k ≠ id ∧ e.status = d.status) ∨
        (k ≠ id ∧ d.status = "locked" ∧ e.status = "pending")) ∧
      (e.team1 = d.team1 ∨ ∃ a b, d.dependsOn = some [a, b] ∧ id = a ∧
        e.team1 = r.winner.slot) ∧
      (e.team2 = d.team2 ∨ ∃ a b, d.dependsOn = some [a, b] ∧ id = b ∧
        e.team2 = r.winner.slot) := by
  obtain ⟨hm, hp, hnone, hsome⟩ := step_view db hW id rng now r h
  have hself : k = id → ∃ d e, getDoc db.matches_ k = some d ∧
      some (completeMatch r.score1 r.score2 r.scorers r.winner r.penaltyShootout now
        r.match_) = some e ∧
      e.nextMatch = d.nextMatch ∧ e.dependsOn = d.dependsOn ∧
      ((k = id ∧ d.status = "pending" ∧ e.status = "completed") ∨
        (k ≠ id ∧ e.status = d.status) ∨
        (k ≠ id ∧ d.status = "locked" ∧ e.status = "pending")) ∧
      (e.team1 = d.team1 ∨ ∃ a b, d.dependsOn = some [a, b] ∧ id = a ∧
        e.team1 = r.winner.slot) ∧
      (e.team2 = d.team2 ∨ ∃ a b, d.dependsOn = some [a, b] ∧ id = b ∧
        e.team2 = r.winner.slot) := by
    intro hk
    exact ⟨r.match_, _, by rw [hk]; exact hm, rfl, rfl, rfl, Or.inl ⟨hk, hp, rfl⟩, Or.inl rfl,
      Or.inl rfl⟩
  have hsame : ∀ x : Option MatchDoc, x = getDoc db.matches_ k → k ≠ id →
      (getDoc db.matches_ k = none ∧ x = none) ∨
      ∃ d e, getDoc db.matches_ k = some d ∧ x = some e ∧
        e.nextMatch = d.nextMatch ∧ e.dependsOn = d.dependsOn ∧
        ((k = id ∧ d.status = "pending" ∧ e.status = "completed") ∨
          (k ≠ id ∧ e.status = d.status) ∨
          (k ≠ id ∧ d.status = "locked" ∧ e.status = "pending")) ∧
        (e.team1 = d.team1 ∨ ∃ a b, d.dependsOn = some [a, b] ∧ id = a ∧
          e.team1 = r.winner.slot) ∧
        (e.team2 = d.team2 ∨ ∃ a b, d.dependsOn = some [a, b] ∧ id = b ∧
          e.team2 = r.winner.slot) := by
    intro x hx hk
    cases hd : getDoc db.matches_ k with
    | none => left; exact ⟨rfl, by rw [hx, hd]⟩
    | some d =>
      right
      exact ⟨d, d, rfl, by rw [hx, hd], rfl, rfl, Or.inr (Or.inl ⟨hk, rfl⟩), Or.inl rfl,
        Or.inl rfl⟩
  cases hn : r.match_.nextMatch with
  | none =>
    rw [hnone hn k]
    by_cases hk : k = id
    · rw [if_pos hk]; exact Or.inr (hself hk)
    · rw [if_neg hk]; exact hsame _ rfl hk
  | some n =>
    obtain ⟨nm, a, b, hnid, hnm, hdeps, hab, hid, hview⟩ := hsome n hn
    rw [hview k]
    by_cases hk : k = id
    · rw [if_pos hk]; exact Or.inr (hself hk)
    · rw [if_neg hk]
      by_cases hkn : k = n
      · subst hkn
        rw [if_pos rfl]
        right
        have hlock := next_locked db hL id r.match_ nm k a b hm hp hnm hdeps hid
        obtain ⟨hs, ht1, ht2, hnx, hdp⟩ :=
          progress_in_bracket db id r now nm a b hm hdeps hab hid
        refine ⟨nm, _, hnm, rfl, hnx, hdp, ?_, ?_, ?_⟩
        · rw [hs]
          split_ifs
          · exact Or.inr (Or.inr ⟨hk, hlock, rfl⟩)
          · exact Or.inr (Or.inl ⟨hk, rfl⟩)
        · rw [ht1]
          by_cases ha : id = a
          · rw [if_pos ha]; exact Or.inr ⟨a, b, hdeps, ha, rfl⟩
          · rw [if_neg ha]; exact Or.inl rfl
        · rw [ht2]
          by_cases ha : id = a
          · rw [if_pos ha]; exact Or.inl rfl
          · rw [if_neg ha]; exact Or.inr ⟨a, b, hdeps, hid.resolve_left ha, rfl⟩
      · rw [if_neg hkn]; exact hsame _ rfl hk

end ANLeague

namespace ANLeague

/-- After a call that ran to its end, a match with dependencies holds the winner in the slot
that the called match feeds, and is locked exactly when a dependency is not completed. -/
theorem step_fed (db : Db) (hW : Wired db) (hL : LockInv db) (id : String) (rng : Rng)
    (now : String) (r : SimResult) (h : (simulateMatch db id rng now).2 = .returned r)
    (k : String) (e : MatchDoc) (a0 b0 : String)
    (he : getDoc (simulateMatch db id rng now).1.matches_ k = some e)
    (hdep : e.dependsOn = some [a0, b0]) :
    (id = a0 → e.team1 = r.winner.slot) ∧ (id = b0 → e.team2 = r.winner.slot) ∧
    (e.status = "locked" ↔
      ¬ ((id = a0 ∨ isCompleted (getDoc db.matches_ a0) = true) ∧
        (id = b0 ∨ isCompleted (getDoc db.matches_ b0) = true))) := by
  obtain ⟨hm, hp, hnone, hsome⟩ := step_view db hW id rng now r h
  -- the called match is no dependency of itself
  have hnotself : ∀ l, r.match_.dependsOn = some l → l = [a0, b0] → id ≠ a0 ∧ id ≠ b0 := by
    intro l hl hl2
    obtain ⟨a, b, ma, mb, hab, hma, hmb, hna, hnb⟩ := hW.2 id r.match_ l hm hl
    rw [hl2] at hab
    simp only [List.cons.injEq, and_true] at hab
    obtain ⟨rfl, rfl⟩ := hab
    constructor
    · rintro rfl
      rw [hm] at hma
      rw [← Option.some.inj hma] at hna
      exact (hW.1 _ r.match_ _ hm hna).2.1 rfl
    · rintro rfl
      rw [hm] at hmb
      rw [← Option.some.inj hmb] at hnb
      exact (hW.1 _ r.match_ _ hm hnb).2.1 rfl
  -- the completed record of the called match
  have hself : k = id → (some (completeMatch r.score1 r.score2 r.scorers r.winner
      r.penaltyShootout now r.match_) = some e) →
      (id = a0 → e.team1 = r.winner.slot) ∧ (id = b0 → e.team2 = r.winner.slot) ∧
      (e.status = "locked" ↔
        ¬ ((id = a0 ∨ isCompleted (getDoc db.matches_ a0) = true) ∧
          (id = b0 ∨ isCompleted (getDoc db.matches_ b0) = true))) := by
    intro hk hee
    have hee2 := Option.some.inj hee
    have hd : r.match_.dependsOn = some [a0, b0] := by rw [← hdep, ← hee2]; rfl
    obtain ⟨n1, n2⟩ := hnotself _ hd rfl
    have hst : e.status = "completed" := by rw [← hee2]; rfl
    have hnl : ¬ r.match_.status = "locked" := by rw [hp]; decide
    have hboth := not_not.mp (fun hc => hnl ((hL id r.match_ a0 b0 hm hd).mpr hc))
    refine ⟨fun h1 => absurd h1 n1, fun h1 => absurd h1 n2, ?_⟩
    rw [hst]
    constructor
    · intro h1; exact absurd h1 (by decide)
    · intro h1; exact absurd ⟨Or.inr hboth.1, Or.inr hboth.2⟩ h1
  -- a record that the call left as it was, fed by another match than the called one
  have hrest : k ≠ id → (∀ n, r.match_.nextMatch = some n → k ≠ n) →
      getDoc db.matches_ k = some e →
      (id = a0 → e.team1 = r.winner.slot) ∧ (id = b0 → e.team2 = r.winner.slot) ∧
      (e.status = "locked" ↔
        ¬ ((id = a0 ∨ isCompleted (getDoc db.matches_ a0) = true) ∧
          (id = b0 ∨ isCompleted (getDoc db.matches_ b0) = true))) := by
    intro hk hkn hee
    obtain ⟨a, b, ma, mb, hab, hma, hmb, hna, hnb⟩ := hW.2 k e _ hee hdep
    simp only [List.cons.injEq, and_true] at hab
    obtain ⟨rfl, rfl⟩ := hab
    have n1 : id ≠ a0 := by
      rintro rfl
      rw [hm] at hma
      rw [← Option.some.inj hma] at hna
      exact hkn k hna rfl
    have n2 : id ≠ b0 := by
      rintro rfl
      rw [hm] at hmb
      rw [← Option.some.inj hmb] at hnb
      exact hkn k hnb rfl
    refine ⟨fun h1 => absurd h1 n1, fun h1 => absurd h1 n2, ?_⟩
    rw [hL k e a0 b0 hee hdep]
    simp [n1, n2]
  cases hn : r.match_.nextMatch with
  | none =>
    rw [hnone hn k] at he
    by_cases hk : k = id
    · rw [if_pos hk] at he; exact hself hk he
    · rw [if_neg hk] at he
      exact hrest hk (fun n hn2 => by rw [hn] at hn2; cases hn2) he
  | some n =>
    obtain ⟨nm, a, b, hnid, hnm, hdeps, hab, hid, hview⟩ := hsome n hn
    rw [hview k] at he
    by_cases hk : k = id
    · rw [if_pos hk] at he; exact hself hk he
    · rw [if_neg hk] at he
      by_cases hkn : k = n
      · rw [if_pos hkn] at he
        have hee := Option.some.inj he
        have hlock := next_locked db hL id r.match_ nm n a b hm hp hnm hdeps hid
        obtain ⟨hs, ht1, ht2, -, hdp⟩ :=
          progress_in_bracket db id r now nm a b hm hdeps hab hid
        rw [hee] at hs ht1 ht2 hdp
        have hl : [a0, b0] = [a, b] := by
          rw [hdep, hdeps] at hdp; exact Option.some.inj hdp
        simp only [List.cons.injEq, and_true] at hl
        obtain ⟨rfl, rfl⟩ := hl
        refine ⟨fun h1 => by rw [ht1, if_pos h1], fun h1 => ?_, ?_⟩
        · have : ¬ id = a0 := fun h2 => hab (h2.symm.trans h1)
          rw [ht2, if_neg this]
        · rw [hs]
          split_ifs with hc
          · constructor
            · intro h1; exact absurd h1 (by decide)
            · intro h1; exact absurd hc h1
          · constructor
            · intro _; exact hc
            · intro _; exact hlock
      · rw [if_neg hkn] at he
        exact hrest hk (fun n2 hn2 => by
          rw [hn] at hn2; rw [← Option.some.inj hn2]; exact hkn) he

end ANLeague

namespace ANLeague

theorem winner_slot (m : MatchDoc) (s1 s2 : Int) (w : Winner) (ps : Option Shootout)
    (h : Resolved m s1 s2 w ps) : w.slot = m.team1 ∨ w.slot = m.team2 := by
  rcases h with ⟨-, hw, -⟩ | ⟨-, hw, -⟩ | ⟨-, rec, -, -, -, -, hw⟩
  · left; rw [hw]; rfl
  · right; rw [hw]; rfl
  · rw [hw]
    split_ifs
    · left; rfl
    · right; rfl

/-- The invariant of a bracket is kept by every `simulateMatch` call. -/
theorem inv_step (P : TeamSlot → Prop) (db : Db) (hI : BracketInv P db) (id : String)
    (rng : Rng) (now : String) : BracketInv P (simulateMatch db id rng now).1 := by
  cases hret : (simulateMatch db id rng now).2.isReturned with
  | false => rw [simulateMatch_not_returned db id rng now hret]; exact hI
  | true =>
    obtain ⟨hW, hL, hS, hP⟩ := hI
    obtain ⟨r, hr⟩ : ∃ r, (simulateMatch db id rng now).2 = .returned r := by
      cases ho : (simulateMatch db id rng now).2 with
      | null => rw [ho] at hret; cases hret
      | threw e => rw [ho] at hret; cases hret
      | returned r => exact ⟨r, rfl⟩
    obtain ⟨hm, hp, -, -, -, hres⟩ := simulateMatch_returned db id rng now r hr
    have hdocs := step_docs db hW hL id rng now r hr
    have hcomp := step_completed db hW hL id rng now r hr
    have hfed := step_fed db hW hL id rng now r hr
    -- the documents after the call, read back to those before it
    have hback : ∀ k e, getDoc (simulateMatch db id rng now).1.matches_ k = some e →
        ∃ d, getDoc db.matches_ k = some d ∧ e.nextMatch = d.nextMatch ∧
          e.dependsOn = d.dependsOn ∧
          ((k = id ∧ d.status = "pending" ∧ e.status = "completed") ∨
            (k ≠ id ∧ e.status = d.status) ∨
            (k ≠ id ∧ d.status = "locked" ∧ e.status = "pending")) ∧
          (e.team1 = d.team1 ∨ ∃ a b, d.dependsOn = some [a, b] ∧ id = a ∧
            e.team1 = r.winner.slot) ∧
          (e.team2 = d.team2 ∨ ∃ a b, d.dependsOn = some [a, b] ∧ id = b ∧
            e.team2 = r.winner.slot) := by
      intro k e he
      rcases hdocs k with ⟨-, hnone⟩ | ⟨d, e2, hd, he2, h1, h2, h3, h4, h5⟩
      · rw [hnone] at he; cases he
      · rw [he2] at he
        rw [← Option.some.inj he]
        exact ⟨d, hd, h1, h2, h3, h4, h5⟩
    have hfwd : ∀ k d, getDoc db.matches_ k = some d →
        ∃ e, getDoc (simulateMatch db id rng now).1.matches_ k = some e ∧
          e.nextMatch = d.nextMatch ∧ e.dependsOn = d.dependsOn := by
      intro k d hd
      rcases hdocs k with ⟨hnone, -⟩ | ⟨d2, e, hd2, he, h1, h2, -⟩
      · rw [hnone] at hd; cases hd
      · rw [hd2] at hd
        rw [← Option.some.inj hd]
        exact ⟨e, he, h1, h2⟩
    -- the two slots of the called match satisfy `P`
    have hslots : P r.match_.team1 ∧ P r.match_.team2 := by
      cases hd : r.match_.dependsOn with
      | none => exact hP.1 id r.match_ hm hd
      | some l =>
        obtain ⟨a, b, -, -, rfl, -⟩ := hW.2 id r.match_ l hm hd
        have hnl : ¬ r.match_.status = "locked" := by rw [hp]; decide
        have hboth := not_not.mp (fun hc => hnl ((hL id r.match_ a b hm hd).mpr hc))
        exact ⟨(hP.2 id r.match_ a b hm hd).1 hboth.1, (hP.2 id r.match_ a b hm hd).2 hboth.2⟩
    have hwin : P r.winner.slot := by
      rcases winner_slot _ _ _ _ _ hres with h | h
      · rw [h]; exact hslots.1
      · rw [h]; exact hslots.2
    refine ⟨⟨?_, ?_⟩, ?_, ?_, ?_, ?_⟩
    · intro k e n he hn
      obtain ⟨d, hd, h1, -⟩ := hback k e he
      rw [h1] at hn
      obtain ⟨g1, g2, nm, a, b, hnm, hdeps, hab, hid⟩ := hW.1 k d n hd hn
      obtain ⟨e2, he2, -, h2⟩ := hfwd n nm hnm
      exact ⟨g1, g2, e2, a, b, he2, by rw [h2]; exact hdeps, hab, hid⟩
    · intro n e l he hl
      obtain ⟨d, hd, -, h2, -⟩ := hback n e he
      rw [h2] at hl
      obtain ⟨a, b, ma, mb, hab, hma, hmb, hna, hnb⟩ := hW.2 n d l hd hl
      obtain ⟨ea, hea, ha1, -⟩ := hfwd a ma hma
      obtain ⟨eb, heb, hb1, -⟩ := hfwd b mb hmb
      exact ⟨a, b, ea, eb, hab, hea, heb, by rw [ha1]; exact hna, by rw [hb1]; exact hnb⟩
    · intro n e a b he hdep
      rw [(hfed n e a b he hdep).2.2, hcomp a, hcomp b]
      have e1 : (id = a) ↔ (a = id) := eq_comm
      have e2 : (id = b) ↔ (b = id) := eq_comm
      simp only [Bool.or_eq_true, decide_eq_true_eq, e1, e2]
    · intro k e he
      obtain ⟨d, hd, -, h2, h3, -⟩ := hback k e he
      obtain ⟨s1, s2⟩ := hS k d hd
      rcases h3 with ⟨-, -, h⟩ | ⟨-, h⟩ | ⟨-, -, h⟩
      · exact ⟨Or.inr (Or.inr h), fun _ => by rw [h]; decide⟩
      · rw [h]; exact ⟨s1, fun hn => s2 (by rw [← h2]; exact hn)⟩
      · exact ⟨Or.inr (Or.inl h), fun _ => by rw [h]; decide⟩
    · intro k e he hdep
      obtain ⟨d, hd, -, h2, -, h4, h5⟩ := hback k e he
      rw [h2] at hdep
      obtain ⟨p1, p2⟩ := hP.1 k d hd hdep
      constructor
      · rcases h4 with h | ⟨a, b, hab, -⟩
        · rw [h]; exact p1
        · rw [hdep] at hab; cases hab
      · rcases h5 with h | ⟨a, b, hab, -⟩
        · rw [h]; exact p2
        · rw [hdep] at hab; cases hab
    · intro n e a b he hdep
      obtain ⟨d, hd, -, h2, -, h4, h5⟩ := hback n e he
      obtain ⟨f1, f2, -⟩ := hfed n e a b he hdep
      rw [h2] at hdep
      obtain ⟨p1, p2⟩ := hP.2 n d a b hd hdep
      rw [hcomp a, hcomp b]
      constructor
      · intro hc
        by_cases ha : id = a
        · rw [f1 ha]; exact hwin
        · have hc2 : isCompleted (getDoc db.matches_ a) = true := by
            simp only [Bool.or_eq_true, decide_eq_true_eq] at hc
            exact hc.resolve_left (fun h' => ha h'.symm)
          rcases h4 with h | ⟨a2, b2, hab, h6, -⟩
          · rw [h]; exact p1 hc2
          · rw [hdep] at hab
            simp only [Option.some.injEq, List.cons.injEq, and_true] at hab
            exact absurd (h6.trans hab.1.symm) ha
      · intro hc
        by_cases hb : id = b
        · rw [f2 hb]; exact hwin
        · have hc2 : isCompleted (getDoc db.matches_ b) = true := by
            simp only [Bool.or_eq_true, decide_eq_true_eq] at hc
            exact hc.resolve_left (fun h' => hb h'.symm)
          rcases h5 with h | ⟨a2, b2, hab, h6, -⟩
          · rw [h]; exact p2 hc2
          · rw [hdep] at hab
            simp only [Option.some.injEq, List.cons.injEq, and_true] at hab
            exact absurd (h6.trans hab.2.symm) hb

theorem inv_reachable (P : TeamSlot → Prop) (db0 db : Db) (hI : BracketInv P db0)
    (hR : Reachable db0 db) : BracketInv P db := by
  induction hR with
  | start => exact hI
  | call db id rng now _ ih => exact inv_step P db ih id rng now

end ANLeague

namespace ANLeague

/-! ## The freshly generated bracket -/

theorem swapAt_subset {α : Type} (a : List α) (i j : Nat) (x : α) (hx : x ∈ swapAt a i j) :
    x ∈ a := by
  unfold swapAt at hx
  split at hx
  · rename_i u v hu hv
    rcases List.mem_or_eq_of_mem_set hx with h | h
    · rcases List.mem_or_eq_of_mem_set h with h2 | h2
      · exact h2
      · rw [h2]; exact List.get?_mem hv
    · rw [h]; exact List.get?_mem hu
  · exact hx

theorem shuffleLoop_subset {α : Type} (n : Nat) (a : List α) (rng : Rng) (x : α)
    (hx : x ∈ (shuffleLoop n a rng).1) : x ∈ a := by
  induction n generalizing a rng with
  | zero => exact hx
  | succ n ih => exact swapAt_subset a _ _ x (ih _ _ hx)

theorem createBracket_ok (teams : List Team) (rng : Rng) (b : Bracket)
    (h : createBracket teams rng = .ok b) :
    ∃ s0 s1 s2 s3 s4 s5 s6 s7 : Team,
      (∀ t, t ∈ [s0, s1, s2, s3, s4, s5, s6, s7] → t ∈ teams) ∧
      b.allMatches.map (fun m => (m.matchId, m)) = bracketDocs s0 s1 s2 s3 s4 s5 s6 s7 := by
  unfold createBracket at h
  split_ifs at h
  split at h
  · rename_i s0 s1 s2 s3 s4 s5 s6 s7 hs
    refine ⟨s0, s1, s2, s3, s4, s5, s6, s7, fun t ht => ?_, ?_⟩
    · rw [← hs] at ht
      exact shuffleLoop_subset _ _ _ t ht
    · cases h
      rfl
  · cases h

theorem uploadBracket_matches (b : Bracket) (now : String)
    (s0 s1 s2 s3 s4 s5 s6 s7 : Team)
    (hb : b.allMatches.map (fun m => (m.matchId, m)) = bracketDocs s0 s1 s2 s3 s4 s5 s6 s7) :
    (uploadBracket ⟨[], [], [], []⟩ b now).matches_ = bracketDocs s0 s1 s2 s3 s4 s5 s6 s7 := by
  have hl : b.allMatches =
      [quarterFinal "QF1" 1 s0 s1 "SF1", quarterFinal "QF2" 2 s2 s3 "SF1",
       quarterFinal "QF3" 3 s4 s5 "SF2", quarterFinal "QF4" 4 s6 s7 "SF2",
       lockedMatch "SF1" "Semi-Final" 1 (some "FINAL") ["QF1", "QF2"],
       lockedMatch "SF2" "Semi-Final" 2 (some "FINAL") ["QF3", "QF4"],
       lockedMatch "FINAL" "Final" 1 none ["SF1", "SF2"]] := by
    have h2 : (b.allMatches.map (fun m => (m.matchId, m))).map Prod.snd = b.allMatches := by
      rw [List.map_map]; exact List.map_id _
    rw [← h2, hb]
    rfl
  unfold uploadBracket
  simp only [hl]
  simp [List.foldl, setDoc, quarterFinal, lockedMatch, bracketDocs]

theorem fresh_docs (teams : List Team) (db : Db) (h : FreshBracketOf teams db) :
    ∃ s0 s1 s2 s3 s4 s5 s6 s7 : Team,
      (∀ t, t ∈ [s0, s1, s2, s3, s4, s5, s6, s7] → t ∈ teams) ∧
      ∀ id, getDoc db.matches_ id = getDoc (bracketDocs s0 s1 s2 s3 s4 s5 s6 s7) id := by
  obtain ⟨rng, b, now, hb, hdb⟩ := h
  obtain ⟨s0, s1, s2, s3, s4, s5, s6, s7, hmem, hdocs⟩ := createBracket_ok teams rng b hb
  refine ⟨s0, s1, s2, s3, s4, s5, s6, s7, hmem, fun id => ?_⟩
  rw [hdb id, uploadBracket_matches b now s0 s1 s2 s3 s4 s5 s6 s7 hdocs]

theorem bracketDocs_cases (s0 s1 s2 s3 s4 s5 s6 s7 : Team) (id : String) (m : MatchDoc)
    (h : getDoc (bracketDocs s0 s1 s2 s3 s4 s5 s6 s7) id = some m) :
    (id = "QF1" ∧ m = quarterFinal "QF1" 1 s0 s1 "SF1") ∨
    (id = "QF2" ∧ m = quarterFinal "QF2" 2 s2 s3 "SF1") ∨
    (id = "QF3" ∧ m = quarterFinal "QF3" 3 s4 s5 "SF2") ∨
    (id = "QF4" ∧ m = quarterFinal "QF4" 4 s6 s7 "SF2") ∨
    (id = "SF1" ∧ m = lockedMatch "SF1" "Semi-Final" 1 (some "FINAL") ["QF1", "QF2"]) ∨
    (id = "SF2" ∧ m = lockedMatch "SF2" "Semi-Final" 2 (some "FINAL") ["QF3", "QF4"]) ∨
    (id = "FINAL" ∧ m = lockedMatch "FINAL" "Final" 1 none ["SF1", "SF2"]) := by
  unfold bracketDocs at h
  simp only [getDoc] at h
  split_ifs at h with h1 h2 h3 h4 h5 h6 h7
  · cases h; exact Or.inl ⟨h1.symm, rfl⟩
  · cases h; exact Or.inr (Or.inl ⟨h2.symm, rfl⟩)
  · cases h; exact Or.inr (Or.inr (Or.inl ⟨h3.symm, rfl⟩))
  · cases h; exact Or.inr (Or.inr (Or.inr (Or.inl ⟨h4.symm, rfl⟩)))
  · cases h; exact Or.inr (Or.inr (Or.inr (Or.inr (Or.inl ⟨h5.symm, rfl⟩))))
  · cases h; exact Or.inr (Or.inr (Or.inr (Or.inr (Or.inr (Or.inl ⟨h6.symm, rfl⟩)))))
  · cases h; exact Or.inr (Or.inr (Or.inr (Or.inr (Or.inr (Or.inr ⟨h7.symm, rfl⟩)))))

theorem bracketDocs_get (s0 s1 s2 s3 s4 s5 s6 s7 : Team) :
    getDoc (bracketDocs s0 s1 s2 s3 s4 s5 s6 s7) "QF1" =
      some (quarterFinal "QF1" 1 s0 s1 "SF1") ∧
    getDoc (bracketDocs s0 s1 s2 s3 s4 s5 s6 s7) "QF2" =
      some (quarterFinal "QF2" 2 s2 s3 "SF1") ∧
    getDoc (bracketDocs s0 s1 s2 s3 s4 s5 s6 s7) "QF3" =
      some (quarterFinal "QF3" 3 s4 s5 "SF2") ∧
    getDoc (bracketDocs s0 s1 s2 s3 s4 s5 s6 s7) "QF4" =
      some (quarterFinal "QF4" 4 s6 s7 "SF2") ∧
    getDoc (bracketDocs s0 s1 s2 s3 s4 s5 s6 s7) "SF1" =
      some (lockedMatch "SF1" "Semi-Final" 1 (some "FINAL") ["QF1", "QF2"]) ∧
    getDoc (bracketDocs s0 s1 s2 s3 s4 s5 s6 s7) "SF2" =
      some (lockedMatch "SF2" "Semi-Final" 2 (some "FINAL") ["QF3", "QF4"]) ∧
    getDoc (bracketDocs s0 s1 s2 s3 s4 s5 s6 s7) "FINAL" =
      some (lockedMatch "FINAL" "Final" 1 none ["SF1", "SF2"]) := by
  simp [bracketDocs, getDoc]

/-- A freshly generated bracket satisfies the invariant, every filled slot being the slot of
one of the teams it was made of. -/
theorem fresh_inv (teams : List Team) (db : Db) (h : FreshBracketOf teams db) :
    BracketInv (fun s => ∃ t, t ∈ teams ∧ s = t.slot) db := by
  obtain ⟨s0, s1, s2, s3, s4, s5, s6, s7, hmem, hdb⟩ := fresh_docs teams db h
  obtain ⟨g1, g2, g3, g4, g5, g6, g7⟩ := bracketDocs_get s0 s1 s2 s3 s4 s5 s6 s7
  have hcases := fun id m (hm : getDoc db.matches_ id = some m) =>
    bracketDocs_cases s0 s1 s2 s3 s4 s5 s6 s7 id m (by rw [← hdb id]; exact hm)
  refine ⟨⟨?_, ?_⟩, ?_, ?_, ?_, ?_⟩
  · intro id m n hm hn
    rcases hcases id m hm with ⟨rfl, rfl⟩ | ⟨rfl, rfl⟩ | ⟨rfl, rfl⟩ | ⟨rfl, rfl⟩ | ⟨rfl, rfl⟩ |
      ⟨rfl, rfl⟩ | ⟨rfl, rfl⟩
    all_goals
      simp only [quarterFinal, lockedMatch, Option.some.injEq] at hn
      first
        | (cases hn; done)
        | (subst hn
           refine ⟨by decide, by decide, ?_⟩
           simp only [hdb, g5, g6, g7]
           first
             | exact ⟨_, _, _, rfl, rfl, by decide, Or.inl rfl⟩
             | exact ⟨_, _, _, rfl, rfl, by decide, Or.inr rfl⟩)
  · intro n nm l hnm hl
    rcases hcases n nm hnm with ⟨rfl, rfl⟩ | ⟨rfl, rfl⟩ | ⟨rfl, rfl⟩ | ⟨rfl, rfl⟩ | ⟨rfl, rfl⟩ |
      ⟨rfl, rfl⟩ | ⟨rfl, rfl⟩
    all_goals
      simp only [quarterFinal, lockedMatch, Option.some.injEq] at hl
      first
        | (cases hl; done)
        | (subst hl
           simp only [hdb]
           first
             | exact ⟨_, _, _, _, rfl, g1, g2, rfl, rfl⟩
             | exact ⟨_, _, _, _, rfl, g3, g4, rfl, rfl⟩
             | exact ⟨_, _, _, _, rfl, g5, g6, rfl, rfl⟩)
  · intro n nm a b hnm hl
    rcases hcases n nm hnm with ⟨rfl, rfl⟩ | ⟨rfl, rfl⟩ | ⟨rfl, rfl⟩ | ⟨rfl, rfl⟩ | ⟨rfl, rfl⟩ |
      ⟨rfl, rfl⟩ | ⟨rfl, rfl⟩
    all_goals
      simp only [quarterFinal, lockedMatch, Option.some.injEq, List.cons.injEq,
        and_true] at hl
      first
        | (cases hl; done)
        | (obtain ⟨rfl, rfl⟩ := hl
           simp only [hdb, g1, g2, g3, g4, g5, g6]
           simp [isCompleted, quarterFinal, lockedMatch])
  · intro id m hm
    rcases hcases id m hm with ⟨rfl, rfl⟩ | ⟨rfl, rfl⟩ | ⟨rfl, rfl⟩ | ⟨rfl, rfl⟩ | ⟨rfl, rfl⟩ |
      ⟨rfl, rfl⟩ | ⟨rfl, rfl⟩
    all_goals simp [quarterFinal, lockedMatch]
  · intro id m hm hd
    rcases hcases id m hm with ⟨rfl, rfl⟩ | ⟨rfl, rfl⟩ | ⟨rfl, rfl⟩ | ⟨rfl, rfl⟩ | ⟨rfl, rfl⟩ |
      ⟨rfl, rfl⟩ | ⟨rfl, rfl⟩
    all_goals
      simp only [quarterFinal, lockedMatch] at hd
      first
        | (cases hd; done)
        | exact ⟨⟨_, hmem _ (by simp), rfl⟩, ⟨_, hmem _ (by simp), rfl⟩⟩
  · intro n nm a b hnm hl
    rcases hcases n nm hnm with ⟨rfl, rfl⟩ | ⟨rfl, rfl⟩ | ⟨rfl, rfl⟩ | ⟨rfl, rfl⟩ | ⟨rfl, rfl⟩ |
      ⟨rfl, rfl⟩ | ⟨rfl, rfl⟩
    all_goals
      simp only [quarterFinal, lockedMatch, Option.some.injEq, List.cons.injEq,
        and_true] at hl
      first
        | (cases hl; done)
        | (obtain ⟨rfl, rfl⟩ := hl
           simp only [hdb, g1, g2, g3, g4, g5, g6]
           simp [isCompleted, quarterFinal, lockedMatch])

end ANLeague

namespace ANLeague

/-- The outcome of a call depends on the store only through the document of the called match
and the `teams` collection. -/
theorem simulateMatch_outcome_congr (db1 db2 : Db) (id : String) (rng : Rng) (now : String)
    (hdoc : getDoc db1.matches_ id = getDoc db2.matches_ id) (hteams : db1.teams = db2.teams) :
    (simulateMatch db1 id rng now).2 = (simulateMatch db2 id rng now).2 := by
  unfold simulateMatch
  rw [hdoc, hteams]
  cases getDoc db2.matches_ id with
  | none => rfl
  | some m =>
    simp only []
    by_cases hp : m.status = "pending"
    · simp only [hp, ne_eq, not_true_eq_false, if_false]
      rcases generateScore (ratingOrDefault (getDocAt db2.teams m.team1.teamId))
        (ratingOrDefault (getDocAt db2.teams m.team2.teamId)) rng with ⟨⟨s1, s2⟩, rng1⟩
      simp only []
      cases generateScorers m.team1.country m.team1.players s1 rng1 with
      | error e => rfl
      | ok p1 =>
        obtain ⟨l1, rng2⟩ := p1
        simp only []
        cases generateScorers m.team2.country m.team2.players s2 rng2 with
        | error e => rfl
        | ok p2 =>
          obtain ⟨l2, rng3⟩ := p2
          simp only []
          rcases determineWinner m.team1 s1 m.team2 s2 rng3 with ⟨w0, rng4⟩
          simp only []
          cases (if s1 = s2 then resolveDraw m w0 rng4 else Except.ok (w0, none)) with
          | error e => rfl
          | ok p3 => rfl
    · simp only [hp, ne_eq, not_false_eq_true, if_true]

theorem eq_of_same (d e : MatchDoc) (h : SameButSlotsAndStatus d e) :
    e = { d with team1 := e.team1, team2 := e.team2, status := e.status } := by
  obtain ⟨h1, h2, h3, h4, h5, h6, h7, h8, h9, h10, h11, h12⟩ := h
  cases d
  cases e
  simp only at h1 h2 h3 h4 h5 h6 h7 h8 h9 h10 h11 h12
  simp [h1, h2, h3, h4, h5, h6, h7, h8, h9, h10, h11, h12]

/-- The record of the next match after a call that ran to its end, in a wired bracket. -/
theorem feed_next (db : Db) (hW : Wired db) (id : String) (rng : Rng) (now : String)
    (r : SimResult) (h : (simulateMatch db id rng now).2 = .returned r)
    (n : String) (nm : MatchDoc) (a b : String) (hn : r.match_.nextMatch = some n)
    (hnm : getDoc db.matches_ n = some nm) (hdeps : nm.dependsOn = some [a, b]) :
    getDoc (simulateMatch db id rng now).1.matches_ n =
      some { nm with
        team1 := if id = a then r.winner.slot else nm.team1
        team2 := if id = a then nm.team2 else r.winner.slot
        status := if (id = a ∨ isCompleted (getDoc db.matches_ a) = true) ∧
            (id = b ∨ isCompleted (getDoc db.matches_ b) = true) then "pending"
          else nm.status } := by
  obtain ⟨hm, -, -, hsome⟩ := step_view db hW id rng now r h
  obtain ⟨nm2, a2, b2, hnid, hnm2, hdeps2, hab, hid, hview⟩ := hsome n hn
  rw [hnm] at hnm2
  have e1 := Option.some.inj hnm2
  subst e1
  rw [hdeps] at hdeps2
  simp only [Option.some.injEq, List.cons.injEq, and_true] at hdeps2
  obtain ⟨rfl, rfl⟩ := hdeps2
  rw [hview n, if_neg hnid, if_pos rfl]
  obtain ⟨hs, ht1, ht2, -, -⟩ := progress_in_bracket db id r now nm a b hm hdeps hab hid
  rw [eq_of_same nm _ (progressDoc_same (afterOwnWrite db id r now) id r.winner nm), hs, ht1,
    ht2]

/-- Every call keeps every stored document in place, with its wiring. -/
theorem simulateMatch_keeps_wiring (db : Db) (id : String) (rng : Rng) (now : String)
    (k : String) (d : MatchDoc) (hd : getDoc db.matches_ k = some d) :
    ∃ e, getDoc (simulateMatch db id rng now).1.matches_ k = some e ∧
      e.nextMatch = d.nextMatch ∧ e.dependsOn = d.dependsOn := by
  cases hret : (simulateMatch db id rng now).2.isReturned with
  | false =>
    rw [simulateMatch_not_returned db id rng now hret]
    exact ⟨d, hd, rfl, rfl⟩
  | true =>
    obtain ⟨r, hr⟩ : ∃ r, (simulateMatch db id rng now).2 = .returned r := by
      cases ho : (simulateMatch db id rng now).2 with
      | null => rw [ho] at hret; cases hret
      | threw e => rw [ho] at hret; cases hret
      | returned r => exact ⟨r, rfl⟩
    obtain ⟨hm, -, hdb, -⟩ := simulateMatch_returned db id rng now r hr
    have hmid : ∃ c, getDoc (afterOwnWrite db id r now).matches_ k = some c ∧
        c.nextMatch = d.nextMatch ∧ c.dependsOn = d.dependsOn := by
      rw [afterOwnWrite_matches]
      by_cases hk : id = k
      · subst hk
        rw [if_pos rfl, hd]
        exact ⟨_, rfl, rfl, rfl⟩
      · rw [if_neg hk]
        exact ⟨d, hd, rfl, rfl⟩
    obtain ⟨c, hc, c1, c2⟩ := hmid
    obtain ⟨e, he, hsame⟩ := updateNextRound_same (afterOwnWrite db id r now) id r.winner k c hc
    rw [hdb]
    exact ⟨e, he, by rw [hsame.2.2.2.2.2.2.2.2.2.1, c1],
      by rw [hsame.2.2.2.2.2.2.2.2.2.2.1, c2]⟩

theorem reachable_keeps_wiring (db0 db : Db) (hR : Reachable db0 db) (k : String)
    (d : MatchDoc) (hd : getDoc db0.matches_ k = some d) :
    ∃ e, getDoc db.matches_ k = some e ∧ e.nextMatch = d.nextMatch ∧
      e.dependsOn = d.dependsOn := by
  induction hR with
  | start => exact ⟨d, hd, rfl, rfl⟩
  | call db id rng now _ ih =>
    obtain ⟨c, hc, c1, c2⟩ := ih
    obtain ⟨e, he, e1, e2⟩ := simulateMatch_keeps_wiring db id rng now k c hc
    exact ⟨e, he, by rw [e1, c1], by rw [e2, c2]⟩

end ANLeague

namespace ANLeague

theorem sampleDb_fresh : FreshBracketOf sampleTeams sampleDb :=
  ⟨fun _ => nineTenths, sampleBracket, "2025-01-01T00:00:00.000Z", by decide!, fun _ => rfl⟩

theorem returned_of_isReturned (o : Outcome) (h : o.isReturned = true) :
    ∃ r, o = .returned r := by
  cases o with
  | null => cases h
  | threw e => cases h
  | returned r => exact ⟨r, rfl⟩

/-- C4. In every state reachable from a freshly generated bracket by `simulateMatch` calls, a
match with dependencies lists two of them and has status `"locked"` exactly when at least one
of the two is not stored as `"completed"`; SF1, SF2 and FINAL are such matches, with the
dependencies QF1 and QF2, QF3 and QF4, SF1 and SF2, so that a semifinal stays locked as long as
one of its two quarterfinals is not completed. -/
theorem locked_iff_dependency_open (db0 db : Db) (h0 : FreshBracket db0)
    (hR : Reachable db0 db) :
    (∀ n nm l, getDoc db.matches_ n = some nm → nm.dependsOn = some l →
      ∃ a b, l = [a, b] ∧
        (nm.status = "locked" ↔
          ¬ (isCompleted (getDoc db.matches_ a) = true ∧
            isCompleted (getDoc db.matches_ b) = true))) ∧
    (∃ sf1 sf2 fin, getDoc db.matches_ "SF1" = some sf1 ∧
      getDoc db.matches_ "SF2" = some sf2 ∧ getDoc db.matches_ "FINAL" = some fin ∧
      sf1.dependsOn = some ["QF1", "QF2"] ∧ sf2.dependsOn = some ["QF3", "QF4"] ∧
      fin.dependsOn = some ["SF1", "SF2"] ∧
      (sf1.status = "locked" ↔
        ¬ (isCompleted (getDoc db.matches_ "QF1") = true ∧
          isCompleted (getDoc db.matches_ "QF2") = true)) ∧
      (sf2.status = "locked" ↔
        ¬ (isCompleted (getDoc db.matches_ "QF3") = true ∧
          isCompleted (getDoc db.matches_ "QF4") = true)) ∧
      (fin.status = "locked" ↔
        ¬ (isCompleted (getDoc db.matches_ "SF1") = true ∧
          isCompleted (getDoc db.matches_ "SF2") = true))) := by
  obtain ⟨teams, hf⟩ := h0
  obtain ⟨hW, hL, -, -⟩ := inv_reachable _ db0 db (fresh_inv teams db0 hf) hR
  obtain ⟨s0, s1, s2, s3, s4, s5, s6, s7, -, hdb⟩ := fresh_docs teams db0 hf
  obtain ⟨-, -, -, -, g5, g6, g7⟩ := bracketDocs_get s0 s1 s2 s3 s4 s5 s6 s7
  obtain ⟨sf1, e1, -, d1⟩ := reachable_keeps_wiring db0 db hR "SF1" _ (by rw [hdb]; exact g5)
  obtain ⟨sf2, e2, -, d2⟩ := reachable_keeps_wiring db0 db hR "SF2" _ (by rw [hdb]; exact g6)
  obtain ⟨fin, e3, -, d3⟩ := reachable_keeps_wiring db0 db hR "FINAL" _ (by rw [hdb]; exact g7)
  refine ⟨fun n nm l hnm hl => ?_, sf1, sf2, fin, e1, e2, e3, d1, d2, d3,
    hL _ _ _ _ e1 d1, hL _ _ _ _ e2 d2, hL _ _ _ _ e3 d3⟩
  obtain ⟨a, b, -, -, rfl, -⟩ := hW.2 n nm l hnm hl
  exact ⟨a, b, rfl, hL n nm a b hnm hl⟩

/-- C4 at the sample bracket after the quarterfinal Ghana - Togo alone was simulated. -/
theorem locked_iff_dependency_open_witness :
    ∃ sf1, getDoc (simulateMatch sampleDb "QF2" allHalf "t1").1.matches_ "SF1" = some sf1 ∧
      (sf1.status = "locked" ↔
        ¬ (isCompleted (getDoc (simulateMatch sampleDb "QF2" allHalf "t1").1.matches_ "QF1")
            = true ∧
          isCompleted (getDoc (simulateMatch sampleDb "QF2" allHalf "t1").1.matches_ "QF2")
            = true)) := by
  obtain ⟨-, sf1, -, -, e1, -, -, -, -, -, h1, -, -⟩ :=
    locked_iff_dependency_open sampleDb (simulateMatch sampleDb "QF2" allHalf "t1").1
      ⟨sampleTeams, sampleDb_fresh⟩ (.call _ "QF2" allHalf "t1" .start)
  exact ⟨sf1, e1, h1⟩

/-- C6. Over every sequence of `simulateMatch` calls applied to a freshly generated bracket,
whatever the match ids and the draws, each call keeps every match stored and either leaves its
status as it is, or takes it from `"locked"` to `"pending"`, or from `"pending"` to
`"completed"`: a completed match never returns to pending or locked, and a locked match never
becomes completed directly. -/
theorem status_moves_forward (db0 db : Db) (h0 : FreshBracket db0) (hR : Reachable db0 db)
    (id : String) (rng : Rng) (now : String) (k : String) (d : MatchDoc)
    (hd : getDoc db.matches_ k = some d) :
    (d.status = "locked" ∨ d.status = "pending" ∨ d.status = "completed") ∧
    ∃ e, getDoc (simulateMatch db id rng now).1.matches_ k = some e ∧
      (e.status = d.status ∨ (d.status = "locked" ∧ e.status = "pending") ∨
        (d.status = "pending" ∧ e.status = "completed")) := by
  obtain ⟨teams, hf⟩ := h0
  obtain ⟨hW, hL, hS, -⟩ := inv_reachable _ db0 db (fresh_inv teams db0 hf) hR
  refine ⟨(hS k d hd).1, ?_⟩
  cases hret : (simulateMatch db id rng now).2.isReturned with
  | false =>
    rw [simulateMatch_not_returned db id rng now hret]
    exact ⟨d, hd, Or.inl rfl⟩
  | true =>
    obtain ⟨r, hr⟩ := returned_of_isReturned _ hret
    rcases step_docs db hW hL id rng now r hr k with ⟨hnone, -⟩ | ⟨d2, e, hd2, he, -, -, hst, -⟩
    · rw [hnone] at hd; cases hd
    · rw [hd2] at hd
      rw [← Option.some.inj hd]
      refine ⟨e, he, ?_⟩
      rcases hst with ⟨-, h1, h2⟩ | ⟨-, h1⟩ | ⟨-, h1, h2⟩
      · exact Or.inr (Or.inr ⟨h1, h2⟩)
      · exact Or.inl h1
      · exact Or.inr (Or.inl ⟨h1, h2⟩)

/-- C6 at the sample bracket: the call on the quarterfinal Ghana - Togo, seen from that match. -/
theorem status_moves_forward_witness :
    ∃ e, getDoc (simulateMatch sampleDb "QF2" allHalf "t1").1.matches_ "QF2" = some e ∧
      (e.status = "pending" ∨ ("pending" = "locked" ∧ e.status = "pending") ∨
        ("pending" = "pending" ∧ e.status = "completed")) :=
  (status_moves_forward sampleDb sampleDb ⟨sampleTeams, sampleDb_fresh⟩ .start "QF2" allHalf
    "t1" "QF2" (quarterFinal "QF2" 2 (teamOf "Ghana" 80) (teamOf "Togo" 40) "SF1")
    (by decide!)).2

end ANLeague

namespace ANLeague

theorem simulateMatch_teams (db : Db) (id : String) (rng : Rng) (now : String) :
    (simulateMatch db id rng now).1.teams = db.teams := by
  cases hret : (simulateMatch db id rng now).2.isReturned with
  | false => rw [simulateMatch_not_returned db id rng now hret]
  | true =>
    obtain ⟨r, hr⟩ := returned_of_isReturned _ hret
    obtain ⟨-, -, hdb, -⟩ := simulateMatch_returned db id rng now r hr
    rw [hdb, (updateNextRound_frame _ id r.winner).1]
    rfl

/-- The semifinal of a bracket after one of its two quarterfinals, `id`, was simulated in a
state where the other one, `other`, is stored as `done`. -/
theorem semifinal_after (db : Db) (hW : Wired db) (id other : String) (rng : Rng)
    (now : String) (r : SimResult) (q sf : MatchDoc)
    (h : (simulateMatch db id rng now).2 = .returned r)
    (hq : getDoc db.matches_ id = some q) (hnext : q.nextMatch = some "SF1")
    (hsf : getDoc db.matches_ "SF1" = some sf) (hdeps : sf.dependsOn = some ["QF1", "QF2"])
    (hid : (id = "QF1" ∧ other = "QF2") ∨ (id = "QF2" ∧ other = "QF1")) :
    getDoc (simulateMatch db id rng now).1.matches_ "SF1" =
      some { sf with
        team1 := if id = "QF1" then r.winner.slot else sf.team1
        team2 := if id = "QF1" then sf.team2 else r.winner.slot
        status := if isCompleted (getDoc db.matches_ other) = true then "pending"
          else sf.status } := by
  obtain ⟨hm, -⟩ := simulateMatch_returned db id rng now r h
  have hrq : r.match_ = q := by rw [hq] at hm; exact (Option.some.inj hm).symm
  have hn : r.match_.nextMatch = some "SF1" := by rw [hrq]; exact hnext
  rw [feed_next db hW id rng now r h "SF1" sf "QF1" "QF2" hn hsf hdeps]
  rcases hid with ⟨rfl, rfl⟩ | ⟨rfl, rfl⟩
  · simp
  · simp

end ANLeague

namespace ANLeague

/-- One order of the two quarterfinals of SF1: `id1` first, then `id2`. -/
theorem semifinal_after_both (db0 : Db) (hI : BracketInv (fun s => s.teamId ≠ none) db0)
    (id1 id2 : String) (rng1 rng2 : Rng) (now1 now2 : String) (r1 r2 : SimResult)
    (q1 q2 sf0 : MatchDoc)
    (hid : (id1 = "QF1" ∧ id2 = "QF2") ∨ (id1 = "QF2" ∧ id2 = "QF1"))
    (hq1 : getDoc db0.matches_ id1 = some q1) (hn1 : q1.nextMatch = some "SF1")
    (hq2 : getDoc db0.matches_ id2 = some q2) (hn2 : q2.nextMatch = some "SF1")
    (hp2 : q2.status = "pending")
    (hsf : getDoc db0.matches_ "SF1" = some sf0) (hdeps : sf0.dependsOn = some ["QF1", "QF2"])
    (h1 : (simulateMatch db0 id1 rng1 now1).2 = .returned r1)
    (h2 : (simulateMatch db0 id2 rng2 now2).2 = .returned r2) :
    (simulateMatch (simulateMatch db0 id1 rng1 now1).1 id2 rng2 now2).2 = .returned r2 ∧
    getDoc (simulateMatch db0 id1 rng1 now1).1.matches_ "SF1" =
      some { sf0 with
        team1 := if id1 = "QF1" then r1.winner.slot else sf0.team1
        team2 := if id1 = "QF1" then sf0.team2 else r1.winner.slot } ∧
    getDoc (simulateMatch (simulateMatch db0 id1 rng1 now1).1 id2 rng2 now2).1.matches_ "SF1" =
      some { sf0 with
        team1 := if id1 = "QF1" then r1.winner.slot else r2.winner.slot
        team2 := if id1 = "QF1" then r2.winner.slot else r1.winner.slot
        status := "pending" } := by
  have hW0 := hI.1
  have hI1 := inv_step _ db0 hI id1 rng1 now1
  have hne : id2 ≠ id1 := by rcases hid with ⟨rfl, rfl⟩ | ⟨rfl, rfl⟩ <;> decide
  have hne2 : id2 ≠ "SF1" := by rcases hid with ⟨rfl, rfl⟩ | ⟨rfl, rfl⟩ <;> decide
  -- the first call: the semifinal gets the first winner and stays locked
  have hA := semifinal_after db0 hW0 id1 id2 rng1 now1 r1 q1 sf0 h1 hq1 hn1 hsf hdeps hid
  have hc2 : isCompleted (getDoc db0.matches_ id2) = false := by
    rw [hq2]; simp [isCompleted, hp2]
  rw [hc2] at hA
  simp only [Bool.false_eq_true, if_false] at hA
  -- the second quarterfinal is untouched by the first call
  obtain ⟨hm1, -, -, hsome⟩ := step_view db0 hW0 id1 rng1 now1 r1 h1
  have hr1 : r1.match_ = q1 := by rw [hq1] at hm1; exact (Option.some.inj hm1).symm
  obtain ⟨nm', a', b', _, _, _, _, _, hview⟩ := hsome "SF1" (by rw [hr1]; exact hn1)
  have hq2' : getDoc (simulateMatch db0 id1 rng1 now1).1.matches_ id2 = some q2 := by
    rw [hview id2, if_neg hne, if_neg hne2, hq2]
  have hq1' : isCompleted (getDoc (simulateMatch db0 id1 rng1 now1).1.matches_ id1) = true := by
    rw [hview id1, if_pos rfl]; rfl
  have hout : (simulateMatch (simulateMatch db0 id1 rng1 now1).1 id2 rng2 now2).2 =
      .returned r2 := by
    rw [simulateMatch_outcome_congr _ db0 id2 rng2 now2 (by rw [hq2', hq2])
      (simulateMatch_teams db0 id1 rng1 now1)]
    exact h2
  have hB := semifinal_after (simulateMatch db0 id1 rng1 now1).1 hI1.1 id2 id1 rng2 now2 r2 q2
    _ hout hq2' hn2 hA hdeps (by rcases hid with h | h <;> simp [h.1, h.2])
  rw [hq1'] at hB
  refine ⟨hout, ?_, ?_⟩
  · rw [hA]
  · rw [hB]
    rcases hid with ⟨rfl, rfl⟩ | ⟨rfl, rfl⟩
    · simp
    · simp

/-- C3. Starting from a freshly generated bracket, simulating QF1 then QF2 and simulating QF2
then QF1, each quarterfinal with the same stream of draws in both orders, give the same two
results and leave SF1 in the same state: `team1` holds the country, teamId and players of QF1's
winner, `team2` those of QF2's winner, neither slot is the `"TBD"` placeholder, the status is
`"pending"` and every other field is as the bracket was generated. -/
theorem semifinal_either_order (db0 : Db) (h0 : FreshBracket db0) (rngA rngB : Rng)
    (nowA nowB : String)
    (hA : (simulateMatch db0 "QF1" rngA nowA).2.isReturned = true)
    (hB : (simulateMatch db0 "QF2" rngB nowB).2.isReturned = true) :
    ∃ r1 r2 sf0,
      (simulateMatch db0 "QF1" rngA nowA).2 = .returned r1 ∧
      (simulateMatch (simulateMatch db0 "QF1" rngA nowA).1 "QF2" rngB nowB).2 = .returned r2 ∧
      (simulateMatch db0 "QF2" rngB nowB).2 = .returned r2 ∧
      (simulateMatch (simulateMatch db0 "QF2" rngB nowB).1 "QF1" rngA nowA).2 = .returned r1 ∧
      getDoc db0.matches_ "SF1" = some sf0 ∧
      getDoc (simulateMatch (simulateMatch db0 "QF1" rngA nowA).1 "QF2" rngB
          nowB).1.matches_ "SF1" =
        some { sf0 with team1 := r1.winner.slot, team2 := r2.winner.slot,
                        status := "pending" } ∧
      getDoc (simulateMatch (simulateMatch db0 "QF2" rngB nowB).1 "QF1" rngA
          nowA).1.matches_ "SF1" =
        some { sf0 with team1 := r1.winner.slot, team2 := r2.winner.slot,
                        status := "pending" } ∧
      r1.winner.slot ≠ tbdSlot ∧ r2.winner.slot ≠ tbdSlot := by
  obtain ⟨teams, hf⟩ := h0
  have hI0 := fresh_inv teams db0 hf
  have hI : BracketInv (fun s => s.teamId ≠ none) db0 := by
    obtain ⟨hW, hL, hS, hP⟩ := hI0
    refine ⟨hW, hL, hS, fun id m hm hd => ?_, fun n nm a b hnm hd => ?_⟩
    · obtain ⟨⟨t1, -, e1⟩, ⟨t2, -, e2⟩⟩ := hP.1 id m hm hd
      rw [e1, e2]; exact ⟨by simp [Team.slot], by simp [Team.slot]⟩
    · constructor
      · intro hc
        obtain ⟨t1, -, e1⟩ := (hP.2 n nm a b hnm hd).1 hc
        rw [e1]; simp [Team.slot]
      · intro hc
        obtain ⟨t1, -, e1⟩ := (hP.2 n nm a b hnm hd).2 hc
        rw [e1]; simp [Team.slot]
  obtain ⟨s0, s1, s2, s3, s4, s5, s6, s7, -, hdb⟩ := fresh_docs teams db0 hf
  obtain ⟨g1, g2, -, -, g5, -, -⟩ := bracketDocs_get s0 s1 s2 s3 s4 s5 s6 s7
  rw [← hdb] at g1 g2 g5
  obtain ⟨r1, hr1⟩ := returned_of_isReturned _ hA
  obtain ⟨r2, hr2⟩ := returned_of_isReturned _ hB
  obtain ⟨a1, -, a3⟩ := semifinal_after_both db0 hI "QF1" "QF2" rngA rngB nowA nowB r1 r2 _ _ _
    (Or.inl ⟨rfl, rfl⟩) g1 rfl g2 rfl rfl g5 rfl hr1 hr2
  obtain ⟨b1, -, b3⟩ := semifinal_after_both db0 hI "QF2" "QF1" rngB rngA nowB nowA r2 r1 _ _ _
    (Or.inr ⟨rfl, rfl⟩) g2 rfl g1 rfl rfl g5 rfl hr2 hr1
  -- the winners are slots of the quarterfinals, which hold team references
  have hreal : ∀ (id : String) (rng : Rng) (now : String) (r : SimResult),
      (simulateMatch db0 id rng now).2 = .returned r → r.winner.slot ≠ tbdSlot := by
    intro id rng now r hr
    obtain ⟨hm, hp, -, -, -, hres⟩ := simulateMatch_returned db0 id rng now r hr
    have hslots : r.match_.team1.teamId ≠ none ∧ r.match_.team2.teamId ≠ none := by
      cases hd : r.match_.dependsOn with
      | none => exact hI.2.2.2.1 id r.match_ hm hd
      | some l =>
        obtain ⟨a, b, -, -, rfl, -⟩ := hI.1.2 id r.match_ l hm hd
        have hnl : ¬ r.match_.status = "locked" := by rw [hp]; decide
        have hc := not_not.mp (fun hc => hnl ((hI.2.1 id r.match_ a b hm hd).mpr hc))
        exact ⟨(hI.2.2.2.2 id r.match_ a b hm hd).1 hc.1,
          (hI.2.2.2.2 id r.match_ a b hm hd).2 hc.2⟩
    intro htbd
    rcases winner_slot _ _ _ _ _ hres with h | h
    · rw [h] at htbd; exact hslots.1 (by rw [htbd]; rfl)
    · rw [h] at htbd; exact hslots.2 (by rw [htbd]; rfl)
  refine ⟨r1, r2, _, hr1, a1, hr2, b1, g5, ?_, ?_, hreal _ _ _ _ hr1, hreal _ _ _ _ hr2⟩
  · rw [a3]; simp
  · rw [b3]; simp

/-- C3 at the sample bracket, every draw of both quarterfinals being `0.5`. -/
theorem semifinal_either_order_witness :
    ∃ r1 r2 sf0,
      (simulateMatch sampleDb "QF1" allHalf "t1").2 = .returned r1 ∧
      (simulateMatch (simulateMatch sampleDb "QF1" allHalf "t1").1 "QF2" allHalf "t2").2 =
        .returned r2 ∧
      (simulateMatch sampleDb "QF2" allHalf "t2").2 = .returned r2 ∧
      (simulateMatch (simulateMatch sampleDb "QF2" allHalf "t2").1 "QF1" allHalf "t1").2 =
        .returned r1 ∧
      getDoc sampleDb.matches_ "SF1" = some sf0 ∧
      getDoc (simulateMatch (simulateMatch sampleDb "QF1" allHalf "t1").1 "QF2" allHalf
          "t2").1.matches_ "SF1" =
        some { sf0 with team1 := r1.winner.slot, team2 := r2.winner.slot,
                        status := "pending" } ∧
      getDoc (simulateMatch (simulateMatch sampleDb "QF2" allHalf "t2").1 "QF1" allHalf
          "t1").1.matches_ "SF1" =
        some { sf0 with team1 := r1.winner.slot, team2 := r2.winner.slot,
                        status := "pending" } ∧
      r1.winner.slot ≠ tbdSlot ∧ r2.winner.slot ≠ tbdSlot :=
  semifinal_either_order sampleDb ⟨sampleTeams, sampleDb_fresh⟩ allHalf allHalf "t1" "t2"
    (by decide!) (by decide!)

end ANLeague
namespace ANLeague

/-! ## Rounding to binary64 -/

theorem ilog_spec (fuel : Nat) : ∀ n, 0 < n → n ≤ fuel →
    2 ^ ilog fuel n ≤ n ∧ n < 2 ^ (ilog fuel n + 1) := by
  induction fuel with
  | zero => intro n h0 h1; omega
  | succ k ih =>
    intro n h0 h1
    unfold ilog
    by_cases h2 : n < 2
    · rw [if_pos h2]; constructor
      · simpa using h0
      · simpa using h2
    · rw [if_neg h2]
      have h3 := ih (n / 2) (by omega) (by omega)
      obtain ⟨a, b⟩ := h3
      constructor
      · rw [pow_succ]; omega
      · rw [pow_succ]; omega

theorem expo_spec (x : ℚ) (hx : 0 < x) :
    (2 : ℚ) ^ expo x ≤ x ∧ x < (2 : ℚ) ^ (expo x + 1) := by
  have hnum : 0 < x.num := Rat.num_pos.mpr hx
  obtain ⟨n, hn⟩ : ∃ n : Nat, x.num = n := ⟨x.num.toNat, (Int.toNat_of_nonneg hnum.le).symm⟩
  have hn0 : 0 < n := by omega
  have hd0 : 0 < x.den := x.den_pos
  obtain ⟨a1, a2⟩ := ilog_spec n n hn0 le_rfl
  obtain ⟨b1, b2⟩ := ilog_spec x.den x.den hd0 le_rfl
  have hxe : x = (n : ℚ) / (x.den : ℚ) := by
    have h := (Rat.num_div_den x).symm
    rw [hn, Int.cast_natCast] at h
    exact h
  have hdq : (0 : ℚ) < x.den := by exact_mod_cast hd0
  have a1q : (2 : ℚ) ^ ilog n n ≤ n := by exact_mod_cast a1
  have a2q : (n : ℚ) < 2 ^ (ilog n n + 1) := by exact_mod_cast a2
  have b1q : (2 : ℚ) ^ ilog x.den x.den ≤ x.den := by exact_mod_cast b1
  have b2q : (x.den : ℚ) < 2 ^ (ilog x.den x.den + 1) := by exact_mod_cast b2
  have htoNat : x.num.toNat = n := by omega
  unfold expo
  simp only [htoNat]
  generalize ilog n n = a at *
  generalize ilog x.den x.den = b at *
  have h2 : (0 : ℚ) < 2 := by norm_num
  have hpa : (0 : ℚ) < 2 ^ a := pow_pos h2 a
  have hpb : (0 : ℚ) < 2 ^ b := pow_pos h2 b
  have e1 : (2 : ℚ) ^ ((a : Int) - (b : Int)) = 2 ^ a / 2 ^ b := by
    rw [zpow_sub₀ (by norm_num), zpow_natCast, zpow_natCast]
  have e2 : (2 : ℚ) ^ ((a : Int) - (b : Int) + 1) = 2 ^ (a + 1) / 2 ^ b := by
    rw [zpow_add₀ (by norm_num), e1, zpow_one, pow_succ]; ring
  have e3 : (2 : ℚ) ^ ((a : Int) - (b : Int) - 1) = 2 ^ a / 2 ^ (b + 1) := by
    rw [zpow_sub₀ (by norm_num), e1, zpow_one, pow_succ]; field_simp
  have up : x < 2 ^ (a + 1) / 2 ^ b := by
    rw [hxe, div_lt_div_iff₀ hdq hpb]
    calc (n : ℚ) * 2 ^ b ≤ n * x.den := by
          exact mul_le_mul_of_nonneg_left b1q (by positivity)
      _ < 2 ^ (a + 1) * x.den := by
          exact mul_lt_mul_of_pos_right a2q hdq
  have lo : (2 : ℚ) ^ a / 2 ^ (b + 1) ≤ x := by
    rw [hxe, div_le_div_iff₀ (pow_pos h2 _) hdq]
    calc (2 : ℚ) ^ a * x.den ≤ n * x.den := by
          exact mul_le_mul_of_nonneg_right a1q hdq.le
      _ ≤ n * 2 ^ (b + 1) := by
          exact mul_le_mul_of_nonneg_left b2q.le (by positivity)
  by_cases hc : (2 : ℚ) ^ ((a : Int) - (b : Int)) ≤ x
  · rw [if_pos hc]
    exact ⟨hc, by rw [e2]; exact up⟩
  · rw [if_neg hc]
    refine ⟨by rw [e3]; exact lo, ?_⟩
    rw [sub_add_cancel]
    exact lt_of_not_le hc

theorem expo_mono (x y : ℚ) (hx : 0 < x) (hxy : x ≤ y) : expo x ≤ expo y := by
  obtain ⟨a, _⟩ := expo_spec x hx
  obtain ⟨_, b⟩ := expo_spec y (lt_of_lt_of_le hx hxy)
  have h : (2 : ℚ) ^ expo x < 2 ^ (expo y + 1) := lt_of_le_of_lt (le_trans a hxy) b
  have := (zpow_lt_zpow_iff_right₀ (by norm_num : (1 : ℚ) < 2)).mp h
  omega

theorem floor_le_roundEven (y : ℚ) : Int.floor y ≤ roundEven y := by
  unfold roundEven
  split_ifs <;> omega

theorem roundEven_le_floor_succ (y : ℚ) : roundEven y ≤ Int.floor y + 1 := by
  unfold roundEven
  split_ifs <;> omega

theorem le_roundEven (n : Int) (y : ℚ) (h : (n : ℚ) ≤ y) : n ≤ roundEven y :=
  le_trans (Int.le_floor.mpr h) (floor_le_roundEven y)

theorem roundEven_le (n : Int) (y : ℚ) (h : y ≤ (n : ℚ)) : roundEven y ≤ n := by
  rcases lt_or_eq_of_le h with h1 | h1
  · have : Int.floor y < n := Int.floor_lt.mpr h1
    have := roundEven_le_floor_succ y
    omega
  · subst h1
    unfold roundEven
    simp

theorem roundEven_mono (x y : ℚ) (h : x ≤ y) : roundEven x ≤ roundEven y := by
  have hf : Int.floor x ≤ Int.floor y := Int.floor_mono h
  rcases lt_or_eq_of_le hf with h1 | h1
  · have := roundEven_le_floor_succ x
    have := floor_le_roundEven y
    omega
  · unfold roundEven
    rw [h1]
    have hxy : 2 * (x - Int.floor y) ≤ 2 * (y - Int.floor y) := by linarith
    split_ifs <;> first | omega | linarith

theorem ulp_pos (x : ℚ) : 0 < ulp x := by
  unfold ulp; positivity

theorem round64_nonneg (x : ℚ) : 0 ≤ round64 x := by
  unfold round64
  split_ifs with h
  · exact le_rfl
  · push_neg at h
    apply mul_nonneg _ (ulp_pos x).le
    have : (0 : Int) ≤ roundEven (x / ulp x) :=
      le_roundEven 0 _ (by simpa using (div_pos h (ulp_pos x)).le)
    exact_mod_cast this

/-- Rounding keeps to the same side of every multiple of the gap around `x`. -/
theorem round64_le_of_le (x c : ℚ) (n : Int) (hx : 0 < x) (hc : c = n * ulp x) (h : x ≤ c) :
    round64 x ≤ c := by
  unfold round64
  rw [if_neg (not_le.mpr hx), hc]
  apply mul_le_mul_of_nonneg_right _ (ulp_pos x).le
  have : roundEven (x / ulp x) ≤ n :=
    roundEven_le n _ (by rw [div_le_iff₀ (ulp_pos x)]; rw [← hc]; exact h)
  exact_mod_cast this

theorem le_round64_of_le (x c : ℚ) (n : Int) (hx : 0 < x) (hc : c = n * ulp x) (h : c ≤ x) :
    c ≤ round64 x := by
  unfold round64
  rw [if_neg (not_le.mpr hx), hc]
  apply mul_le_mul_of_nonneg_right _ (ulp_pos x).le
  have : n ≤ roundEven (x / ulp x) :=
    le_roundEven n _ (by rw [le_div_iff₀ (ulp_pos x)]; rw [← hc]; exact h)
  exact_mod_cast this

theorem pow_eq_mul_ulp (x : ℚ) (k : Nat) :
    (2 : ℚ) ^ (max (expo x) (-1022) - 52 + (k : Int)) = ((2 ^ k : Nat) : Int) * ulp x := by
  unfold ulp
  rw [zpow_add₀ (by norm_num), zpow_natCast]
  push_cast
  ring

theorem round64_mono (x y : ℚ) (hx : 0 ≤ x) (hxy : x ≤ y) : round64 x ≤ round64 y := by
  rcases eq_or_lt_of_le hx with h0 | h0
  · subst h0
    have : round64 0 = 0 := by unfold round64; simp
    rw [this]; exact round64_nonneg y
  have hy : 0 < y := lt_of_lt_of_le h0 hxy
  have he := expo_mono x y h0 hxy
  have hm : max (expo x) (-1022) ≤ max (expo y) (-1022) := max_le_max he le_rfl
  rcases eq_or_lt_of_le hm with h1 | h1
  · have hu : ulp x = ulp y := by unfold ulp; rw [h1]
    unfold round64
    rw [if_neg (not_le.mpr h0), if_neg (not_le.mpr hy), hu]
    apply mul_le_mul_of_nonneg_right _ (ulp_pos y).le
    have : roundEven (x / ulp y) ≤ roundEven (y / ulp y) :=
      roundEven_mono _ _ (div_le_div_of_nonneg_right hxy (ulp_pos y).le)
    exact_mod_cast this
  · -- a power of two lies between them, and both roundings keep to their side of it
    have hey : max (expo y) (-1022) = expo y := by
      rcases le_total (expo y) (-1022) with h | h
      · rw [max_eq_right h] at h1
        have := le_max_right (expo x) (-1022)
        omega
      · exact max_eq_left h
    obtain ⟨_, ux⟩ := expo_spec x h0
    obtain ⟨ly, _⟩ := expo_spec y hy
    have two : (1 : ℚ) ≤ 2 := by norm_num
    have hA : round64 x ≤ (2 : ℚ) ^ (max (expo x) (-1022) + 1) := by
      have e : (2 : ℚ) ^ (max (expo x) (-1022) + 1)
          = ((2 ^ 53 : Nat) : Int) * ulp x := by
        rw [← pow_eq_mul_ulp]; congr 1; push_cast; ring
      apply round64_le_of_le x _ _ h0 e
      apply le_trans ux.le
      exact zpow_le_zpow_right₀ two (by have := le_max_left (expo x) (-1022); omega)
    have hB : (2 : ℚ) ^ (expo y) ≤ round64 y := by
      have e : (2 : ℚ) ^ (expo y) = ((2 ^ 52 : Nat) : Int) * ulp y := by
        rw [← pow_eq_mul_ulp, hey]; congr 1; push_cast; ring
      exact le_round64_of_le y _ _ hy e ly
    have hC : (2 : ℚ) ^ (max (expo x) (-1022) + 1) ≤ 2 ^ (expo y) :=
      zpow_le_zpow_right₀ two (by omega)
    exact le_trans hA (le_trans hC hB)

theorem fl_eq_of_isDouble (x : ℚ) (hx : 0 ≤ x) (h : IsDouble x) : round64 x = x := by
  unfold IsDouble JsNum.fl at h
  rw [if_pos hx] at h
  split_ifs at h
  exact JsNum.fin.inj h

theorem round64_one : round64 1 = 1 := by decide!

theorem round64_two : round64 2 = 2 := by decide!

theorem round64_six : round64 6 = 6 := by decide!

end ANLeague
namespace ANLeague

/-! ## The score generator -/

theorem round64_three : round64 3 = 3 := by decide!

theorem round64_nine : round64 9 = 9 := by decide!

/-- Rounding a rational between `0` and a binary64 number `b` gives a finite number between
`0` and `b`. -/
theorem fl_fin_of_le (x b : ℚ) (h0 : 0 ≤ x) (hb : x ≤ b) (hfix : round64 b = b)
    (hlt : b < (2 : ℚ) ^ (1024 : Int)) :
    JsNum.fl x = .fin (round64 x) ∧ 0 ≤ round64 x ∧ round64 x ≤ b := by
  have h := round64_mono x b h0 hb
  rw [hfix] at h
  refine ⟨?_, round64_nonneg x, h⟩
  unfold JsNum.fl
  rw [if_pos h0, if_pos (lt_of_le_of_lt h hlt)]

/-- The probability of a side whose rating `a` is a binary64 number and at most the exact sum
`t` of the two ratings: a finite number between `0` and `1`. -/
theorem prob_spec (a t : ℚ) (ha : 0 < a) (hat : a ≤ t) (da : IsDouble a) :
    ∃ p : ℚ, (JsNum.fin a).div (JsNum.fl t) = .fin p ∧ 0 ≤ p ∧ p ≤ 1 := by
  have ht : 0 ≤ t := le_trans ha.le hat
  have hs : a ≤ round64 t := by
    have := round64_mono a t ha.le hat
    rwa [fl_eq_of_isDouble a ha.le da] at this
  have hs0 : 0 < round64 t := lt_of_lt_of_le ha hs
  unfold JsNum.fl
  rw [if_pos ht]
  by_cases hc : round64 t < (2 : ℚ) ^ (1024 : Int)
  · rw [if_pos hc]
    have hdiv : (JsNum.fin a).div (.fin (round64 t)) = JsNum.fl (a / round64 t) := by
      show (if round64 t = 0 then _ else JsNum.fl (a / round64 t)) = _
      rw [if_neg hs0.ne.symm]
    rw [hdiv]
    have q0 : 0 ≤ a / round64 t := (div_pos ha hs0).le
    have q1 : a / round64 t ≤ 1 := by rw [div_le_one hs0]; exact hs
    obtain ⟨e, p0, p1⟩ := fl_fin_of_le _ 1 q0 q1 round64_one (by norm_num)
    exact ⟨_, e, p0, p1⟩
  · rw [if_neg hc]
    exact ⟨0, rfl, le_rfl, by norm_num⟩

/-- The goals of one side, `Math.round(Math.max(0, (u + prob) * 3))` in the arithmetic of the
code, for a draw `u` in `[0, 1)` and a probability between `0` and `1`: an integer between
`0` and `6`. -/
theorem goals_spec (u : Draw) (p : ℚ) (p0 : 0 ≤ p) (p1 : p ≤ 1) :
    ∃ g : Int, ((((JsNum.fin u.val).add (.fin p)).mul (.fin 3)).max0).round = .fin (g : ℚ) ∧
      0 ≤ g ∧ g ≤ 6 := by
  have hu0 := u.nonneg
  have hu1 := u.lt_one
  obtain ⟨e1, t0, t2⟩ := fl_fin_of_le (u.val + p) 2 (by linarith) (by linarith) round64_two
    (by norm_num)
  obtain ⟨e2, x0, x6⟩ := fl_fin_of_le (round64 (u.val + p) * 3) 6 (by linarith) (by linarith)
    round64_six (by norm_num)
  refine ⟨jsRound (max 0 (round64 (round64 (u.val + p) * 3))), ?_, ?_, ?_⟩
  · show (((JsNum.fl (u.val + p)).mul (.fin 3)).max0).round = _
    rw [e1]
    show ((JsNum.fl (round64 (u.val + p) * 3)).max0).round = _
    rw [e2]
    rfl
  · unfold jsRound
    apply Int.floor_nonneg.mpr
    have := le_max_left (0 : ℚ) (round64 (round64 (u.val + p) * 3))
    linarith
  · unfold jsRound
    have h : Int.floor (max 0 (round64 (round64 (u.val + p) * 3)) + 1 / 2) < 7 := by
      rw [Int.floor_lt]
      have := max_le (le_of_lt (by norm_num : (0 : ℚ) < 6)) x6
      push_cast
      linarith
    omega

/-- C11. For all ratings `R1, R2 > 0` (finite numbers of the code, which are binary64 numbers)
and all draws in `[0, 1)`, both goal counts that `generateScore` returns, computed as the
code computes them with a rounding after every operation, are integers between 0 and 6
inclusive. -/
theorem generateScore_goals_in_range (rating1 rating2 : ℚ) (rng : Rng)
    (h1 : 0 < rating1) (h2 : 0 < rating2) (d1 : IsDouble rating1) (d2 : IsDouble rating2) :
    ∃ g1 g2 : Int,
      (Js.generateScore (.fin rating1) (.fin rating2) rng).1 = (.fin (g1 : ℚ), .fin (g2 : ℚ)) ∧
      0 ≤ g1 ∧ g1 ≤ 6 ∧ 0 ≤ g2 ∧ g2 ≤ 6 := by
  obtain ⟨p, ep, p0, p1⟩ := prob_spec rating1 (rating1 + rating2) h1 (by linarith) d1
  obtain ⟨q, eq, q0, q1⟩ := prob_spec rating2 (rating1 + rating2) h2 (by linarith) d2
  obtain ⟨g1, e1, a0, a6⟩ := goals_spec (rng 0) p p0 p1
  obtain ⟨g2, e2, b0, b6⟩ := goals_spec (rng 1) q q0 q1
  refine ⟨g1, g2, ?_, a0, a6, b0, b6⟩
  unfold Js.generateScore
  show (((((JsNum.fin (rng 0).val).add ((JsNum.fin rating1).div (JsNum.fl (rating1 + rating2)))).mul
      (.fin 3)).max0).round,
    ((((JsNum.fin (rng 1).val).add ((JsNum.fin rating2).div (JsNum.fl (rating1 + rating2)))).mul
      (.fin 3)).max0).round) = _
  rw [ep, eq, e1, e2]

/-- C11 at the ratings 80 and 40 with both draws `0.5`: the score is 3-3, the product
`(0.5 + 80 / 120) * 3` being rounded to the binary64 number next below `3.5`. -/
theorem generateScore_goals_in_range_witness :
    (Js.generateScore (.fin 80) (.fin 40) allHalf).1 = (.fin 3, .fin 3) ∧
    ∃ g1 g2 : Int,
      (Js.generateScore (.fin 80) (.fin 40) allHalf).1 = (.fin (g1 : ℚ), .fin (g2 : ℚ)) ∧
      0 ≤ g1 ∧ g1 ≤ 6 ∧ 0 ≤ g2 ∧ g2 ≤ 6 :=
  ⟨by decide!, generateScore_goals_in_range 80 40 allHalf (by norm_num) (by norm_num)
    (by unfold IsDouble; decide!) (by unfold IsDouble; decide!)⟩

/-- The probability of a side whose rating `a` is at least 1, whether it is a binary64
number or not: a finite number between `0` and `2`. -/
theorem prob_fin (a t : ℚ) (ha : 1 ≤ a) (hat : a ≤ t) :
    ∃ p : ℚ, (JsNum.fin a).div (JsNum.fl t) = .fin p ∧ 0 ≤ p ∧ p ≤ 2 := by
  have ht1 : 1 ≤ t := le_trans ha hat
  have ht0 : 0 < t := by linarith
  obtain ⟨lo, up⟩ := expo_spec t ht0
  have he : 0 ≤ expo t := by
    have h : (2 : ℚ) ^ (0 : Int) < 2 ^ (expo t + 1) := by
      rw [zpow_zero]; exact lt_of_le_of_lt ht1 up
    have := (zpow_lt_zpow_iff_right₀ (by norm_num : (1 : ℚ) < 2)).mp h
    omega
  have hmax : max (expo t) (-1022) = expo t := max_eq_left (by omega)
  have hs : (2 : ℚ) ^ expo t ≤ round64 t := by
    have e : (2 : ℚ) ^ expo t = ((2 ^ 52 : Nat) : Int) * ulp t := by
      rw [← pow_eq_mul_ulp, hmax]; congr 1; push_cast; ring
    exact le_round64_of_le t _ _ ht0 e lo
  have hp : (0 : ℚ) < 2 ^ expo t := by positivity
  have hs0 : 0 < round64 t := lt_of_lt_of_le hp hs
  have h2 : a ≤ 2 * round64 t := by
    have : (2 : ℚ) ^ (expo t + 1) = 2 * 2 ^ expo t := by
      rw [zpow_add₀ (by norm_num), zpow_one]; ring
    rw [this] at up
    linarith
  unfold JsNum.fl
  rw [if_pos ht0.le]
  by_cases hc : round64 t < (2 : ℚ) ^ (1024 : Int)
  · rw [if_pos hc]
    have hdiv : (JsNum.fin a).div (.fin (round64 t)) = JsNum.fl (a / round64 t) := by
      show (if round64 t = 0 then _ else JsNum.fl (a / round64 t)) = _
      rw [if_neg hs0.ne.symm]
    rw [hdiv]
    have q0 : 0 ≤ a / round64 t := (div_pos (by linarith) hs0).le
    have q1 : a / round64 t ≤ 2 := by rw [div_le_iff₀ hs0]; exact h2
    obtain ⟨e, p0, p1⟩ := fl_fin_of_le _ 2 q0 q1 round64_two (by norm_num)
    exact ⟨_, e, p0, p1⟩
  · rw [if_neg hc]
    exact ⟨0, rfl, le_rfl, by norm_num⟩

/-- The goals of one side for a probability between `0` and `2`: a finite integer. -/
theorem goals_fin (u : Draw) (p : ℚ) (p0 : 0 ≤ p) (p2 : p ≤ 2) :
    ∃ g : Int, ((((JsNum.fin u.val).add (.fin p)).mul (.fin 3)).max0).round = .fin (g : ℚ) := by
  have hu0 := u.nonneg
  have hu1 := u.lt_one
  obtain ⟨e1, t0, t3⟩ := fl_fin_of_le (u.val + p) 3 (by linarith) (by linarith) round64_three
    (by norm_num)
  obtain ⟨e2, -, -⟩ := fl_fin_of_le (round64 (u.val + p) * 3) 9 (by linarith) (by linarith)
    round64_nine (by norm_num)
  refine ⟨jsRound (max 0 (round64 (round64 (u.val + p) * 3))), ?_⟩
  show (((JsNum.fl (u.val + p)).mul (.fin 3)).max0).round = _
  rw [e1]
  show ((JsNum.fl (round64 (u.val + p) * 3)).max0).round = _
  rw [e2]
  rfl

/-- The goal counts that `simulateMatch` draws are finite integers, so that `JsNum.toInt` loses
nothing of them: its ratings are stored ratings or the default 50, at least 1. -/
theorem generateScore_fin (teamDoc1 teamDoc2 : Option TeamDoc) (rng : Rng) :
    ∃ g1 g2 : Int,
      (Js.generateScore (.fin (ratingOrDefault teamDoc1)) (.fin (ratingOrDefault teamDoc2))
        rng).1 = (.fin (g1 : ℚ), .fin (g2 : ℚ)) := by
  have one_le : ∀ d : Option TeamDoc, 1 ≤ ratingOrDefault d := by
    intro d
    unfold ratingOrDefault
    cases d with
    | none => norm_num
    | some t =>
      by_cases h : t.teamRating = 0
      · simp only [h, if_true]; norm_num
      · simp only [h, if_false]
        have : 1 ≤ t.teamRating := by omega
        exact_mod_cast this
  have h1 := one_le teamDoc1
  have h2 := one_le teamDoc2
  obtain ⟨p, ep, p0, p1⟩ := prob_fin _ (ratingOrDefault teamDoc1 + ratingOrDefault teamDoc2) h1
    (by linarith)
  obtain ⟨q, eq, q0, q1⟩ := prob_fin _ (ratingOrDefault teamDoc1 + ratingOrDefault teamDoc2) h2
    (by linarith)
  obtain ⟨g1, e1⟩ := goals_fin (rng 0) p p0 p1
  obtain ⟨g2, e2⟩ := goals_fin (rng 1) q q0 q1
  refine ⟨g1, g2, ?_⟩
  unfold Js.generateScore
  show (((((JsNum.fin (rng 0).val).add ((JsNum.fin (ratingOrDefault teamDoc1)).div
      (JsNum.fl (ratingOrDefault teamDoc1 + ratingOrDefault teamDoc2)))).mul (.fin 3)).max0).round,
    ((((JsNum.fin (rng 1).val).add ((JsNum.fin (ratingOrDefault teamDoc2)).div
      (JsNum.fl (ratingOrDefault teamDoc1 + ratingOrDefault teamDoc2)))).mul (.fin 3)).max0).round)
    = _
  rw [ep, eq, e1, e2]

end ANLeague

namespace ANLeague

/-! ## The ledgers of the penalty shootout -/

theorem regularKicks_ledger (c1 c2 : String) (p1 p2 : List Player) (n : Nat) (pens : Penalties)
    (rng : Rng) (pens1 : Penalties) (rng1 : Rng)
    (h : regularKicks c1 p1 c2 p2 n pens rng = .ok (pens1, rng1)) :
    pens1.team1.length = pens.team1.length + n ∧ pens1.team2.length = pens.team2.length + n ∧
    pens1.team1.map (fun p => p.suddenDeath) =
      pens.team1.map (fun p => p.suddenDeath) ++ List.replicate n false ∧
    pens1.team2.map (fun p => p.suddenDeath) =
      pens.team2.map (fun p => p.suddenDeath) ++ List.replicate n false := by
  induction n generalizing pens rng with
  | zero =>
    simp only [regularKicks, Except.ok.injEq, Prod.mk.injEq] at h
    obtain ⟨rfl, -⟩ := h
    simp
  | succ n ih =>
    unfold regularKicks at h
    cases ht1 : pickTaker p1 (rng 0) with
    | error e => rw [ht1] at h; cases h
    | ok t1 =>
      rw [ht1] at h
      simp only [] at h
      cases ht2 : pickTaker p2 (rng 2) with
      | error e => rw [ht2] at h; cases h
      | ok t2 =>
        rw [ht2] at h
        simp only [] at h
        obtain ⟨a, b, c, d⟩ := ih _ _ h
        simp only [List.length_append, List.length_singleton, List.map_append, List.map_cons,
          List.map_nil] at a b c d
        refine ⟨by omega, by omega, ?_, ?_⟩
        · rw [c, List.replicate_succ]; simp
        · rw [d, List.replicate_succ]; simp

theorem convertedIn_append_of_le (k : Nat) (l : List Kick) (x : Kick) (h : k ≤ l.length) :
    convertedIn k (l ++ [x]) = convertedIn k l := by
  unfold convertedIn
  rw [List.take_append_of_le_length h]

theorem convertedIn_length (l : List Kick) :
    convertedIn l.length l = (l.filter (fun p => p.scored)).length := by
  unfold convertedIn
  rw [List.take_length]

theorem replicate_true_succ (m : Nat) :
    List.replicate m true ++ [true] = List.replicate (m + 1) true := by
  rw [List.replicate_succ']

theorem suddenDeath_exit (c1 c2 : String) (p1 p2 : List Player) (n : Nat) (st : ShootoutState)
    (rng : Rng) (st1 : ShootoutState) (h : suddenDeath c1 p1 c2 p2 n st rng = .ok st1)
    (hhead : st.AtLoopHead) (hfuel : st.round + n = 11) : st1.AtExit := by
  induction n generalizing st rng with
  | zero =>
    simp only [suddenDeath, Except.ok.injEq] at h
    subst h
    obtain ⟨hc, hw, hl, hlev⟩ := hhead
    refine ⟨hc, hw, by omega, ?_⟩
    have hs : st.team1Score = st.team2Score := hlev.resolve_left (by omega)
    exact Or.inr (Or.inr ⟨by omega, by omega, hs⟩)
  | succ n ih =>
    obtain ⟨hc, hw, hl, hlev⟩ := hhead
    obtain ⟨w1, w2, w3, w4, w5⟩ := hw
    unfold suddenDeath at h
    by_cases hcond : st.team1Score = st.team2Score ∧ st.round ≤ 10
    · rw [if_pos hcond] at h
      cases ht1 : pickTaker p1 (rng 0) with
      | error e => rw [ht1] at h; cases h
      | ok t1 =>
        rw [ht1] at h
        simp only [] at h
        cases ht2 : pickTaker p2 (rng 2) with
        | error e => rw [ht2] at h; cases h
        | ok t2 =>
          rw [ht2] at h
          simp only [] at h
          -- the state after the two kicks of this round
          have hcons : ShootoutState.Consistent
              ⟨{ team1 := st.penalties.team1 ++ [⟨t1.name, c1, converts (rng 1), true⟩],
                 team2 := st.penalties.team2 ++ [⟨t2.name, c2, converts (rng 3), true⟩] },
                (if converts (rng 1) then st.team1Score + 1 else st.team1Score),
                (if converts (rng 3) then st.team2Score + 1 else st.team2Score),
                st.round⟩ := by
            constructor
            · simp only [filter_scored_append, ← hc.1]
              cases converts (rng 1) <;> simp
            · simp only [filter_scored_append, ← hc.2]
              cases converts (rng 3) <;> simp
          have hwf : Penalties.WellFormed
              { team1 := st.penalties.team1 ++ [⟨t1.name, c1, converts (rng 1), true⟩],
                team2 := st.penalties.team2 ++ [⟨t2.name, c2, converts (rng 3), true⟩] } := by
            refine ⟨by simp [w1], by simp; omega, ?_, ?_, ?_⟩
            · simp only [List.map_append, List.map_cons, List.map_nil, w3, List.length_append,
                List.length_singleton, List.append_assoc, replicate_true_succ]
              congr 2
              omega
            · simp only [List.map_append, List.map_cons, List.map_nil, w4, List.length_append,
                List.length_singleton, List.append_assoc, replicate_true_succ]
              congr 2
              omega
            · intro k hk5 hkl
              simp only [List.length_append, List.length_singleton] at hkl
              rw [convertedIn_append_of_le k _ _ (by omega),
                convertedIn_append_of_le k _ _ (by omega)]
              by_cases hk : k < st.penalties.team1.length
              · exact w5 k hk5 hk
              · have hk2 : k = st.penalties.team1.length := by omega
                rw [hk2, convertedIn_length]
                conv_rhs => rw [w1, convertedIn_length]
                rw [← hc.1, ← hc.2]
                exact hcond.1
          by_cases hne : (if converts (rng 1) then st.team1Score + 1 else st.team1Score) ≠
              (if converts (rng 3) then st.team2Score + 1 else st.team2Score)
          · rw [if_pos hne] at h
            simp only [Except.ok.injEq] at h
            subst h
            refine ⟨hcons, hwf, ?_, Or.inr (Or.inl ⟨?_, ?_, hne⟩)⟩
            · simp only [List.length_append, List.length_singleton]; omega
            · simp only [List.length_append, List.length_singleton]; omega
            · simp only [List.length_append, List.length_singleton]; omega
          · rw [if_neg hne] at h
            refine ih _ _ h ⟨hcons, hwf, ?_, Or.inr (not_not.mp hne)⟩ ?_
            · simp only [List.length_append, List.length_singleton]
              omega
            · show st.round + 1 + n = 11
              omega
    · rw [if_neg hcond] at h
      simp only [Except.ok.injEq] at h
      subst h
      have hs : st.team1Score ≠ st.team2Score := by
        intro hs
        exact hcond ⟨hs, by omega⟩
      have h6 : st.round = 6 := hlev.resolve_right hs
      exact ⟨hc, ⟨w1, w2, w3, w4, w5⟩, by omega, Or.inl ⟨by omega, h6, hs⟩⟩

/-- The record returned by `generatePenaltyShootout`: its ledgers, its scores and its `rounds`
field. -/
theorem generatePenaltyShootout_record (c1 c2 : String) (p1 p2 : List Player) (w : Winner)
    (rng : Rng) (rec : Shootout) (h : generatePenaltyShootout c1 p1 c2 p2 w rng = .ok rec) :
    rec.penalties.WellFormed ∧ rec.penalties.team1.length ≤ 10 ∧
    ((rec.penalties.team1.length = 5 ∧ rec.rounds = 5 ∧ rec.score.team1 ≠ rec.score.team2) ∨
     (6 ≤ rec.penalties.team1.length ∧ rec.rounds + 1 = rec.penalties.team1.length ∧
        rec.score.team1 ≠ rec.score.team2) ∨
     (rec.penalties.team1.length = 10 ∧ rec.rounds = 10 ∧
        rec.score.team1 = rec.score.team2)) := by
  unfold generatePenaltyShootout at h
  cases hreg : regularKicks c1 p1 c2 p2 5 ⟨[], []⟩ rng with
  | error e => rw [hreg] at h; cases h
  | ok pr =>
    obtain ⟨pens, rng1⟩ := pr
    rw [hreg] at h
    simp only [] at h
    obtain ⟨l1, l2, f1, f2⟩ := regularKicks_ledger c1 c2 p1 p2 5 ⟨[], []⟩ rng pens rng1 hreg
    simp only [List.length_nil, Nat.zero_add, List.map_nil, List.nil_append] at l1 l2 f1 f2
    cases hsd : suddenDeath c1 p1 c2 p2 5
        ⟨pens, (pens.team1.filter (fun p => p.scored)).length,
          (pens.team2.filter (fun p => p.scored)).length, 6⟩ rng1 with
    | error e => rw [hsd] at h; cases h
    | ok st =>
      rw [hsd] at h
      simp only [Except.ok.injEq] at h
      have hhead : ShootoutState.AtLoopHead
          ⟨pens, (pens.team1.filter (fun p => p.scored)).length,
            (pens.team2.filter (fun p => p.scored)).length, 6⟩ := by
        refine ⟨⟨rfl, rfl⟩, ⟨by rw [l1, l2], by rw [l1], ?_, ?_, ?_⟩, by simp [l1], Or.inl rfl⟩
        · rw [f1, l1]; simp
        · rw [f2, l2]; simp
        · intro k h5 hk
          rw [l1] at hk
          omega
      obtain ⟨-, hwf, hle, hcases⟩ := suddenDeath_exit c1 c2 p1 p2 5 _ rng1 st hsd hhead rfl
      subst h
      refine ⟨hwf, hle, ?_⟩
      rcases hcases with ⟨a, b, c⟩ | ⟨a, b, c⟩ | ⟨a, b, c⟩
      · exact Or.inl ⟨a, by show st.round - 1 = 5; omega, c⟩
      · exact Or.inr (Or.inl ⟨a, by show st.round - 1 + 1 = st.penalties.team1.length; omega,
          c⟩)
      · exact Or.inr (Or.inr ⟨a, by show st.round - 1 = 10; omega, c⟩)

/-- The iteration bound of the sudden-death loop is never what ends it: from `round` on, the
`11 - round` iterations that the cap allows give the same result as any larger bound. -/
theorem suddenDeath_more_fuel (c1 c2 : String) (p1 p2 : List Player) (n : Nat)
    (st : ShootoutState) (rng : Rng) (h : 11 ≤ st.round + n) :
    suddenDeath c1 p1 c2 p2 (n + 1) st rng = suddenDeath c1 p1 c2 p2 n st rng := by
  induction n generalizing st rng with
  | zero =>
    unfold suddenDeath
    have : ¬ (st.team1Score = st.team2Score ∧ st.round ≤ 10) := by
      rintro ⟨-, h2⟩
      omega
    rw [if_neg this]
  | succ n ih =>
    rw [suddenDeath]
    conv_rhs => rw [suddenDeath]
    by_cases hc : st.team1Score = st.team2Score ∧ st.round ≤ 10
    · rw [if_pos hc, if_pos hc]
      cases pickTaker p1 (rng 0) with
      | error e => rfl
      | ok t1 =>
        simp only []
        cases pickTaker p2 (rng 2) with
        | error e => rfl
        | ok t2 =>
          simp only []
          by_cases hne : (if converts (rng 1) then st.team1Score + 1 else st.team1Score) ≠
              (if converts (rng 3) then st.team2Score + 1 else st.team2Score)
          · rw [if_pos hne, if_pos hne]
          · rw [if_neg hne, if_neg hne]
            exact ih _ _ (by show 11 ≤ st.round + 1 + n; omega)
    · rw [if_neg hc, if_neg hc]

theorem flag_of_replicate (l : List Kick) (n : Nat)
    (h : l.map (fun p => p.suddenDeath) = List.replicate 5 false ++ List.replicate n true)
    (i : Nat) (kick : Kick) (hk : l.get? i = some kick) :
    kick.suddenDeath = true ↔ 5 ≤ i := by
  have h2 : (List.replicate 5 false ++ List.replicate n true)[i]? = some kick.suddenDeath := by
    rw [← h, List.getElem?_map, ← List.get?_eq_getElem?, hk]
    rfl
  by_cases hi : i < 5
  · rw [List.getElem?_append_left (by simpa using hi)] at h2
    have hmem : kick.suddenDeath ∈ List.replicate 5 false := List.getElem?_mem h2
    rw [List.eq_of_mem_replicate hmem]
    constructor
    · intro h3; cases h3
    · intro h3; omega
  · rw [List.getElem?_append_right (by simpa using hi)] at h2
    have hmem : kick.suddenDeath ∈ List.replicate n true := List.getElem?_mem h2
    rw [List.eq_of_mem_replicate hmem]
    constructor
    · intro _; omega
    · intro _; rfl

/-- C13. In the record returned by `generatePenaltyShootout` both kick ledgers have the same
length `n`, the kicks flagged `suddenDeath` are exactly those after the fifth of each side, and
for every `k` with `5 <= k < n` the two sides have converted the same number of their first `k`
kicks: a sudden-death round is played only while the tallies are level and none is played
after they differ. -/
theorem shootout_ledgers (c1 c2 : String) (p1 p2 : List Player) (w : Winner) (rng : Rng)
    (rec : Shootout) (h : generatePenaltyShootout c1 p1 c2 p2 w rng = .ok rec) :
    rec.penalties.team1.length = rec.penalties.team2.length ∧
    (∀ i kick, rec.penalties.team1.get? i = some kick → (kick.suddenDeath = true ↔ 5 ≤ i)) ∧
    (∀ i kick, rec.penalties.team2.get? i = some kick → (kick.suddenDeath = true ↔ 5 ≤ i)) ∧
    (∀ k, 5 ≤ k → k < rec.penalties.team1.length →
      convertedIn k rec.penalties.team1 = convertedIn k rec.penalties.team2) := by
  obtain ⟨⟨w1, -, w3, w4, w5⟩, -, -⟩ := generatePenaltyShootout_record c1 c2 p1 p2 w rng rec h
  exact ⟨w1, fun i kick hk => flag_of_replicate _ _ w3 i kick hk,
    fun i kick hk => flag_of_replicate _ _ w4 i kick hk, w5⟩

/-- C13 at two one-player squads and the stream `missAt 23`, under which the first
sudden-death round decides the shootout 6-5. -/
theorem shootout_ledgers_witness :
    generatePenaltyShootout "Kenya" (squadOf "Kenya") "Mali" (squadOf "Mali") default
      (missAt 23) = .ok sampleShootout ∧
    sampleShootout.penalties.team1.length = sampleShootout.penalties.team2.length ∧
    (∀ i kick, sampleShootout.penalties.team1.get? i = some kick →
      (kick.suddenDeath = true ↔ 5 ≤ i)) ∧
    (∀ i kick, sampleShootout.penalties.team2.get? i = some kick →
      (kick.suddenDeath = true ↔ 5 ≤ i)) ∧
    (∀ k, 5 ≤ k → k < sampleShootout.penalties.team1.length →
      convertedIn k sampleShootout.penalties.team1 =
        convertedIn k sampleShootout.penalties.team2) :=
  ⟨by decide!,
   shootout_ledgers "Kenya" "Mali" (squadOf "Kenya") (squadOf "Mali") default (missAt 23)
     sampleShootout (by decide!)⟩

/-- C14. Under the stream `missAt 23` the shootout of Kenya against Mali is decided by the
first sudden-death round, 6-5: each side has taken 6 kicks, and the record's `rounds` field
is 5, one less than the number of kicks each side took. -/
theorem generatePenaltyShootout_rounds_short :
    ∃ rec, generatePenaltyShootout "Kenya" (squadOf "Kenya") "Mali" (squadOf "Mali") default
        (missAt 23) = .ok rec ∧
      rec.penalties.team1.length = 6 ∧ rec.penalties.team2.length = 6 ∧
      rec.score = ⟨6, 5⟩ ∧ rec.rounds = 5 ∧ rec.rounds ≠ rec.penalties.team1.length :=
  ⟨sampleShootout, by decide!, by decide, by decide, by decide, by decide, by decide⟩

/-- C15. For every two non-empty squads and every stream of kick outcomes,
`generatePenaltyShootout` returns a record, each side has taken at least 5 and at most 10
kicks, both sides the same number, and the `rounds` field lies in `[5, 10]`. The loop is left
by its own test or its `break`, never by the iteration bound of the model: in the record the
scores differ or all ten rounds were played. -/
theorem shootout_terminates (c1 c2 : String) (p1 p2 : List Player) (w : Winner) (rng : Rng)
    (h1 : p1 ≠ []) (h2 : p2 ≠ []) :
    ∃ rec, generatePenaltyShootout c1 p1 c2 p2 w rng = .ok rec ∧
      5 ≤ rec.penalties.team1.length ∧ rec.penalties.team1.length ≤ 10 ∧
      rec.penalties.team2.length = rec.penalties.team1.length ∧
      5 ≤ rec.rounds ∧ rec.rounds ≤ 10 ∧
      (rec.score.team1 ≠ rec.score.team2 ∨ rec.rounds = 10) := by
  obtain ⟨rec, hrec, -⟩ := generatePenaltyShootout_spec c1 c2 p1 p2 w rng h1 h2
  obtain ⟨⟨w1, w2, -⟩, hle, hcases⟩ := generatePenaltyShootout_record c1 c2 p1 p2 w rng rec hrec
  refine ⟨rec, hrec, w2, hle, w1.symm, ?_, ?_, ?_⟩
  · rcases hcases with ⟨a, b, -⟩ | ⟨a, b, -⟩ | ⟨a, b, -⟩ <;> omega
  · rcases hcases with ⟨a, b, -⟩ | ⟨a, b, -⟩ | ⟨a, b, -⟩ <;> omega
  · rcases hcases with ⟨-, -, c⟩ | ⟨-, -, c⟩ | ⟨-, b, -⟩
    · exact Or.inl c
    · exact Or.inl c
    · exact Or.inr b

/-- C15 at two one-player squads and the stream of draws `0.5`, under which every kick is
converted and the tallies stay level. -/
theorem shootout_terminates_witness :
    squadOf "Kenya" ≠ [] ∧ squadOf "Mali" ≠ [] ∧
    ∃ rec, generatePenaltyShootout "Kenya" (squadOf "Kenya") "Mali" (squadOf "Mali") default
        allHalf = .ok rec ∧
      5 ≤ rec.penalties.team1.length ∧ rec.penalties.team1.length ≤ 10 ∧
      rec.penalties.team2.length = rec.penalties.team1.length ∧
      5 ≤ rec.rounds ∧ rec.rounds ≤ 10 ∧
      (rec.score.team1 ≠ rec.score.team2 ∨ rec.rounds = 10) :=
  ⟨by decide, by decide,
   shootout_terminates "Kenya" "Mali" (squadOf "Kenya") (squadOf "Mali") default allHalf
     (by decide) (by decide)⟩

end ANLeague

namespace ANLeague

/-! ## The scorer events of a match -/

theorem scorerLoop_events (c : String) (pool : List Player) (n : Nat) (acc : List Scorer)
    (rng : Rng) (l : List Scorer) (rng1 : Rng)
    (h : scorerLoop c pool n acc rng = .ok (l, rng1)) :
    ∃ new, l = acc ++ new ∧ new.length = n ∧
      ∀ s ∈ new, s.team = c ∧ 1 ≤ s.minute ∧ s.minute ≤ 90 ∧ ∃ p ∈ pool, s.player = p.name := by
  induction n generalizing acc rng with
  | zero =>
    simp only [scorerLoop, Except.ok.injEq, Prod.mk.injEq] at h
    exact ⟨[], by simp [h.1], rfl, by simp⟩
  | succ n ih =>
    unfold scorerLoop at h
    cases hp : pickTaker pool (rng 0) with
    | error e => rw [hp] at h; cases h
    | ok p =>
      rw [hp] at h
      simp only [] at h
      have hmem : p ∈ pool := by
        unfold pickTaker at hp
        cases hg : pool.get? (floorMul (rng 0) pool.length) with
        | none => rw [hg] at hp; cases hp
        | some q =>
          rw [hg] at hp
          simp only [Except.ok.injEq] at hp
          subst hp
          exact List.get?_mem hg
      obtain ⟨new, hl, hlen, hall⟩ := ih _ _ h
      refine ⟨⟨p.name, c, floorMul (rng 1) 90 + 1⟩ :: new, by simp [hl], by simp [hlen], ?_⟩
      intro s hs
      rcases List.mem_cons.mp hs with rfl | hs
      · have := floorMul_lt (rng 1) 90 (by norm_num)
        exact ⟨rfl, by simp, by simp only []; omega, p, hmem, rfl⟩
      · exact hall s hs

/-- C20. For every non-empty squad and every goal count `g >= 0`, `generateScorers` returns
exactly `g` events sorted ascending by minute; each has the given country as its team, a
minute in `[1, 90]` and the name of a player of the squad, who is an AT or MD player whenever
the squad has one. -/
theorem generateScorers_events (c : String) (players : List Player) (g : Int) (rng : Rng)
    (hp : players ≠ []) (hg : 0 ≤ g) :
    ∃ l rng1, generateScorers c players g rng = .ok (l, rng1) ∧
      (l.length : Int) = g ∧
      l.Sorted (fun a b => a.minute ≤ b.minute) ∧
      ∀ s ∈ l, s.team = c ∧ 1 ≤ s.minute ∧ s.minute ≤ 90 ∧
        ∃ p ∈ players, s.player = p.name ∧
          ((∃ q ∈ players, q.position = "AT" ∨ q.position = "MD") →
            p.position = "AT" ∨ p.position = "MD") := by
  obtain ⟨l, rng1, hl⟩ := generateScorers_ok c players g rng
  refine ⟨l, rng1, hl, ?_⟩
  unfold generateScorers at hl
  have hlen : ¬ players.length = 0 := fun h0 => hp (List.length_eq_zero.mp h0)
  rw [if_neg hlen] at hl
  simp only [] at hl
  cases hloop : scorerLoop c
      (if (players.filter (fun p => p.position = "AT" ∨ p.position = "MD")).length > 0
        then players.filter (fun p => p.position = "AT" ∨ p.position = "MD") else players)
      g.toNat [] rng with
  | error e => rw [hloop] at hl; cases hl
  | ok pr =>
    obtain ⟨raw, rng2⟩ := pr
    rw [hloop] at hl
    simp only [Except.ok.injEq, Prod.mk.injEq] at hl
    obtain ⟨rfl, -⟩ := hl
    obtain ⟨new, hnew, hcount, hall⟩ := scorerLoop_events c _ _ _ _ _ _ hloop
    rw [List.nil_append] at hnew
    subst hnew
    haveI : IsTotal Scorer (fun a b => a.minute ≤ b.minute) := ⟨fun a b => Nat.le_total _ _⟩
    haveI : IsTrans Scorer (fun a b => a.minute ≤ b.minute) := ⟨fun a b c => Nat.le_trans⟩
    refine ⟨?_, List.sorted_insertionSort _ _, ?_⟩
    · unfold sortByMinute
      rw [List.length_insertionSort, hcount]
      exact Int.toNat_of_nonneg hg
    · intro s hs
      have hs2 : s ∈ raw := (List.perm_insertionSort _ _).subset hs
      obtain ⟨a, b, d, p, hpm, hname⟩ := hall s hs2
      refine ⟨a, b, d, p, ?_, hname, ?_⟩
      · by_cases hat : (players.filter (fun p => p.position = "AT" ∨ p.position = "MD")).length > 0
        · rw [if_pos hat] at hpm
          exact List.mem_of_mem_filter hpm
        · rw [if_neg hat] at hpm
          exact hpm
      · rintro ⟨q, hq, hqpos⟩
        have hat : (players.filter (fun p => p.position = "AT" ∨ p.position = "MD")).length > 0 :=
          List.length_pos_of_mem (List.mem_filter.mpr ⟨hq, by simpa using hqpos⟩)
        rw [if_pos hat] at hpm
        simpa using (List.mem_filter.mp hpm).2

/-- C20 at a squad of three with one AT player, three goals and the stream `lateThenEarly`. -/
theorem generateScorers_events_witness :
    mixedSquad ≠ [] ∧ (0 : Int) ≤ 3 ∧
    ∃ l rng1, generateScorers "Kenya" mixedSquad 3 lateThenEarly = .ok (l, rng1) ∧
      (l.length : Int) = 3 ∧
      l.Sorted (fun a b => a.minute ≤ b.minute) ∧
      ∀ s ∈ l, s.team = "Kenya" ∧ 1 ≤ s.minute ∧ s.minute ≤ 90 ∧
        ∃ p ∈ mixedSquad, s.player = p.name ∧
          ((∃ q ∈ mixedSquad, q.position = "AT" ∨ q.position = "MD") →
            p.position = "AT" ∨ p.position = "MD") :=
  ⟨by decide, by decide,
   generateScorers_events "Kenya" mixedSquad 3 lateThenEarly (by decide) (by decide)⟩

/-- C12. In the fresh sample bracket, under the stream `lateThenEarly`, Ghana beats Togo 2-1
in QF2; Ghana's two goals fall in minute 82 and Togo's in minute 1. The scorer list that
`simulateMatch` returns and stores is Ghana's events followed by Togo's, minutes 82, 82, 1:
it is not sorted ascending by minute. -/
theorem simulateMatch_scorers_unsorted :
    ∃ r, (simulateMatch sampleDb "QF2" lateThenEarly "2025-01-02T00:00:00.000Z").2 = .returned r ∧
      (r.score1, r.score2) = (2, 1) ∧
      r.scorers = [⟨"Ghana", "Ghana", 82⟩, ⟨"Ghana", "Ghana", 82⟩, ⟨"Togo", "Togo", 1⟩] ∧
      (getDoc (simulateMatch sampleDb "QF2" lateThenEarly "2025-01-02T00:00:00.000Z").1.matches_
        "QF2").map (fun d => d.goalScorers) = some r.scorers ∧
      ¬ r.scorers.Sorted (fun a b => a.minute ≤ b.minute) :=
  ⟨(simulateMatch sampleDb "QF2" lateThenEarly "2025-01-02T00:00:00.000Z").2.resultD,
    by decide!, by decide!, by decide!, by decide!, by decide!⟩

end ANLeague

namespace ANLeague

/-! ## The shuffle and the bracket made of eight teams -/

theorem swapAt_perm {α : Type} (a : List α) (i j : Nat) : List.Perm (swapAt a i j) a := by
  classical
  unfold swapAt
  cases hi : a.get? i with
  | none => exact List.Perm.refl _
  | some x =>
    cases hj : a.get? j with
    | none => exact List.Perm.refl _
    | some y =>
      simp only []
      rw [List.get?_eq_some] at hi hj
      obtain ⟨hil, hix⟩ := hi
      obtain ⟨hjl, hjy⟩ := hj
      rw [List.perm_iff_count]
      intro b
      have hjl2 : j < (a.set i y).length := by simpa using hjl
      rw [List.count_set _ _ _ _ hjl2, List.count_set _ _ _ _ hil]
      have hget : (a.set i y)[j] = y := by
        rw [List.getElem_set]
        split_ifs
        · rfl
        · exact hjy
      have hxa : a[i] = x := hix
      rw [hget, hxa]
      have hpos : (if (x == b) = true then 1 else 0) ≤ a.count b := by
        split_ifs with hxb
        · have : x = b := by simpa using hxb
          subst this
          have : x ∈ a := by rw [← hix]; exact List.get_mem _ _ _
          exact List.count_pos_iff.mpr this
        · exact Nat.zero_le _
      omega

theorem shuffleLoop_perm {α : Type} (n : Nat) (a : List α) (rng : Rng) :
    List.Perm (shuffleLoop n a rng).1 a := by
  induction n generalizing a rng with
  | zero => exact List.Perm.refl _
  | succ n ih => exact (ih _ _).trans (swapAt_perm a _ _)

theorem shuffleArray_perm {α : Type} (a : List α) (rng : Rng) :
    List.Perm (shuffleArray a rng).1 a := shuffleLoop_perm _ a rng


theorem length_eq_eight {α : Type} (l : List α) (h : l.length = 8) :
    ∃ s0 s1 s2 s3 s4 s5 s6 s7, l = [s0, s1, s2, s3, s4, s5, s6, s7] := by
  rcases l with _ | ⟨s0, _ | ⟨s1, _ | ⟨s2, _ | ⟨s3, _ | ⟨s4, _ | ⟨s5, _ | ⟨s6, _ | ⟨s7, _ | ⟨s8, r⟩⟩⟩⟩⟩⟩⟩⟩⟩
  case cons.cons.cons.cons.cons.cons.cons.cons.nil => exact ⟨s0, s1, s2, s3, s4, s5, s6, s7, rfl⟩
  all_goals (exfalso; simp at h)

theorem createBracket_of_eight (teams : List Team) (rng : Rng) (h : teams.length = 8) :
    ∃ s0 s1 s2 s3 s4 s5 s6 s7, List.Perm [s0, s1, s2, s3, s4, s5, s6, s7] teams ∧
      createBracket teams rng = .ok (bracketOf s0 s1 s2 s3 s4 s5 s6 s7) := by
  have hperm := shuffleArray_perm teams rng
  have hlen : (shuffleArray teams rng).1.length = 8 := by rw [hperm.length_eq, h]
  obtain ⟨s0, s1, s2, s3, s4, s5, s6, s7, hs⟩ := length_eq_eight _ hlen
  refine ⟨s0, s1, s2, s3, s4, s5, s6, s7, hs ▸ hperm, ?_⟩
  unfold createBracket
  rw [if_neg (by simp [h]), hs]
  rfl


/-- C16. For every list of exactly 8 teams and every stream of draws, `createBracket` returns
a bracket with four quarterfinals whose eight slots, read QF1.team1, QF1.team2, ...,
QF4.team2, are a permutation of the slots of the 8 input teams: every input team occupies
one slot, none is repeated or lost. `shuffleArray` returns a permutation of its input, for
every list; the input, a value, is not changed by the call. -/
theorem createBracket_slots_perm {α : Type} (teams : List Team) (rng : Rng) (array : List α)
    (rng2 : Rng) (h : teams.length = 8) :
    (∃ b q1 q2 q3 q4, createBracket teams rng = .ok b ∧ b.quarterFinals = [q1, q2, q3, q4] ∧
      List.Perm [q1.team1, q1.team2, q2.team1, q2.team2, q3.team1, q3.team2, q4.team1, q4.team2]
        (teams.map Team.slot)) ∧
    List.Perm (shuffleArray array rng2).1 array := by
  refine ⟨?_, shuffleArray_perm array rng2⟩
  obtain ⟨s0, s1, s2, s3, s4, s5, s6, s7, hperm, hb⟩ := createBracket_of_eight teams rng h
  exact ⟨_, _, _, _, _, hb, rfl, hperm.map Team.slot⟩

/-- C16 at the eight sample teams and a list of three numbers, every draw being `0.5`. -/
theorem createBracket_slots_perm_witness :
    sampleTeams.length = 8 ∧
    (∃ b q1 q2 q3 q4, createBracket sampleTeams allHalf = .ok b ∧
      b.quarterFinals = [q1, q2, q3, q4] ∧
      List.Perm [q1.team1, q1.team2, q2.team1, q2.team2, q3.team1, q3.team2, q4.team1, q4.team2]
        (sampleTeams.map Team.slot)) ∧
    List.Perm (shuffleArray [1, 2, 3] allHalf).1 [1, 2, 3] :=
  ⟨by decide, createBracket_slots_perm sampleTeams allHalf [1, 2, 3] allHalf (by decide)⟩

/-- C17. For every list of 8 teams `createBracket` returns 7 matches, QF1 to QF4, SF1, SF2 and
FINAL in this order; the quarterfinals are "pending", the other three "locked" with both
slots the placeholder (country "TBD", team id null, no players); `nextMatch` is SF1 for QF1 and
QF2, SF2 for QF3 and QF4, FINAL for SF1 and SF2 and null for FINAL; and a match `m` has
`nextMatch` `n` exactly when `m` occurs in the `dependsOn` list of `n`, once, at index 0
or 1. -/
theorem createBracket_wiring (teams : List Team) (rng : Rng) (h : teams.length = 8) :
    ∃ b, createBracket teams rng = .ok b ∧
      b.allMatches.length = 7 ∧
      b.allMatches.map (fun m => m.matchId) =
        ["QF1", "QF2", "QF3", "QF4", "SF1", "SF2", "FINAL"] ∧
      b.allMatches.map (fun m => m.status) =
        ["pending", "pending", "pending", "pending", "locked", "locked", "locked"] ∧
      b.allMatches.map (fun m => m.nextMatch) =
        [some "SF1", some "SF1", some "SF2", some "SF2", some "FINAL", some "FINAL", none] ∧
      (b.semiFinals ++ b.final).map (fun m => (m.matchId, m.team1, m.team2)) =
        [("SF1", ⟨"TBD", none, []⟩, ⟨"TBD", none, []⟩),
         ("SF2", ⟨"TBD", none, []⟩, ⟨"TBD", none, []⟩),
         ("FINAL", ⟨"TBD", none, []⟩, ⟨"TBD", none, []⟩)] ∧
      (∀ m ∈ b.allMatches, ∀ n ∈ b.allMatches,
        (m.nextMatch = some n.matchId ↔
          ∃ deps, n.dependsOn = some deps ∧ deps.count m.matchId = 1 ∧
            (indexOf deps m.matchId = 0 ∨ indexOf deps m.matchId = 1))) := by
  obtain ⟨s0, s1, s2, s3, s4, s5, s6, s7, -, hb⟩ := createBracket_of_eight teams rng h
  refine ⟨_, hb, rfl, rfl, rfl, rfl, rfl, ?_⟩
  · intro m hm n hn
    simp only [Bracket.allMatches, bracketOf, List.cons_append, List.nil_append, List.mem_cons,
      List.mem_singleton, List.not_mem_nil, or_false] at hm hn
    rcases hm with rfl | rfl | rfl | rfl | rfl | rfl | rfl <;>
    rcases hn with rfl | rfl | rfl | rfl | rfl | rfl | rfl <;>
    simp [quarterFinal, lockedMatch, indexOf]

/-- C17 at the eight sample teams, every draw being `0.5`. -/
theorem createBracket_wiring_witness :
    sampleTeams.length = 8 ∧
    ∃ b, createBracket sampleTeams allHalf = .ok b ∧
      b.allMatches.length = 7 ∧
      b.allMatches.map (fun m => m.matchId) =
        ["QF1", "QF2", "QF3", "QF4", "SF1", "SF2", "FINAL"] ∧
      b.allMatches.map (fun m => m.status) =
        ["pending", "pending", "pending", "pending", "locked", "locked", "locked"] ∧
      b.allMatches.map (fun m => m.nextMatch) =
        [some "SF1", some "SF1", some "SF2", some "SF2", some "FINAL", some "FINAL", none] ∧
      (b.semiFinals ++ b.final).map (fun m => (m.matchId, m.team1, m.team2)) =
        [("SF1", ⟨"TBD", none, []⟩, ⟨"TBD", none, []⟩),
         ("SF2", ⟨"TBD", none, []⟩, ⟨"TBD", none, []⟩),
         ("FINAL", ⟨"TBD", none, []⟩, ⟨"TBD", none, []⟩)] ∧
      (∀ m ∈ b.allMatches, ∀ n ∈ b.allMatches,
        (m.nextMatch = some n.matchId ↔
          ∃ deps, n.dependsOn = some deps ∧ deps.count m.matchId = 1 ∧
            (indexOf deps m.matchId = 0 ∨ indexOf deps m.matchId = 1))) :=
  ⟨by decide, createBracket_wiring sampleTeams allHalf (by decide)⟩

theorem uploadBracket_writes (db : Db) (s0 s1 s2 s3 s4 s5 s6 s7 : Team) (now : String) :
    ∀ m ∈ (bracketOf s0 s1 s2 s3 s4 s5 s6 s7).allMatches,
      getDoc (uploadBracket db (bracketOf s0 s1 s2 s3 s4 s5 s6 s7) now).matches_ m.matchId =
        some m := by
  intro m hm
  simp only [Bracket.allMatches, bracketOf, List.cons_append, List.nil_append, List.mem_cons,
    List.mem_singleton, List.not_mem_nil, or_false] at hm
  rcases hm with rfl | rfl | rfl | rfl | rfl | rfl | rfl <;>
  simp [uploadBracket, Bracket.allMatches, bracketOf, getDoc_setDoc, quarterFinal, lockedMatch]

/-- C18. `createBracket` throws exactly when the number of teams is not 8. When the number of
registered teams is not 8, `generateTournament` returns false, throws nothing and leaves the
store as it found it; when it is 8, it returns true and leaves the store that `uploadBracket`
makes of the bracket: each of the 7 matches of the bracket is stored under its id, and
`tournament/current` holds the status record. -/
theorem generateTournament_count (db : Db) (teams : List Team) (rng : Rng) (now : String) :
    ((∃ e, createBracket teams rng = .error e) ↔ teams.length ≠ 8) ∧
    ((getAllTeams db).length ≠ 8 → generateTournament db rng now = (db, .ok false)) ∧
    ((getAllTeams db).length = 8 →
      ∃ b, createBracket (getAllTeams db) rng = .ok b ∧
        generateTournament db rng now = (uploadBracket db b now, .ok true) ∧
        b.allMatches.length = 7 ∧
        (∀ m ∈ b.allMatches,
          getDoc (generateTournament db rng now).1.matches_ m.matchId = some m) ∧
        getDoc (generateTournament db rng now).1.tournament "current" =
          some ⟨"ready", some "Quarter-Final", some now, some 8, none⟩) := by
  refine ⟨?_, ?_, ?_⟩
  · constructor
    · rintro ⟨e, he⟩ h8
      obtain ⟨s0, s1, s2, s3, s4, s5, s6, s7, -, hb⟩ := createBracket_of_eight teams rng h8
      rw [hb] at he
      cases he
    · intro h8
      unfold createBracket
      rw [if_pos h8]
      exact ⟨_, rfl⟩
  · intro h8
    unfold generateTournament
    simp only []
    rw [if_pos h8]
  · intro h8
    obtain ⟨s0, s1, s2, s3, s4, s5, s6, s7, -, hb⟩ := createBracket_of_eight _ rng h8
    have hgen : generateTournament db rng now =
        (uploadBracket db (bracketOf s0 s1 s2 s3 s4 s5 s6 s7) now, .ok true) := by
      unfold generateTournament
      simp only []
      rw [if_neg (by simp [h8]), hb]
    refine ⟨_, hb, hgen, rfl, ?_, ?_⟩
    · rw [hgen]
      exact uploadBracket_writes db s0 s1 s2 s3 s4 s5 s6 s7 now
    · rw [hgen]
      simp [uploadBracket, getDoc_setDoc]

/-- C18 at stores with 7, 9 and 8 registered teams. -/
theorem generateTournament_count_witness :
    (getAllTeams (registeredDb ["A", "B", "C", "D", "E", "F", "G"])).length ≠ 8 ∧
    generateTournament (registeredDb ["A", "B", "C", "D", "E", "F", "G"]) allHalf "now" =
      (registeredDb ["A", "B", "C", "D", "E", "F", "G"], .ok false) ∧
    (getAllTeams (registeredDb ["A", "B", "C", "D", "E", "F", "G", "H", "I"])).length ≠ 8 ∧
    generateTournament (registeredDb ["A", "B", "C", "D", "E", "F", "G", "H", "I"]) allHalf
      "now" = (registeredDb ["A", "B", "C", "D", "E", "F", "G", "H", "I"], .ok false) ∧
    (getAllTeams (registeredDb ["A", "B", "C", "D", "E", "F", "G", "H"])).length = 8 ∧
    (generateTournament (registeredDb ["A", "B", "C", "D", "E", "F", "G", "H"]) allHalf
      "now").2 = .ok true :=
  ⟨by decide,
   (generateTournament_count (registeredDb ["A", "B", "C", "D", "E", "F", "G"]) [] allHalf
     "now").2.1 (by decide),
   by decide,
   (generateTournament_count (registeredDb ["A", "B", "C", "D", "E", "F", "G", "H", "I"]) []
     allHalf "now").2.1 (by decide),
   by decide,
   by
    obtain ⟨b, -, hgen, -⟩ :=
      (generateTournament_count (registeredDb ["A", "B", "C", "D", "E", "F", "G", "H"]) []
        allHalf "now").2.2 (by decide)
    rw [hgen]⟩

end ANLeague

namespace ANLeague

/-! ## The leaderboard of `getTopScorers` -/

theorem bump_eq_setDoc (c : List (String × Nat)) (key : String) :
    bump c key = setDoc c key ((getDoc c key).getD 0 + 1) := by
  induction c with
  | nil => rfl
  | cons e rest ih =>
    obtain ⟨k, n⟩ := e
    by_cases h : k = key
    · simp [bump, setDoc, getDoc, h]
    · simp [bump, setDoc, getDoc, h, ih]

theorem setDoc_keys {β : Type} (c : Coll β) (id : String) (v : β) :
    (setDoc c id v).map Prod.fst =
      if id ∈ c.map Prod.fst then c.map Prod.fst else c.map Prod.fst ++ [id] := by
  induction c with
  | nil => simp [setDoc]
  | cons e rest ih =>
    obtain ⟨k, w⟩ := e
    by_cases h : k = id
    · simp [setDoc, h]
    · have h2 : ¬ id = k := fun h3 => h h3.symm
      simp only [setDoc, if_neg h, List.map_cons, ih, List.mem_cons, h2, false_or]
      split_ifs <;> simp

theorem setDoc_keys_nodup {β : Type} (c : Coll β) (id : String) (v : β)
    (h : (c.map Prod.fst).Nodup) : ((setDoc c id v).map Prod.fst).Nodup := by
  rw [setDoc_keys]
  split_ifs with hin
  · exact h
  · rw [List.nodup_append]
    refine ⟨h, List.nodup_singleton _, ?_⟩
    intro a ha hb
    rw [List.mem_singleton] at hb
    subst hb
    exact hin ha

theorem getDoc_of_mem {β : Type} (c : Coll β) (k : String) (v : β)
    (hnd : (c.map Prod.fst).Nodup) (hmem : (k, v) ∈ c) : getDoc c k = some v := by
  induction c with
  | nil => cases hmem
  | cons e rest ih =>
    obtain ⟨k0, w⟩ := e
    rw [List.map_cons, List.nodup_cons] at hnd
    rcases List.mem_cons.mp hmem with h | h
    · cases h
      simp [getDoc]
    · have hne : k0 ≠ k := by
        rintro rfl
        exact hnd.1 (List.mem_map.mpr ⟨(k0, v), h, rfl⟩)
      simp only [getDoc, if_neg hne]
      exact ih hnd.2 h

theorem mem_of_getDoc {β : Type} (c : Coll β) (k : String) (v : β)
    (h : getDoc c k = some v) : (k, v) ∈ c := by
  induction c with
  | nil => cases h
  | cons e rest ih =>
    obtain ⟨k0, w⟩ := e
    by_cases hk : k0 = k
    · subst hk
      simp only [getDoc, if_true, Option.some.injEq] at h
      subst h
      exact List.mem_cons_self _ _
    · simp only [getDoc, if_neg hk] at h
      exact List.mem_cons_of_mem _ (ih h)

/-- What the object `scorerCounts` holds after the keys `ks` were counted into it. -/
theorem counts_fold (ks : List String) :
    ((ks.foldl bump []).map Prod.fst).Nodup ∧
    ∀ k, getDoc (ks.foldl bump []) k = if ks.count k = 0 then none else some (ks.count k) := by
  induction ks using List.reverseRecOn with
  | nil => exact ⟨List.nodup_nil, fun k => rfl⟩
  | append_singleton ks key ih =>
    obtain ⟨hnd, hget⟩ := ih
    rw [List.foldl_append, List.foldl_cons, List.foldl_nil, bump_eq_setDoc]
    refine ⟨setDoc_keys_nodup _ _ _ hnd, fun k => ?_⟩
    rw [getDoc_setDoc, List.count_append, hget key]
    by_cases hk : key = k
    · subst hk
      simp only [if_true, List.count_singleton_self]
      by_cases h0 : ks.count key = 0
      · simp [h0]
      · simp [h0]
    · rw [if_neg hk, hget k]
      have : List.count k [key] = 0 := List.count_eq_zero_of_not_mem (by simpa using fun h => hk h.symm)
      rw [this, Nat.add_zero]

theorem counts_of_matches (ms : Coll MatchDoc) (init : List (String × Nat)) :
    ms.foldl (fun counts e =>
        e.2.goalScorers.foldl (fun c scorer => bump c (scorerKey scorer)) counts) init =
      ((ms.flatMap (fun e => e.2.goalScorers)).map scorerKey).foldl bump init := by
  induction ms generalizing init with
  | nil => rfl
  | cons e rest ih =>
    rw [List.foldl_cons, ih, List.flatMap_cons, List.map_append, List.foldl_append]
    simp only [List.foldl_map]

theorem splitBar_of_no_bar (t : List Char) (h : '|' ∉ t) : splitBar t = [t] := by
  induction t with
  | nil => rfl
  | cons c cs ih =>
    rw [List.mem_cons, not_or] at h
    have hc : ¬ c = '|' := fun e => h.1 e.symm
    simp only [splitBar, if_neg hc, ih h.2]

theorem splitBar_append_bar (p t : List Char) (hp : '|' ∉ p) :
    splitBar (p ++ '|' :: t) = p :: splitBar t := by
  induction p with
  | nil => simp [splitBar]
  | cons c cs ih =>
    rw [List.mem_cons, not_or] at hp
    have hc : ¬ c = '|' := fun e => hp.1 e.symm
    have ih2 := ih hp.2
    show splitBar (c :: (cs ++ '|' :: t)) = (c :: cs) :: splitBar t
    simp only [splitBar, if_neg hc, ih2]

theorem entryOf_scorerKey (s : Scorer) (n : Nat) (hp : '|' ∉ s.player.data)
    (ht : '|' ∉ s.team.data) : entryOf (scorerKey s) n = ⟨s.player, s.team, n⟩ := by
  have hdata : (scorerKey s).data = s.player.data ++ '|' :: s.team.data := by
    unfold scorerKey
    rw [String.data_append, String.data_append, List.append_assoc]
    rfl
  unfold entryOf
  rw [hdata, splitBar_append_bar _ _ hp, splitBar_of_no_bar _ ht]

theorem scorerKey_inj (s1 s2 : Scorer) (h1 : '|' ∉ s1.player.data ∧ '|' ∉ s1.team.data)
    (h2 : '|' ∉ s2.player.data ∧ '|' ∉ s2.team.data) :
    scorerKey s1 = scorerKey s2 ↔ (s1.player = s2.player ∧ s1.team = s2.team) := by
  constructor
  · intro h
    have e1 := entryOf_scorerKey s1 0 h1.1 h1.2
    have e2 := entryOf_scorerKey s2 0 h2.1 h2.2
    rw [h, e2] at e1
    simp only [TopScorer.mk.injEq, and_true] at e1
    exact ⟨e1.1.symm, e1.2.symm⟩
  · rintro ⟨hp, ht⟩
    unfold scorerKey
    rw [hp, ht]

theorem getTopScorers_eq (db : Db) :
    getTopScorers db = sortByGoals
      ((((allScorerEvents db).map scorerKey).foldl bump []).map (fun e => entryOf e.1 e.2)) := by
  unfold getTopScorers allScorerEvents
  simp only [counts_of_matches]

theorem counts_entry (evs : List Scorer)
    (hbar : ∀ s ∈ evs, '|' ∉ s.player.data ∧ '|' ∉ s.team.data) (e : String × Nat)
    (he : e ∈ (evs.map scorerKey).foldl bump []) :
    ∃ s ∈ evs, e.1 = scorerKey s ∧ entryOf e.1 e.2 = ⟨s.player, s.team, e.2⟩ ∧ 0 < e.2 ∧
      e.2 = evs.countP (fun s2 => decide (s2.player = s.player ∧ s2.team = s.team)) := by
  obtain ⟨hnd, hget⟩ := counts_fold (evs.map scorerKey)
  have h1 := getDoc_of_mem _ e.1 e.2 hnd he
  rw [hget] at h1
  by_cases h0 : (evs.map scorerKey).count e.1 = 0
  · rw [if_pos h0] at h1
    cases h1
  · rw [if_neg h0] at h1
    simp only [Option.some.injEq] at h1
    have hmem : e.1 ∈ evs.map scorerKey := List.count_pos_iff.mp (Nat.pos_of_ne_zero h0)
    obtain ⟨s, hs, hkey⟩ := List.mem_map.mp hmem
    refine ⟨s, hs, hkey.symm, ?_, ?_, ?_⟩
    · rw [← hkey]
      exact entryOf_scorerKey s e.2 (hbar s hs).1 (hbar s hs).2
    · rw [← h1]
      exact Nat.pos_of_ne_zero h0
    · rw [← h1, ← hkey, List.count_eq_countP, List.countP_map]
      apply List.countP_congr
      intro s2 hs2
      simp only [Function.comp, beq_iff_eq, decide_eq_true_eq]
      exact scorerKey_inj s2 s (hbar s2 hs2) (hbar s hs)

/-- When no player name and no team name of a scorer event holds the character `|`,
`getTopScorers` returns one entry per pair of player and team that occurs in the events, with
the number of events of that pair as its goals, ordered by non-increasing goals. -/
theorem getTopScorers_aggregates (db : Db)
    (hbar : ∀ s ∈ allScorerEvents db, '|' ∉ s.player.data ∧ '|' ∉ s.team.data) :
    ((getTopScorers db).map (fun t => (t.player, t.team))).Nodup ∧
    (∀ t ∈ getTopScorers db, 0 < t.goals ∧
      t.goals = (allScorerEvents db).countP
        (fun s => decide (s.player = t.player ∧ s.team = t.team))) ∧
    (∀ s ∈ allScorerEvents db, ∃ t ∈ getTopScorers db, t.player = s.player ∧ t.team = s.team) ∧
    (getTopScorers db).Sorted (fun a b => a.goals ≥ b.goals) := by
  rw [getTopScorers_eq]
  obtain ⟨hnd, hget⟩ := counts_fold ((allScorerEvents db).map scorerKey)
  have hperm := List.perm_insertionSort (fun a b : TopScorer => a.goals ≥ b.goals)
    ((((allScorerEvents db).map scorerKey).foldl bump []).map (fun e => entryOf e.1 e.2))
  unfold sortByGoals
  refine ⟨?_, ?_, ?_, ?_⟩
  · rw [(hperm.map _).nodup_iff, List.map_map]
    have hmap : ((((allScorerEvents db).map scorerKey).foldl bump []).map
          ((fun t : TopScorer => (t.player, t.team)) ∘ fun e => entryOf e.1 e.2)) =
        ((((allScorerEvents db).map scorerKey).foldl bump []).map Prod.fst).map
          (fun k => ((entryOf k 0).player, (entryOf k 0).team)) := by
      rw [List.map_map]
      apply List.map_congr_left
      intro e _
      simp only [Function.comp, entryOf]
      split <;> rfl
    rw [hmap]
    refine List.Nodup.map_on ?_ hnd
    intro k1 hk1 k2 hk2 heq
    obtain ⟨e1, he1, rfl⟩ := List.mem_map.mp hk1
    obtain ⟨e2, he2, rfl⟩ := List.mem_map.mp hk2
    obtain ⟨s1, hs1, hkey1, -, -, -⟩ := counts_entry _ hbar e1 he1
    obtain ⟨s2, hs2, hkey2, -, -, -⟩ := counts_entry _ hbar e2 he2
    rw [hkey1, hkey2] at heq ⊢
    rw [entryOf_scorerKey s1 0 (hbar s1 hs1).1 (hbar s1 hs1).2,
      entryOf_scorerKey s2 0 (hbar s2 hs2).1 (hbar s2 hs2).2] at heq
    simp only [Prod.mk.injEq] at heq
    exact (scorerKey_inj s1 s2 (hbar s1 hs1) (hbar s2 hs2)).mpr heq
  · intro t ht
    obtain ⟨e, he, rfl⟩ := List.mem_map.mp (hperm.subset ht)
    obtain ⟨s, -, -, hentry, hpos, hcount⟩ := counts_entry _ hbar e he
    rw [hentry]
    exact ⟨hpos, hcount⟩
  · intro s hs
    have hc : ((allScorerEvents db).map scorerKey).count (scorerKey s) ≠ 0 :=
      Nat.pos_iff_ne_zero.mp (List.count_pos_iff.mpr (List.mem_map_of_mem _ hs))
    have hg := hget (scorerKey s)
    rw [if_neg hc] at hg
    have hmem := mem_of_getDoc _ _ _ hg
    refine ⟨entryOf (scorerKey s) _, hperm.symm.subset (List.mem_map.mpr ⟨_, hmem, rfl⟩), ?_⟩
    rw [entryOf_scorerKey s _ (hbar s hs).1 (hbar s hs).2]
    exact ⟨rfl, rfl⟩
  · haveI : IsTotal TopScorer (fun a b => a.goals ≥ b.goals) :=
      ⟨fun a b => Nat.le_total b.goals a.goals⟩
    haveI : IsTrans TopScorer (fun a b => a.goals ≥ b.goals) :=
      ⟨fun a b c hab hbc => Nat.le_trans hbc hab⟩
    exact List.sorted_insertionSort _ _

/-- The example of the specification: for the events (A, teamX, 10), (B, teamY, 20),
(A, teamX, 50) the entry of A with 2 goals precedes the entry of B with 1 goal. -/
theorem getTopScorers_example :
    getTopScorers (scorersDb [⟨"A", "teamX", 10⟩, ⟨"B", "teamY", 20⟩, ⟨"A", "teamX", 50⟩]) =
      [⟨"A", "teamX", 2⟩, ⟨"B", "teamY", 1⟩] := by
  decide!

/-- C19. For the events (Kofi, Ghana), (Musa, Ivory|Coast), (Musa, Ivory|Coast) the pair of
Musa and the team Ivory|Coast has no entry in the result of `getTopScorers`: its two goals are
listed under the team Ivory, the part of the team name before the character that the key of
the count uses as its separator. -/
theorem getTopScorers_bar_in_team :
    getTopScorers (scorersDb
        [⟨"Kofi", "Ghana", 10⟩, ⟨"Musa", "Ivory|Coast", 20⟩, ⟨"Musa", "Ivory|Coast", 50⟩]) =
      [⟨"Musa", "Ivory", 2⟩, ⟨"Kofi", "Ghana", 1⟩] ∧
    ¬ ∃ t ∈ getTopScorers (scorersDb
        [⟨"Kofi", "Ghana", 10⟩, ⟨"Musa", "Ivory|Coast", 20⟩, ⟨"Musa", "Ivory|Coast", 50⟩]),
      t.player = "Musa" ∧ t.team = "Ivory|Coast" :=
  ⟨by decide!, by decide!⟩

end ANLeague

namespace ANLeague

/-! ## The total of the goals of a match -/

theorem jsRound_bounds (x : ℚ) : (jsRound x : ℚ) ≤ x + 1 / 2 ∧ x - 1 / 2 < (jsRound x : ℚ) := by
  unfold jsRound
  have h1 := Int.floor_le (x + 1 / 2)
  have h2 := Int.lt_floor_add_one (x + 1 / 2)
  constructor
  · exact h1
  · linarith

theorem ratingOrDefault_pos (teamDoc : Option TeamDoc) : 0 < ratingOrDefault teamDoc := by
  unfold ratingOrDefault
  cases teamDoc with
  | none => norm_num
  | some t =>
    simp only []
    split_ifs with h
    · norm_num
    · exact_mod_cast Nat.pos_of_ne_zero h

theorem generateScore_total (rating1 rating2 : ℚ) (h1 : 0 < rating1) (h2 : 0 < rating2)
    (rng : Rng) :
    3 ≤ (generateScore rating1 rating2 rng).1.1 + (generateScore rating1 rating2 rng).1.2 ∧
    (generateScore rating1 rating2 rng).1.1 + (generateScore rating1 rating2 rng).1.2 ≤ 9 := by
  have hs : 0 < rating1 + rating2 := by linarith
  have hp : rating1 / (rating1 + rating2) + rating2 / (rating1 + rating2) = 1 := by
    field_simp
  have p1 : 0 ≤ rating1 / (rating1 + rating2) := by positivity
  have p2 : 0 ≤ rating2 / (rating1 + rating2) := by positivity
  have u0 := (rng 0).nonneg
  have u0' := (rng 0).lt_one
  have u1 := (rng 1).nonneg
  have u1' := (rng 1).lt_one
  have m1 : max 0 (((rng 0).val + rating1 / (rating1 + rating2)) * 3) =
      ((rng 0).val + rating1 / (rating1 + rating2)) * 3 := max_eq_right (by positivity)
  have m2 : max 0 (((rng 1).val + rating2 / (rating1 + rating2)) * 3) =
      ((rng 1).val + rating2 / (rating1 + rating2)) * 3 := max_eq_right (by positivity)
  obtain ⟨a1, a2⟩ := jsRound_bounds (max 0 (((rng 0).val + rating1 / (rating1 + rating2)) * 3))
  obtain ⟨b1, b2⟩ := jsRound_bounds (max 0 (((rng 1).val + rating2 / (rating1 + rating2)) * 3))
  rw [m1] at a1 a2
  rw [m2] at b1 b2
  simp only [generateScore]
  rw [m1, m2]
  constructor
  · have : (2 : ℚ) < ((jsRound (((rng 0).val + rating1 / (rating1 + rating2)) * 3) +
        jsRound (((rng 1).val + rating2 / (rating1 + rating2)) * 3) : Int) : ℚ) := by
      push_cast
      linarith
    have h3 : (2 : Int) < jsRound (((rng 0).val + rating1 / (rating1 + rating2)) * 3) +
        jsRound (((rng 1).val + rating2 / (rating1 + rating2)) * 3) := by exact_mod_cast this
    omega
  · have : ((jsRound (((rng 0).val + rating1 / (rating1 + rating2)) * 3) +
        jsRound (((rng 1).val + rating2 / (rating1 + rating2)) * 3) : Int) : ℚ) < 10 := by
      push_cast
      linarith
    have h3 : jsRound (((rng 0).val + rating1 / (rating1 + rating2)) * 3) +
        jsRound (((rng 1).val + rating2 / (rating1 + rating2)) * 3) < (10 : Int) := by
      exact_mod_cast this
    omega

/-- C30. For all ratings `R1, R2 > 0` and all draws the two goal counts returned by
`generateScore` sum to at least 3 and at most 9: the score is never 0-0 or 1-1, and when the
two counts are equal they are 2, 3 or 4. The regulation score of `simulateMatch`, whose
ratings are stored team ratings or the default 50, is such a score for every store and every
match: a simulated match is never goalless. -/
theorem generateScore_never_goalless (rating1 rating2 : ℚ) (h1 : 0 < rating1)
    (h2 : 0 < rating2) (rng : Rng) (db : Db) (m : MatchDoc) (rng2 : Rng) :
    3 ≤ (generateScore rating1 rating2 rng).1.1 + (generateScore rating1 rating2 rng).1.2 ∧
    (generateScore rating1 rating2 rng).1.1 + (generateScore rating1 rating2 rng).1.2 ≤ 9 ∧
    (generateScore rating1 rating2 rng).1 ≠ (0, 0) ∧
    (generateScore rating1 rating2 rng).1 ≠ (1, 1) ∧
    ((generateScore rating1 rating2 rng).1.1 = (generateScore rating1 rating2 rng).1.2 →
      (generateScore rating1 rating2 rng).1 = (2, 2) ∨
      (generateScore rating1 rating2 rng).1 = (3, 3) ∨
      (generateScore rating1 rating2 rng).1 = (4, 4)) ∧
    3 ≤ (regulationScore db m rng2).1 + (regulationScore db m rng2).2 ∧
    (regulationScore db m rng2).1 + (regulationScore db m rng2).2 ≤ 9 := by
  obtain ⟨a, b⟩ := generateScore_total rating1 rating2 h1 h2 rng
  obtain ⟨c, d⟩ := generateScore_total _ _ (ratingOrDefault_pos (getDocAt db.teams m.team1.teamId))
    (ratingOrDefault_pos (getDocAt db.teams m.team2.teamId)) rng2
  refine ⟨a, b, ?_, ?_, ?_, c, d⟩
  · intro h
    rw [h] at a
    omega
  · intro h
    rw [h] at a
    omega
  · intro h
    generalize (generateScore rating1 rating2 rng).1 = s at a b h ⊢
    obtain ⟨s1, s2⟩ := s
    simp only at a b h
    subst h
    simp only [Prod.mk.injEq, and_self]
    omega

/-- C30 at equal ratings: the draws `0`, `0.5` and `0.9` on both sides give the draws 2-2,
3-3 and 4-4. -/
theorem generateScore_never_goalless_witness :
    (0 : ℚ) < 60 ∧ (0 : ℚ) < 60 ∧
    (generateScore 60 60 (fun _ => zeroDraw)).1 = (2, 2) ∧
    (generateScore 60 60 allHalf).1 = (3, 3) ∧
    (generateScore 60 60 (fun _ => nineTenths)).1 = (4, 4) ∧
    3 ≤ (generateScore 60 60 allHalf).1.1 + (generateScore 60 60 allHalf).1.2 ∧
    (generateScore 60 60 allHalf).1.1 + (generateScore 60 60 allHalf).1.2 ≤ 9 := by
  have h := generateScore_never_goalless 60 60 (by norm_num) (by norm_num) allHalf sampleDb
    default allHalf
  exact ⟨by norm_num, by norm_num, by decide!, by decide!, by decide!, h.1, h.2.1⟩

end ANLeague

namespace ANLeague

/-! ## The reset of the tournament -/

theorem deleteDoc_all {β : Type} (snapshot c : Coll β)
    (h : ∀ e ∈ c, e.1 ∈ snapshot.map Prod.fst) :
    snapshot.foldl (fun c docSnap => deleteDoc c docSnap.1) c = [] := by
  induction snapshot generalizing c with
  | nil =>
    cases c with
    | nil => rfl
    | cons e rest => exact absurd (h e (List.mem_cons_self _ _)) (by simp)
  | cons d rest ih =>
    rw [List.foldl_cons]
    apply ih
    intro e he
    unfold deleteDoc at he
    rw [List.mem_filter] at he
    have h1 := h e he.1
    rw [List.map_cons, List.mem_cons] at h1
    rcases h1 with h1 | h1
    · exact absurd h1 (by simpa using he.2)
    · exact h1

/-- C27. `resetTournament` leaves no match record, sets `tournament/current` to the record
with status "reset" and `currentRound` null, and leaves the `teams` and `users` collections,
and every other document of `tournament`, as they were. -/
theorem resetTournament_frame (db : Db) (now : String) :
    (resetTournament db now).matches_ = [] ∧
    (∀ id, getDoc (resetTournament db now).matches_ id = none) ∧
    getDoc (resetTournament db now).tournament "current" =
      some ⟨"reset", none, none, none, some now⟩ ∧
    (∀ id, id ≠ "current" →
      getDoc (resetTournament db now).tournament id = getDoc db.tournament id) ∧
    (resetTournament db now).teams = db.teams ∧
    (resetTournament db now).users = db.users := by
  have hm : (resetTournament db now).matches_ = [] :=
    deleteDoc_all db.matches_ db.matches_ (fun e he => List.mem_map_of_mem _ he)
  refine ⟨hm, fun id => by rw [hm]; rfl, ?_, ?_, rfl, rfl⟩
  · simp [resetTournament, getDoc_setDoc]
  · intro id hid
    simp only [resetTournament, getDoc_setDoc]
    rw [if_neg (fun h => hid h.symm)]

end ANLeague

namespace ANLeague

/-! ## The guards of the classes `Match` and `Team` -/

/-- C21. After every `Match.addGoalScorer(player, team, minute)` that does not throw,
whatever the order of the list before the call, `goalScorers` is sorted ascending by minute
and is a rearrangement of the previous list with the new event added; the call does not throw
exactly when the minute is between 1 and 90. -/
theorem addGoalScorer_sorted (m : MatchDoc) (playerName team : String) (minute : Int)
    (h : (m.addGoalScorer playerName team minute).2 = none) :
    1 ≤ minute ∧ minute ≤ 90 ∧
    (m.addGoalScorer playerName team minute).1.goalScorers.Sorted
      (fun a b => a.minute ≤ b.minute) ∧
    List.Perm (m.addGoalScorer playerName team minute).1.goalScorers
      (m.goalScorers ++ [⟨playerName, team, minute.toNat⟩]) ∧
    ((minute.toNat : Int) = minute) := by
  unfold MatchDoc.addGoalScorer at h ⊢
  by_cases hg : minute < 1 ∨ minute > 90
  · rw [if_pos hg] at h
    cases h
  · rw [if_neg hg]
    haveI : IsTotal Scorer (fun a b => a.minute ≤ b.minute) := ⟨fun a b => Nat.le_total _ _⟩
    haveI : IsTrans Scorer (fun a b => a.minute ≤ b.minute) := ⟨fun a b c => Nat.le_trans⟩
    refine ⟨by omega, by omega, List.sorted_insertionSort _ _, List.perm_insertionSort _ _, ?_⟩
    exact Int.toNat_of_nonneg (by omega)

/-- C21 at a match whose list holds minute 80 before minute 10: after a goal in minute 40 is
added the minutes are 10, 40, 80. -/
theorem addGoalScorer_sorted_witness :
    (unsortedMatch.addGoalScorer "Kofi" "Kenya" 40).2 = none ∧
    (unsortedMatch.addGoalScorer "Kofi" "Kenya" 40).1.goalScorers.map (fun s => s.minute) =
      [10, 40, 80] ∧
    (unsortedMatch.addGoalScorer "Kofi" "Kenya" 40).1.goalScorers.Sorted
      (fun a b => a.minute ≤ b.minute) := by
  have h := addGoalScorer_sorted unsortedMatch "Kofi" "Kenya" 40 (by decide)
  exact ⟨by decide, by decide, h.2.2.1⟩

theorem addPlayer_length (t : TeamDoc) (p : Player) (h : t.players.length ≤ 23) :
    (t.addPlayer p).1.players.length ≤ 23 := by
  unfold TeamDoc.addPlayer
  by_cases hfull : t.players.length ≥ 23
  · rw [if_pos hfull]
    exact h
  · rw [if_neg hfull]
    unfold TeamDoc.updateTeamRating
    split_ifs <;> simp only [List.length_append, List.length_singleton] <;> omega

theorem addPlayers_length (players : List Player) (t : TeamDoc) (h : t.players.length ≤ 23) :
    (addPlayers t players).players.length ≤ 23 := by
  unfold addPlayers
  induction players generalizing t with
  | nil => exact h
  | cons p rest ih => exact ih _ (addPlayer_length t p h)

/-- C23. `Match.addGoalScorer` with a minute below 1 or above 90 throws and leaves the match
as it was, `goalScorers` included; `Team.addPlayer` on a squad of 23 players (or more) throws
and leaves the team as it was, `players` and `teamRating` included; and a squad built from
the empty squad of the constructor by `addPlayer` calls never has more than 23 players. -/
theorem guards_reject (m : MatchDoc) (playerName team : String) (minute : Int) (t : TeamDoc)
    (player : Player) (country manager createdBy now : String) (players : List Player) :
    ((minute < 1 ∨ minute > 90) →
      m.addGoalScorer playerName team minute =
        (m, some "Goal minute must be between 1 and 90")) ∧
    (t.players.length ≥ 23 →
      t.addPlayer player = (t, some "Squad is full (max 23 players)")) ∧
    (∀ t0, TeamDoc.create country manager createdBy now = .ok t0 →
      t0.players = [] ∧ (addPlayers t0 players).players.length ≤ 23) := by
  refine ⟨fun h => ?_, fun h => ?_, fun t0 h0 => ?_⟩
  · unfold MatchDoc.addGoalScorer
    rw [if_pos h]
  · unfold TeamDoc.addPlayer
    rw [if_pos h]
  · unfold TeamDoc.create at h0
    split_ifs at h0
    simp only [Except.ok.injEq] at h0
    subst h0
    exact ⟨rfl, addPlayers_length players _ (by simp)⟩

/-- C23 at minute 0 and minute 91 on a match, at a 24th player on a full squad, and at 30
calls of `addPlayer` on the empty squad of a new team. -/
theorem guards_reject_witness :
    unsortedMatch.addGoalScorer "Kofi" "Kenya" 0 =
      (unsortedMatch, some "Goal minute must be between 1 and 90") ∧
    unsortedMatch.addGoalScorer "Kofi" "Kenya" 91 =
      (unsortedMatch, some "Goal minute must be between 1 and 90") ∧
    fullSquad.players.length = 23 ∧
    fullSquad.addPlayer ⟨"Musa", "DF", false, []⟩ =
      (fullSquad, some "Squad is full (max 23 players)") ∧
    (addPlayers ⟨"Kenya", "manager", "admin", 0, [], "now"⟩
      (List.replicate 30 ⟨"Kofi", "AT", false, []⟩)).players.length ≤ 23 :=
  ⟨(guards_reject unsortedMatch "Kofi" "Kenya" 0 fullSquad ⟨"Musa", "DF", false, []⟩ "Kenya"
      "manager" "admin" "now" []).1 (by decide),
   (guards_reject unsortedMatch "Kofi" "Kenya" 91 fullSquad ⟨"Musa", "DF", false, []⟩ "Kenya"
      "manager" "admin" "now" []).1 (by decide),
   by decide!,
   (guards_reject unsortedMatch "Kofi" "Kenya" 0 fullSquad ⟨"Musa", "DF", false, []⟩ "Kenya"
      "manager" "admin" "now" []).2.1 (by decide!),
   ((guards_reject unsortedMatch "Kofi" "Kenya" 0 fullSquad ⟨"Musa", "DF", false, []⟩ "Kenya"
      "manager" "admin" "now" (List.replicate 30 ⟨"Kofi", "AT", false, []⟩)).2.2
      ⟨"Kenya", "manager", "admin", 0, [], "now"⟩ (by decide)).2⟩

end ANLeague

namespace ANLeague

/-! ## The ratings of a player -/

theorem weightedRandom_bounds (pow : ℚ → ℚ → ℚ) (hpow : PowInUnit pow) (min max : Nat)
    (hmm : min ≤ max) (weight : ℚ) (hw : 0 < weight) (u : Draw) :
    min ≤ weightedRandom pow min max weight u ∧ weightedRandom pow min max weight u ≤ max := by
  obtain ⟨h0, h1⟩ := hpow u.val weight u.nonneg u.lt_one hw
  unfold weightedRandom
  have hpos : (0 : ℚ) < ((max : ℚ) - min) + 1 := by
    have : (min : ℚ) ≤ max := by exact_mod_cast hmm
    linarith
  have hf0 : 0 ≤ Int.floor (pow u.val weight * (((max : ℚ) - min) + 1)) :=
    Int.floor_nonneg.mpr (mul_nonneg h0 hpos.le)
  have hf1 : Int.floor (pow u.val weight * (((max : ℚ) - min) + 1)) < (max : Int) - min + 1 := by
    rw [Int.floor_lt]
    push_cast
    nlinarith
  constructor
  · omega
  · omega

/-- C26. Every player built by the constructor has exactly four ratings, under the keys GK,
DF, MD and AT in this order, all natural numbers; for every stream of draws the rating under
the player's own position is in `[50, 100]` and each other rating is in `[0, 50]`, so every
rating is at most 100. `Math.pow` is a parameter of which the theorem asks that it maps
`[0, 1)` into `[0, 1)` for a positive exponent, as the power of real numbers does. -/
theorem create_ratings (pow : ℚ → ℚ → ℚ) (hpow : PowInUnit pow) (name position : String)
    (isCaptain : Bool) (rng : Rng) :
    (Player.create pow name position isCaptain rng).1.name = name ∧
    (Player.create pow name position isCaptain rng).1.position = position ∧
    (Player.create pow name position isCaptain rng).1.ratings.map Prod.fst =
      ["GK", "DF", "MD", "AT"] ∧
    ∀ e ∈ (Player.create pow name position isCaptain rng).1.ratings,
      (e.1 = position → 50 ≤ e.2 ∧ e.2 ≤ 100) ∧ (e.1 ≠ position → e.2 ≤ 50) ∧ e.2 ≤ 100 := by
  refine ⟨rfl, rfl, rfl, ?_⟩
  have key : ∀ pos u, (pos = position → 50 ≤ ratingFor pow position pos u ∧
      ratingFor pow position pos u ≤ 100) ∧ (pos ≠ position → ratingFor pow position pos u ≤ 50) ∧
      ratingFor pow position pos u ≤ 100 := by
    intro pos u
    obtain ⟨a1, a2⟩ := weightedRandom_bounds pow hpow 50 100 (by norm_num) (4 / 5) (by norm_num) u
    obtain ⟨-, b2⟩ := weightedRandom_bounds pow hpow 0 50 (by norm_num) 2 (by norm_num) u
    unfold ratingFor
    by_cases hp : pos = position
    · rw [if_pos hp]
      exact ⟨fun _ => ⟨a1, a2⟩, fun h => absurd hp h, a2⟩
    · rw [if_neg hp]
      exact ⟨fun h => absurd h hp, fun _ => b2, by omega⟩
  intro e he
  simp only [Player.create, generateRatings, List.mem_cons, List.mem_singleton,
    List.not_mem_nil, or_false] at he
  rcases he with rfl | rfl | rfl | rfl <;> exact key _ _

/-- C26 with the identity in the place of the power, at a defender and draws of `0.5`. -/
theorem create_ratings_witness :
    PowInUnit powId ∧
    (Player.create powId "Kofi Mensah" "DF" false allHalf).1.ratings =
      [("GK", 25), ("DF", 75), ("MD", 25), ("AT", 25)] ∧
    ∀ e ∈ (Player.create powId "Kofi Mensah" "DF" false allHalf).1.ratings,
      (e.1 = "DF" → 50 ≤ e.2 ∧ e.2 ≤ 100) ∧ (e.1 ≠ "DF" → e.2 ≤ 50) ∧ e.2 ≤ 100 :=
  ⟨fun _ _ h0 h1 _ => ⟨h0, h1⟩, by decide!,
   (create_ratings powId (fun _ _ h0 h1 _ => ⟨h0, h1⟩) "Kofi Mensah" "DF" false allHalf).2.2.2⟩

end ANLeague

namespace ANLeague

/-! ## The rating and the squad of a team -/

theorem rpow_in_unit (x w : ℝ) (h0 : 0 ≤ x) (h1 : x < 1) (hw : 0 < w) :
    0 ≤ x ^ w ∧ x ^ w < 1 :=
  ⟨Real.rpow_nonneg h0 w, Real.rpow_lt_one h0 h1 hw⟩

theorem jsRound_quarter (s : Nat) : jsRound ((s : ℚ) / 4) = ((s + 2) / 4 : Nat) := by
  unfold jsRound
  have h1 := Nat.div_add_mod (s + 2) 4
  have h2 := Nat.mod_lt (s + 2) (show 4 > 0 by norm_num)
  generalize (s + 2) / 4 = q at h1 ⊢
  generalize (s + 2) % 4 = r at h1 h2
  have e : ((s : ℚ) + 2) = 4 * (q : ℚ) + (r : ℚ) := by exact_mod_cast h1.symm
  have h3 : (r : ℚ) < 4 := by exact_mod_cast h2
  have h4 : (0 : ℚ) ≤ (r : ℚ) := Nat.cast_nonneg _
  rw [Int.floor_eq_iff, Int.cast_natCast]
  constructor <;> linarith

theorem getOverallRating_nonneg (p : Player) : 0 ≤ p.getOverallRating := by
  unfold Player.getOverallRating
  rw [jsRound_quarter]
  exact Int.natCast_nonneg _

theorem jsRound_between (x : ℚ) (lo hi : Int) (h1 : (lo : ℚ) ≤ x) (h2 : x ≤ hi) :
    lo ≤ jsRound x ∧ jsRound x ≤ hi := by
  unfold jsRound
  constructor
  · rw [Int.le_floor]
    linarith
  · have : Int.floor (x + 1 / 2) < hi + 1 := by
      rw [Int.floor_lt]
      push_cast
      linarith
    omega

theorem sum_between (xs : List Int) (lo hi : Int) (h : ∀ x ∈ xs, lo ≤ x ∧ x ≤ hi) :
    lo * xs.length ≤ xs.sum ∧ xs.sum ≤ hi * xs.length := by
  induction xs with
  | nil => simp
  | cons x rest ih =>
    obtain ⟨a, b⟩ := ih (fun y hy => h y (List.mem_cons_of_mem _ hy))
    obtain ⟨c, d⟩ := h x (List.mem_cons_self _ _)
    simp only [List.sum_cons, List.length_cons, Nat.cast_add, Nat.cast_one]
    constructor <;> nlinarith

theorem squadRating_between (players : List Player) (hne : players ≠ []) (lo hi : Int)
    (h : ∀ p ∈ players, lo ≤ p.getOverallRating ∧ p.getOverallRating ≤ hi) :
    lo ≤ squadRating players ∧ squadRating players ≤ hi := by
  unfold squadRating
  rw [if_neg hne]
  have hlen : (0 : ℚ) < (players.length : ℚ) := by
    exact_mod_cast List.length_pos.mpr hne
  obtain ⟨a, b⟩ := sum_between (players.map Player.getOverallRating) lo hi (by
    intro x hx
    obtain ⟨p, hp, rfl⟩ := List.mem_map.mp hx
    exact h p hp)
  rw [List.length_map] at a b
  apply jsRound_between
  · rw [le_div_iff₀ hlen]
    exact_mod_cast a
  · rw [div_le_iff₀ hlen]
    exact_mod_cast b

theorem getOverallRating_bounds (p : Player) (h4 : p.ratings.length = 4)
    (h : ∀ e ∈ p.ratings, e.2 ≤ 100) : 0 ≤ p.getOverallRating ∧ p.getOverallRating ≤ 100 := by
  unfold Player.getOverallRating
  rw [jsRound_quarter]
  have hsum : (p.ratings.map Prod.snd).sum ≤ 400 := by
    have := List.sum_le_card_nsmul (p.ratings.map Prod.snd) 100 (by
      intro x hx
      obtain ⟨e, he, rfl⟩ := List.mem_map.mp hx
      exact h e he)
    rw [List.length_map, h4] at this
    simpa using this
  constructor
  · exact Int.natCast_nonneg _
  · have : ((p.ratings.map Prod.snd).sum + 2) / 4 ≤ 100 := by omega
    exact_mod_cast this

theorem updateTeamRating_eq (t : TeamDoc) :
    t.updateTeamRating.players = t.players ∧
    (t.updateTeamRating.teamRating : Int) = squadRating t.players := by
  unfold TeamDoc.updateTeamRating squadRating
  by_cases h0 : t.players.length = 0
  · rw [if_pos h0, if_pos (List.length_eq_zero.mp h0)]
    exact ⟨rfl, rfl⟩
  · have hne : t.players ≠ [] := fun h => h0 (by rw [h]; rfl)
    rw [if_neg h0, if_neg hne]
    refine ⟨rfl, ?_⟩
    simp only []
    apply Int.toNat_of_nonneg
    have hsum : (0 : Int) ≤ (t.players.map Player.getOverallRating).sum := by
      apply List.sum_nonneg
      intro x hx
      obtain ⟨p, -, rfl⟩ := List.mem_map.mp hx
      exact getOverallRating_nonneg p
    unfold jsRound
    apply Int.floor_nonneg.mpr
    have : (0 : ℚ) ≤ (((t.players.map Player.getOverallRating).sum : Int) : ℚ) /
        (t.players.length : ℚ) := div_nonneg (by exact_mod_cast hsum) (Nat.cast_nonneg _)
    linarith

theorem generatePlayerName_ne (rng : Rng) : (generatePlayerName rng).1 ≠ "" := by
  intro h
  have := congrArg String.length h
  simp only [generatePlayerName, String.length_append] at this
  have h1 : (" " : String).length = 1 := by decide
  have h0 : ("" : String).length = 0 := by decide
  rw [h1, h0] at this
  omega

theorem freshName_spec (usedNames : List String) (fuel : Nat) (name : String) (rng : Rng)
    (n : String) (rng1 : Rng) (h : freshName usedNames fuel name rng = some (n, rng1))
    (hname : name ≠ "") : n ∉ usedNames ∧ n ≠ "" := by
  induction fuel generalizing name rng with
  | zero =>
    unfold freshName at h
    split_ifs at h with hin
    simp only [Option.some.injEq, Prod.mk.injEq] at h
    obtain ⟨rfl, -⟩ := h
    exact ⟨hin, hname⟩
  | succ fuel ih =>
    unfold freshName at h
    split_ifs at h with hin
    · exact ih _ _ h (generatePlayerName_ne rng)
    · simp only [Option.some.injEq, Prod.mk.injEq] at h
      obtain ⟨rfl, -⟩ := h
      exact ⟨hin, hname⟩

theorem position_mem (u : Draw) :
    ["GK", "DF", "MD", "AT"].getD (floorMul u 4) "undefined" ∈ ["GK", "DF", "MD", "AT"] := by
  have hlt := floorMul_lt u 4 (by norm_num)
  generalize floorMul u 4 = k at hlt
  interval_cases k <;> simp

theorem create_isValid (pow : ℚ → ℚ → ℚ) (name position : String) (rng : Rng)
    (hname : name ≠ "") (hpos : position ∈ ["GK", "DF", "MD", "AT"]) :
    (Player.create pow name position false rng).1.isValid = true := by
  have hpos2 : position ≠ "" := by
    rintro rfl
    revert hpos
    decide
  simp [Player.isValid, Player.create, generateRatings, hname, hpos2]
  simpa using hpos

theorem squadLoop_spec (pow : ℚ → ℚ → ℚ) (fuel n : Nat) (players : List Player)
    (usedNames : List String) (rng : Rng) (ps : List Player) (rng1 : Rng)
    (h : squadLoop pow fuel n players usedNames rng = some (ps, rng1))
    (hused : usedNames = players.map (fun p => p.name)) (hnd : usedNames.Nodup)
    (hall : ∀ p ∈ players, p.isCaptain = false ∧ p.isValid = true) :
    ps.length = players.length + n ∧ (ps.map (fun p => p.name)).Nodup ∧
    ∀ p ∈ ps, p.isCaptain = false ∧ p.isValid = true := by
  induction n generalizing players usedNames rng with
  | zero =>
    simp only [squadLoop, Option.some.injEq, Prod.mk.injEq] at h
    obtain ⟨rfl, -⟩ := h
    exact ⟨rfl, hused ▸ hnd, hall⟩
  | succ n ih =>
    unfold squadLoop at h
    simp only [] at h
    cases hf : freshName usedNames fuel (generatePlayerName (rng.drop 1)).1
        (generatePlayerName (rng.drop 1)).2 with
    | none => rw [hf] at h; cases h
    | some pr =>
      obtain ⟨name, rng2⟩ := pr
      rw [hf] at h
      simp only [] at h
      obtain ⟨hnew, hne⟩ := freshName_spec _ _ _ _ _ _ hf (generatePlayerName_ne _)
      obtain ⟨a, b, c⟩ := ih _ _ _ h
        (by rw [hused, List.map_append]; rfl)
        (by
          rw [List.nodup_append]
          refine ⟨hnd, List.nodup_singleton _, ?_⟩
          intro x hx hx2
          rw [List.mem_singleton] at hx2
          subst hx2
          exact hnew hx)
        (by
          intro p hp
          rcases List.mem_append.mp hp with hp | hp
          · exact hall p hp
          · rw [List.mem_singleton] at hp
            subst hp
            exact ⟨rfl, create_isValid pow name _ rng2 hne (position_mem _)⟩)
      refine ⟨?_, b, c⟩
      rw [a, List.length_append, List.length_singleton]
      omega

theorem set_split {α : Type} (l : List α) (i : Nat) (c x : α) (h : l.get? i = some c) :
    ∃ a b, l = a ++ c :: b ∧ l.set i x = a ++ x :: b := by
  rw [List.get?_eq_some] at h
  obtain ⟨hi, hc⟩ := h
  refine ⟨l.take i, l.drop (i + 1), ?_, List.set_eq_take_cons_drop x hi⟩
  have h1 := List.take_append_drop i l
  rw [List.drop_eq_getElem_cons hi] at h1
  rw [← hc]
  exact h1.symm

theorem generateSquad_spec (pow : ℚ → ℚ → ℚ) (fuel : Nat) (t : TeamDoc) (rng : Rng)
    (r : Except String TeamDoc) (h : t.generateSquad pow fuel rng = some r) :
    ∃ (a b : List Player) (c : Player), r = .ok ({ t with
        players := a ++ { c with isCaptain := true } :: b }).updateTeamRating ∧
      (a ++ c :: b).length = 23 ∧ ((a ++ c :: b).map (fun p => p.name)).Nodup ∧
      ∀ p ∈ a ++ c :: b, p.isCaptain = false ∧ p.isValid = true := by
  unfold TeamDoc.generateSquad at h
  cases hl : squadLoop pow fuel 23 [] [] rng with
  | none => rw [hl] at h; cases h
  | some pr =>
    obtain ⟨ps, rng1⟩ := pr
    rw [hl] at h
    simp only [] at h
    obtain ⟨hlen, hnd, hall⟩ := squadLoop_spec pow fuel 23 [] [] rng ps rng1 hl rfl
      List.nodup_nil (fun p hp => absurd hp (List.not_mem_nil p))
    simp only [List.length_nil, Nat.zero_add] at hlen
    have hi : floorMul (rng1 0) 23 < ps.length := by
      rw [hlen]
      exact floorMul_lt _ 23 (by norm_num)
    obtain ⟨c, hget⟩ : ∃ c : Player, ps.get? (floorMul (rng1 0) 23) = some c :=
      ⟨_, List.get?_eq_get hi⟩
    rw [hget] at h
    simp only [Option.some.injEq] at h
    obtain ⟨a, b, hsplit, hset⟩ := set_split ps _ c { c with isCaptain := true } hget
    rw [hset] at h
    refine ⟨a, b, c, h.symm, ?_, ?_, ?_⟩
    · rw [← hsplit]; exact hlen
    · rw [← hsplit]; exact hnd
    · rw [← hsplit]; exact hall

/-- C25. Whenever `Team.generateSquad` returns, whatever players the team held before, it has
not thrown, the squad has exactly 23 players with pairwise distinct names, exactly one of
them has `isCaptain = true`, and `isValidSquad()` is true. The statement holds for every
bound on the name loop and every stand-in for `Math.pow`. -/
theorem generateSquad_valid (pow : ℚ → ℚ → ℚ) (fuel : Nat) (t : TeamDoc) (rng : Rng)
    (r : Except String TeamDoc) (h : t.generateSquad pow fuel rng = some r) :
    ∃ t1, r = .ok t1 ∧ t1.players.length = 23 ∧
      (t1.players.map (fun p => p.name)).Nodup ∧
      (t1.players.filter (fun p => p.isCaptain)).length = 1 ∧
      t1.isValidSquad = true := by
  obtain ⟨a, b, c, hr, hlen, hnd, hall⟩ := generateSquad_spec pow fuel t rng r h
  refine ⟨_, hr, ?_⟩
  rw [(updateTeamRating_eq _).1]
  have ha : ∀ p ∈ a, p.isCaptain = false ∧ p.isValid = true :=
    fun p hp => hall p (List.mem_append_left _ hp)
  have hb : ∀ p ∈ b, p.isCaptain = false ∧ p.isValid = true :=
    fun p hp => hall p (List.mem_append_right _ (List.mem_cons_of_mem _ hp))
  have hc : c.isValid = true := (hall c (List.mem_append_right _ (List.mem_cons_self _ _))).2
  have hfa : a.filter (fun p => p.isCaptain) = [] :=
    List.filter_eq_nil_iff.mpr (fun p hp => by simp [(ha p hp).1])
  have hfb : b.filter (fun p => p.isCaptain) = [] :=
    List.filter_eq_nil_iff.mpr (fun p hp => by simp [(hb p hp).1])
  have hlen2 : (a ++ { c with isCaptain := true } :: b).length = 23 := by
    simpa using hlen
  refine ⟨hlen2, ?_, ?_, ?_⟩
  · simpa using hnd
  · show ((a ++ { c with isCaptain := true } :: b).filter (fun p => p.isCaptain)).length = 1
    rw [List.filter_append, hfa, List.filter_cons_of_pos (by rfl), hfb]
    rfl
  · unfold TeamDoc.isValidSquad
    rw [(updateTeamRating_eq _).1]
    show (decide ((a ++ { c with isCaptain := true } :: b).length = 23) &&
      (a ++ { c with isCaptain := true } :: b).any (fun p => p.isCaptain) &&
      (a ++ { c with isCaptain := true } :: b).all (fun p => p.isValid)) = true
    have hcv : ({ c with isCaptain := true } : Player).isValid = true := hc
    simp only [hlen2, decide_True, Bool.true_and, Bool.and_eq_true, List.any_eq_true,
      List.all_eq_true]
    refine ⟨⟨_, List.mem_append_right _ (List.mem_cons_self _ _), rfl⟩, ?_⟩
    intro p hp
    rcases List.mem_append.mp hp with hp | hp
    · exact (ha p hp).2
    · rcases List.mem_cons.mp hp with rfl | hp
      · exact hcv
      · exact (hb p hp).2

/-- C25 at the stream `namesApart`, under which the call returns: the squad is `sampleSquad`. -/
theorem generateSquad_valid_witness :
    TeamDoc.generateSquad powId 0 ⟨"Kenya", "manager", "admin", 0, [], "now"⟩ namesApart =
      some (.ok sampleSquad) ∧
    ∃ t1, Except.ok sampleSquad = Except.ok (ε := String) t1 ∧ t1.players.length = 23 ∧
      (t1.players.map (fun p => p.name)).Nodup ∧
      (t1.players.filter (fun p => p.isCaptain)).length = 1 ∧
      t1.isValidSquad = true :=
  ⟨by decide!,
   generateSquad_valid powId 0 ⟨"Kenya", "manager", "admin", 0, [], "now"⟩ namesApart
     (.ok sampleSquad) (by decide!)⟩

/-- C24. After every `Team.addPlayer` that does not throw and after `Team.generateSquad` the
cached `teamRating` is the rating of the squad in the words of the specification: the rounded
mean of the overall ratings of the players, 0 for an empty squad. The overall rating of a
player is the sum of the ratings divided by 4 and rounded, halves up: `(sum + 2) / 4` in
whole numbers. When every player has four ratings of at most 100 the rating of a non-empty
squad is between 0 and 100, and it lies between any two bounds of the overall ratings of its
players, the smallest and the largest among them. -/
theorem teamRating_cached (t : TeamDoc) (p : Player) (pow : ℚ → ℚ → ℚ) (fuel : Nat)
    (rng : Rng) (players : List Player) (lo hi : Int) :
    (t.players.length < 23 →
      (t.addPlayer p).2 = none ∧ (t.addPlayer p).1.players = t.players ++ [p] ∧
      ((t.addPlayer p).1.teamRating : Int) = squadRating (t.players ++ [p])) ∧
    (∀ t1, t.generateSquad pow fuel rng = some (.ok t1) →
      (t1.teamRating : Int) = squadRating t1.players) ∧
    squadRating [] = 0 ∧
    (players ≠ [] → squadRating players =
      jsRound ((((players.map Player.getOverallRating).sum : Int) : ℚ) / (players.length : ℚ))) ∧
    p.getOverallRating = jsRound ((((p.ratings.map Prod.snd).sum : Nat) : ℚ) / 4) ∧
    p.getOverallRating = ((((p.ratings.map Prod.snd).sum + 2) / 4 : Nat) : Int) ∧
    (players ≠ [] → (∀ q ∈ players, q.ratings.length = 4 ∧ ∀ e ∈ q.ratings, e.2 ≤ 100) →
      0 ≤ squadRating players ∧ squadRating players ≤ 100) ∧
    (players ≠ [] → (∀ q ∈ players, lo ≤ q.getOverallRating ∧ q.getOverallRating ≤ hi) →
      lo ≤ squadRating players ∧ squadRating players ≤ hi) := by
  refine ⟨fun hlt => ?_, fun t1 h1 => ?_, rfl, fun hne => ?_, rfl, ?_, fun hne h100 => ?_,
    fun hne hb => squadRating_between players hne lo hi hb⟩
  · unfold TeamDoc.addPlayer
    rw [if_neg (by omega)]
    exact ⟨rfl, (updateTeamRating_eq _).1, (updateTeamRating_eq _).2⟩
  · obtain ⟨a, b, c, hr, -⟩ := generateSquad_spec pow fuel t rng _ h1
    simp only [Except.ok.injEq] at hr
    rw [hr, (updateTeamRating_eq _).2, (updateTeamRating_eq _).1]
  · unfold squadRating
    rw [if_neg hne]
  · unfold Player.getOverallRating
    exact jsRound_quarter _
  · exact squadRating_between players hne 0 100
      (fun q hq => getOverallRating_bounds q (h100 q hq).1 (h100 q hq).2)

/-- C24 at the squad `sampleSquad`: its cached rating is 30, the rating of its 23 players,
whose overall ratings run from 13 to 48. -/
theorem teamRating_cached_witness :
    sampleSquad.teamRating = 30 ∧ (sampleSquad.teamRating : Int) = squadRating sampleSquad.players ∧
    (13 ≤ squadRating sampleSquad.players ∧ squadRating sampleSquad.players ≤ 48) ∧
    ((addPlayers ⟨"Kenya", "manager", "admin", 0, [], "now"⟩
      [⟨"Kofi", "AT", false, [("GK", 10), ("DF", 20), ("MD", 31), ("AT", 90)]⟩]).teamRating
        = 38) := by
  have h := teamRating_cached ⟨"Kenya", "manager", "admin", 0, [], "now"⟩
    ⟨"Kofi", "AT", false, [("GK", 10), ("DF", 20), ("MD", 31), ("AT", 90)]⟩ powId 0 namesApart
    sampleSquad.players 13 48
  exact ⟨by decide!, h.2.1 sampleSquad (by decide!),
    h.2.2.2.2.2.2.2 (by decide!) (by decide!), by decide!⟩

theorem drop_allHalf (k : Nat) : allHalf.drop k = allHalf := rfl

theorem freshName_stuck (usedNames : List String) (fuel : Nat)
    (h : (generatePlayerName allHalf).1 ∈ usedNames) :
    freshName usedNames fuel (generatePlayerName allHalf).1 allHalf = none := by
  induction fuel with
  | zero => unfold freshName; rw [if_pos h]
  | succ fuel ih =>
    unfold freshName
    rw [if_pos h]
    exact ih

/-- The name loop of `generateSquad` need not end: when every draw is `0.5` the second player
draws the name of the first one again and again, and no bound on the loop is enough. -/
theorem generateSquad_may_loop (pow : ℚ → ℚ → ℚ) (fuel : Nat) (t : TeamDoc) :
    t.generateSquad pow fuel allHalf = none := by
  have h1 : freshName [] fuel (generatePlayerName allHalf).1 allHalf =
      some ((generatePlayerName allHalf).1, allHalf) := by
    cases fuel <;> simp [freshName]
  have h2 := freshName_stuck [(generatePlayerName allHalf).1] fuel (List.mem_singleton.mpr rfl)
  have hloop : squadLoop pow fuel 23 [] [] allHalf = none := by
    show squadLoop pow fuel (21 + 1 + 1) [] [] allHalf = none
    rw [squadLoop]
    simp only [drop_allHalf]
    have e2 : (generatePlayerName allHalf).2 = allHalf := rfl
    rw [e2, h1]
    simp only []
    rw [squadLoop]
    simp only [Player.create, drop_allHalf, List.nil_append]
    rw [e2, h2]
  unfold TeamDoc.generateSquad
  rw [hloop]

end ANLeague

namespace ANLeague

/-! ## The sanitiser of text inputs -/

/-- C28. The input `javajavascript:script:alert(1)` holds the text `javascript:` once, inside
the word that it splits; `sanitizeString` removes that occurrence in its single pass, the two
parts close up, and the output is `javascript:alert(1)`, which holds the text. The input
`javaonx=script:alert(1)` holds no `javascript:` at all, and the removal of the event handler
`onx=`, which comes after the removal of `javascript:`, gives the same output. -/
theorem sanitizeString_javascript_left :
    sanitizeString "javajavascript:script:alert(1)" = "javascript:alert(1)" ∧
    sanitizeString "javaonx=script:alert(1)" = "javascript:alert(1)" :=
  ⟨by decide, by decide⟩

end ANLeague

namespace ANLeague

/-! ## The run of a whole tournament -/

theorem fresh_not_completed (teams : List Team) (db0 : Db) (h0 : FreshBracketOf teams db0)
    (k : String) : isCompleted (getDoc db0.matches_ k) = false := by
  obtain ⟨s0, s1, s2, s3, s4, s5, s6, s7, -, hdocs⟩ := fresh_docs teams db0 h0
  rw [hdocs]
  cases hg : getDoc (bracketDocs s0 s1 s2 s3 s4 s5 s6 s7) k with
  | none => rfl
  | some m =>
    rcases bracketDocs_cases s0 s1 s2 s3 s4 s5 s6 s7 k m hg with
      ⟨-, rfl⟩ | ⟨-, rfl⟩ | ⟨-, rfl⟩ | ⟨-, rfl⟩ | ⟨-, rfl⟩ | ⟨-, rfl⟩ | ⟨-, rfl⟩ <;>
    simp [isCompleted, quarterFinal, lockedMatch]

theorem stage_start (teams : List Team) (db0 : Db) (h0 : FreshBracketOf teams db0) :
    Stage db0 db0 [] := by
  refine ⟨Reachable.start, ?_, fun k => ?_⟩
  · intro id e he hc
    have := fresh_not_completed teams db0 h0 id
    rw [he] at this
    simp [isCompleted, hc] at this
  · rw [fresh_not_completed teams db0 h0 k]
    simp

theorem winner_inv_step (db : Db) (hW : Wired db) (hL : LockInv db) (hWin : WinnerInv db)
    (id : String) (rng : Rng) (now : String) (r : SimResult)
    (h : (simulateMatch db id rng now).2 = .returned r) :
    WinnerInv (simulateMatch db id rng now).1 := by
  obtain ⟨hm, hp, hnone, hsome⟩ := step_view db hW id rng now r h
  obtain ⟨-, -, -, -, -, hres⟩ := simulateMatch_returned db id rng now r h
  have hown : ∃ w, (completeMatch r.score1 r.score2 r.scorers r.winner r.penaltyShootout now
      r.match_).winner = some w ∧
      (w.slot = (completeMatch r.score1 r.score2 r.scorers r.winner r.penaltyShootout now
        r.match_).team1 ∨
       w.slot = (completeMatch r.score1 r.score2 r.scorers r.winner r.penaltyShootout now
        r.match_).team2) :=
    ⟨r.winner, rfl, winner_slot r.match_ r.score1 r.score2 r.winner r.penaltyShootout hres⟩
  intro k e he hc
  cases hnm : r.match_.nextMatch with
  | none =>
    rw [hnone hnm k] at he
    by_cases hk : k = id
    · rw [if_pos hk] at he
      simp only [Option.some.injEq] at he
      subst he
      exact hown
    · rw [if_neg hk] at he
      exact hWin k e he hc
  | some n =>
    obtain ⟨nm, a, b, hnid, hgn, hdeps, hab, hid, hdocs⟩ := hsome n hnm
    rw [hdocs k] at he
    by_cases hk : k = id
    · rw [if_pos hk] at he
      simp only [Option.some.injEq] at he
      subst he
      exact hown
    · rw [if_neg hk] at he
      by_cases hkn : k = n
      · rw [if_pos hkn] at he
        simp only [Option.some.injEq] at he
        subst he
        exfalso
        have hlocked := next_locked db hL id r.match_ nm n a b hm hp hgn hdeps hid
        obtain ⟨hst, -⟩ := progress_in_bracket db id r now nm a b hm hdeps hab hid
        rw [hst] at hc
        split_ifs at hc
        · exact absurd hc (by decide)
        · rw [hlocked] at hc
          exact absurd hc (by decide)
      · rw [if_neg hkn] at he
        exact hWin k e he hc

theorem stage_step (teams : List Team) (db0 db : Db) (h0 : FreshBracketOf teams db0)
    (hsq : ∀ t, t ∈ teams → t.players ≠ []) (done : List String) (hS : Stage db0 db done)
    (id : String) (hid : id ∉ done) (d : MatchDoc) (hd : getDoc db0.matches_ id = some d)
    (hdeps : d.dependsOn = none ∨ ∃ a b, d.dependsOn = some [a, b] ∧ a ∈ done ∧ b ∈ done)
    (rng : Rng) (now : String) :
    (∃ r, (simulateMatch db id rng now).2 = .returned r) ∧
    Stage db0 (simulateMatch db id rng now).1 (id :: done) := by
  obtain ⟨hR, hWin, hcomp⟩ := hS
  have hI := inv_reachable _ db0 db (fresh_inv teams db0 h0) hR
  obtain ⟨hW, hL, hSt, hSl⟩ := hI
  obtain ⟨m, hm, -, hmdeps⟩ := reachable_keeps_wiring db0 db hR id d hd
  have hnc : m.status ≠ "completed" := by
    intro hc
    have := hcomp id
    rw [hm] at this
    simp [isCompleted, hc, hid] at this
  have hslots : m.status ≠ "locked" ∧ (∃ t, t ∈ teams ∧ m.team1 = t.slot) ∧
      (∃ t, t ∈ teams ∧ m.team2 = t.slot) := by
    rcases hdeps with hnone | ⟨a, b, hab, ha, hb⟩
    · rw [← hmdeps] at hnone
      exact ⟨(hSt id m hm).2 hnone, hSl.1 id m hm hnone⟩
    · rw [← hmdeps] at hab
      have hca : isCompleted (getDoc db.matches_ a) = true := by rw [hcomp a]; simpa using ha
      have hcb : isCompleted (getDoc db.matches_ b) = true := by rw [hcomp b]; simpa using hb
      refine ⟨fun hl => ((hL id m a b hm hab).mp hl) ⟨hca, hcb⟩, ?_, ?_⟩
      · exact (hSl.2 id m a b hm hab).1 hca
      · exact (hSl.2 id m a b hm hab).2 hcb
  obtain ⟨hnl, ⟨t1, ht1, hs1⟩, ⟨t2, ht2, hs2⟩⟩ := hslots
  have hp : m.status = "pending" := by
    rcases (hSt id m hm).1 with h | h | h
    · exact absurd h hnl
    · exact h
    · exact absurd h hnc
  have hp1 : m.team1.players ≠ [] := by rw [hs1]; exact hsq t1 ht1
  have hp2 : m.team2.players ≠ [] := by rw [hs2]; exact hsq t2 ht2
  have hret : ∃ r, (simulateMatch db id rng now).2 = .returned r := by
    rcases simulateMatch_pending db id rng now m hm hp with ⟨e, -, -, hempty⟩ | ⟨r, hr, -⟩
    · rcases hempty with h | h
      · exact absurd h hp1
      · exact absurd h hp2
    · exact ⟨r, by rw [hr]⟩
  obtain ⟨r, hr⟩ := hret
  refine ⟨⟨r, hr⟩, Reachable.call db id rng now hR,
    winner_inv_step db hW hL hWin id rng now r hr, fun k => ?_⟩
  rw [step_completed db hW hL id rng now r hr k, hcomp k]
  by_cases hk : k = id <;> simp [hk]

theorem simulateList_spec (teams : List Team) (db0 : Db) (h0 : FreshBracketOf teams db0)
    (hsq : ∀ t, t ∈ teams → t.players ≠ []) (rng : Nat → Rng) (now : Nat → String)
    (sched : List String) (done : List String) (i : Nat) (db : Db) (hS : Stage db0 db done)
    (hplay : Playable db0 done sched) :
    (simulateList rng now sched i db).2.length = sched.length ∧
    (∀ o ∈ (simulateList rng now sched i db).2, o.isReturned = true) ∧
    Stage db0 (simulateList rng now sched i db).1 (sched.reverse ++ done) := by
  induction sched generalizing done i db with
  | nil => exact ⟨rfl, fun o ho => absurd ho (List.not_mem_nil o), hS⟩
  | cons id rest ih =>
    obtain ⟨hid, ⟨d, hd, hdeps⟩, hrest⟩ := hplay
    obtain ⟨⟨r, hr⟩, hS1⟩ := stage_step teams db0 db h0 hsq done hS id hid d hd hdeps
      (rng i) (now i)
    obtain ⟨a, b, c⟩ := ih (id :: done) (i + 1) _ hS1 hrest
    unfold simulateList
    rw [hr]
    simp only []
    refine ⟨by rw [List.length_cons, a, List.length_cons], ?_, ?_⟩
    · intro o ho
      rcases List.mem_cons.mp ho with rfl | ho
      · rfl
      · exact b o ho
    · rw [List.reverse_cons, List.append_assoc]
      exact c

theorem fresh_playable (teams : List Team) (db0 : Db) (h0 : FreshBracketOf teams db0) :
    Playable db0 [] ["QF1", "QF2", "QF3", "QF4", "SF1", "SF2", "FINAL"] := by
  obtain ⟨s0, s1, s2, s3, s4, s5, s6, s7, -, hdocs⟩ := fresh_docs teams db0 h0
  obtain ⟨g1, g2, g3, g4, g5, g6, g7⟩ := bracketDocs_get s0 s1 s2 s3 s4 s5 s6 s7
  refine ⟨by decide, ⟨_, (hdocs _).trans g1, Or.inl rfl⟩,
    by decide, ⟨_, (hdocs _).trans g2, Or.inl rfl⟩,
    by decide, ⟨_, (hdocs _).trans g3, Or.inl rfl⟩,
    by decide, ⟨_, (hdocs _).trans g4, Or.inl rfl⟩,
    by decide, ⟨_, (hdocs _).trans g5, Or.inr ⟨"QF1", "QF2", rfl, by decide, by decide⟩⟩,
    by decide, ⟨_, (hdocs _).trans g6, Or.inr ⟨"QF3", "QF4", rfl, by decide, by decide⟩⟩,
    by decide, ⟨_, (hdocs _).trans g7, Or.inr ⟨"SF1", "SF2", rfl, by decide, by decide⟩⟩,
    trivial⟩

/-- C29. On a bracket freshly generated from teams that all have a non-empty squad, the seven
calls of `simulateAllMatches` (QF1, QF2, QF3, QF4, SF1, SF2, FINAL in this order) all return
a result, for every choice of the draws and clocks of the calls; afterwards each of the seven
matches is stored with status "completed" and a winner who is one of its own two teams, and
the winner of the FINAL is one of the teams the bracket was generated from. -/
theorem simulateAllMatches_completes (teams : List Team) (db0 : Db)
    (h0 : FreshBracketOf teams db0) (hsq : ∀ t, t ∈ teams → t.players ≠ [])
    (rng : Nat → Rng) (now : Nat → String) :
    (simulateAllMatches rng now db0).2.length = 7 ∧
    (∀ o ∈ (simulateAllMatches rng now db0).2, o.isReturned = true) ∧
    (∀ id ∈ ["QF1", "QF2", "QF3", "QF4", "SF1", "SF2", "FINAL"],
      ∃ e w, getDoc (simulateAllMatches rng now db0).1.matches_ id = some e ∧
        e.status = "completed" ∧ e.winner = some w ∧
        (w.slot = e.team1 ∨ w.slot = e.team2)) ∧
    (∃ e w t, getDoc (simulateAllMatches rng now db0).1.matches_ "FINAL" = some e ∧
      e.winner = some w ∧ t ∈ teams ∧ w.slot = t.slot) := by
  obtain ⟨hlen, hret, hR, hWin, hcomp⟩ := simulateList_spec teams db0 h0 hsq rng now
    ["QF1", "QF2", "QF3", "QF4", "SF1", "SF2", "FINAL"] [] 0 db0 (stage_start teams db0 h0)
    (fresh_playable teams db0 h0)
  have hdone : ∀ id ∈ ["QF1", "QF2", "QF3", "QF4", "SF1", "SF2", "FINAL"],
      ∃ e w, getDoc (simulateAllMatches rng now db0).1.matches_ id = some e ∧
        e.status = "completed" ∧ e.winner = some w ∧
        (w.slot = e.team1 ∨ w.slot = e.team2) := by
    intro id hid
    have hc := hcomp id
    have hin : id ∈ ["QF1", "QF2", "QF3", "QF4", "SF1", "SF2", "FINAL"].reverse ++ [] := by
      rw [List.append_nil]
      exact List.mem_reverse.mpr hid
    rw [decide_eq_true hin] at hc
    cases hg : getDoc (simulateList rng now ["QF1", "QF2", "QF3", "QF4", "SF1", "SF2", "FINAL"]
        0 db0).1.matches_ id with
    | none => rw [hg] at hc; cases hc
    | some e =>
      rw [hg] at hc
      have hst : e.status = "completed" := by simpa [isCompleted] using hc
      obtain ⟨w, hw, hslot⟩ := hWin id e hg hst
      exact ⟨e, w, hg, hst, hw, hslot⟩
  refine ⟨hlen, hret, hdone, ?_⟩
  obtain ⟨e, w, hg, -, hw, hslot⟩ := hdone "FINAL" (by decide)
  obtain ⟨-, -, -, hSl⟩ := inv_reachable _ db0 _ (fresh_inv teams db0 h0) hR
  obtain ⟨s0, s1, s2, s3, s4, s5, s6, s7, -, hdocs⟩ := fresh_docs teams db0 h0
  obtain ⟨-, -, -, -, -, -, g7⟩ := bracketDocs_get s0 s1 s2 s3 s4 s5 s6 s7
  obtain ⟨e2, he2, -, hdeps⟩ := reachable_keeps_wiring db0 _ hR "FINAL" _ ((hdocs _).trans g7)
  have hee : e2 = e := by
    have hg2 : getDoc (simulateList rng now ["QF1", "QF2", "QF3", "QF4", "SF1", "SF2", "FINAL"]
        0 db0).1.matches_ "FINAL" = some e := hg
    rw [he2] at hg2
    exact Option.some.inj hg2
  subst hee
  have hc1 := hcomp "SF1"
  have hc2 := hcomp "SF2"
  rw [decide_eq_true (by decide)] at hc1 hc2
  obtain ⟨p1, p2⟩ := hSl.2 "FINAL" e2 "SF1" "SF2" he2 hdeps
  rcases hslot with hs | hs
  · obtain ⟨t, ht, hts⟩ := p1 hc1
    exact ⟨e2, w, t, hg, hw, ht, hs.trans hts⟩
  · obtain ⟨t, ht, hts⟩ := p2 hc2
    exact ⟨e2, w, t, hg, hw, ht, hs.trans hts⟩

/-- C29 at the sample bracket, every draw of every call being `0.5`. -/
theorem simulateAllMatches_completes_witness :
    FreshBracketOf sampleTeams sampleDb ∧ (∀ t, t ∈ sampleTeams → t.players ≠ []) ∧
    (simulateAllMatches (fun _ => allHalf) (fun _ => "now") sampleDb).2.length = 7 ∧
    (∀ o ∈ (simulateAllMatches (fun _ => allHalf) (fun _ => "now") sampleDb).2,
      o.isReturned = true) :=
  ⟨sampleDb_fresh, by decide,
   (simulateAllMatches_completes sampleTeams sampleDb sampleDb_fresh (by decide)
     (fun _ => allHalf) (fun _ => "now")).1,
   (simulateAllMatches_completes sampleTeams sampleDb sampleDb_fresh (by decide)
     (fun _ => allHalf) (fun _ => "now")).2.1⟩

end ANLeague
namespace ANLeague

/-! ## Match ids that reach `doc` as they are

The route `POST /api/match/simulate` passes `req.body.matchId` to `simulateMatch` after the
test `if (!matchId)` alone, and `simulateMatch` passes it to `doc`. The validator
`Validators.matchId` of `src/utils/validation.js`, which admits `QF1` to `QF4`, `SF1`, `SF2`
and `FINAL` only, is not called on the way. The SDK drops the empty piece after a trailing
slash, so the id `"QF1/"` reaches the document `QF1`, while `dependsOn.indexOf("QF1/")` is
`-1`. -/

/-- C7. The call `simulateMatch("QF1/")` on the freshly generated sample bracket: no document
has the id `"QF1/"` and no match has it as its `matchId`, yet the call does not return `null`;
it returns a result for the quarterfinal `QF1` and writes that match record, pending before,
as completed. An id of an even number of pieces makes the call throw instead of returning
`null`. -/
theorem simulateMatch_trailing_slash :
    (∀ p ∈ sampleDb.matches_, p.1 ≠ "QF1/" ∧ p.2.matchId ≠ "QF1/") ∧
    Js.doc (.str "QF1/") = .ok ["QF1"] ∧
    (getDoc sampleDb.matches_ "QF1").map (fun e => e.status) = some "pending" ∧
    (Js.simulateMatch sampleDb "QF1/" allHalf "t1").2 ≠ .null ∧
    (Js.simulateMatch sampleDb "QF1/" allHalf "t1").2.isReturned = true ∧
    (Js.simulateMatch sampleDb "QF1/" allHalf "t1").2.resultD.match_.matchId = "QF1" ∧
    (getDoc (Js.simulateMatch sampleDb "QF1/" allHalf "t1").1.matches_ "QF1").map
      (fun e => (e.status, e.score)) = some ("completed", ⟨some 3, some 3⟩) ∧
    Js.simulateMatch sampleDb "QF1/x" allHalf "t1" =
      (sampleDb, .threw "FirebaseError: Invalid document reference") := by
  decide!

/-- C5. The call `simulateMatch("QF1/")` on the freshly generated sample bracket runs to its
end for the quarterfinal `QF1`, whose next match is `SF1` and which is at index 0 of the
`dependsOn` list of `SF1`; Mali wins it on penalties, yet the winner is not written into
`team1` of `SF1`: the record of `SF1` is after the call what it was before, both slots
`TBD`. -/
theorem simulateMatch_winner_not_advanced :
    (getDoc sampleDb.matches_ "QF1").map (fun e => e.nextMatch) = some (some "SF1") ∧
    (getDoc sampleDb.matches_ "SF1").map (fun e => e.dependsOn) = some (some ["QF1", "QF2"]) ∧
    (Js.simulateMatch sampleDb "QF1/" allHalf "t1").2.isReturned = true ∧
    (Js.simulateMatch sampleDb "QF1/" allHalf "t1").2.resultD.match_.matchId = "QF1" ∧
    (Js.simulateMatch sampleDb "QF1/" allHalf "t1").2.resultD.winner =
      (teamOf "Mali" 60).slot.wonBy "penalties" ∧
    (getDoc (Js.simulateMatch sampleDb "QF1/" allHalf "t1").1.matches_ "QF1").map
      (fun e => (e.status, e.winner)) =
      some ("completed", some ((teamOf "Mali" 60).slot.wonBy "penalties")) ∧
    getDoc (Js.simulateMatch sampleDb "QF1/" allHalf "t1").1.matches_ "SF1" =
      getDoc sampleDb.matches_ "SF1" ∧
    (getDoc (Js.simulateMatch sampleDb "QF1/" allHalf "t1").1.matches_ "SF1").map
      (fun e => (e.team1, e.team2)) = some (tbdSlot, tbdSlot) ∧
    (getDoc (Js.simulateMatch sampleDb "QF1" allHalf "t1").1.matches_ "SF1").map
      (fun e => (e.team1, e.team2)) = some ((teamOf "Mali" 60).slot, tbdSlot) := by
  decide!

/-- C9. From the freshly generated bracket of the eight sample teams, none of which is named
"TBD", the calls `simulateMatch("QF1/")` and `simulateMatch("QF2")` lead to a state in which
the semifinal `SF1` is pending with `team1` still the placeholder, country "TBD" and `teamId`
null: both its dependencies are completed, and the winner of `QF1` was never written. A call
on `SF1` in that state throws on the null `teamId` and writes nothing. -/
theorem pending_semifinal_with_placeholder :
    (∀ t ∈ sampleTeams, t.country ≠ "TBD") ∧ sampleTeams.length = 8 ∧
    (Js.simulateMatch sampleDb "QF1/" allHalf "t1").2.isReturned = true ∧
    (Js.simulateMatch (Js.simulateMatch sampleDb "QF1/" allHalf "t1").1 "QF2" allHalf
      "t2").2.isReturned = true ∧
    (getDoc (Js.simulateMatch (Js.simulateMatch sampleDb "QF1/" allHalf "t1").1 "QF2" allHalf
      "t2").1.matches_ "SF1").map (fun e => (e.status, e.team1, e.team2, e.canBePlayed)) =
      some ("pending", tbdSlot, (teamOf "Togo" 40).slot, false) ∧
    tbdSlot = ⟨"TBD", none, []⟩ ∧
    Js.simulateMatch (Js.simulateMatch (Js.simulateMatch sampleDb "QF1/" allHalf "t1").1 "QF2"
      allHalf "t2").1 "SF1" allHalf "t3" =
      ((Js.simulateMatch (Js.simulateMatch sampleDb "QF1/" allHalf "t1").1 "QF2" allHalf "t2").1,
        .threw "TypeError: Cannot read properties of null (reading 'indexOf')") := by
  decide!

end ANLeague
namespace ANLeague

/-! ## `Match.simulate` -/

theorem JsNum.gt_irrefl (x : JsNum) : x.gt x = false := by
  cases x <;> simp [JsNum.gt]

/-- What `Match.determineWinner()` does on a match with two scores: only the field `winner`
changes; it is the side whose score is greater with `wonBy` "normal", and one of the two sides
with `wonBy` "penalties" when neither score is greater. -/
theorem determineWinner_winner (m : Js.Match) (g1 g2 : JsNum) (rng : Rng)
    (hs : m.score = ⟨some g1, some g2⟩) :
    (m.determineWinner rng).1 = { m with winner := (m.determineWinner rng).1.winner } ∧
    (g1.gt g2 = true → (m.determineWinner rng).1.winner = some (m.team1.wonBy "normal")) ∧
    (g2.gt g1 = true → g1.gt g2 = false →
      (m.determineWinner rng).1.winner = some (m.team2.wonBy "normal")) ∧
    (g1.gt g2 = false → g2.gt g1 = false →
      (m.determineWinner rng).1.winner = some (m.team1.wonBy "penalties") ∨
      (m.determineWinner rng).1.winner = some (m.team2.wonBy "penalties")) := by
  unfold Js.Match.determineWinner
  rw [hs]
  simp only [Option.getD_some]
  by_cases h1 : g1.gt g2 = true
  · rw [if_pos h1]
    exact ⟨rfl, fun _ => rfl, fun _ h => (by rw [h1] at h; cases h),
      fun h => (by rw [h1] at h; cases h)⟩
  · rw [if_neg h1]
    by_cases h2 : g2.gt g1 = true
    · rw [if_pos h2]
      exact ⟨rfl, fun h => absurd h h1, fun _ _ => rfl, fun _ h => (by rw [h2] at h; cases h)⟩
    · rw [if_neg h2]
      refine ⟨rfl, fun h => absurd h h1, fun h => absurd h h2, fun _ _ => ?_⟩
      by_cases hc : (rng 0).val > 1 / 2
      · left
        simp only [hc, if_true]
      · right
        simp only [hc, if_false]

/-- C22. On a match whose status is one of the three that a match has, "pending", "completed"
and "locked", `Match.simulate(rating1, rating2)` throws and leaves every field of the match
as it is whenever the status is not "pending"; on a pending match it does not throw, sets the
status to "completed" and the score to the two goal counts of the score formula, and the
winner is the team with the strictly higher score with `wonBy` "normal" or, when neither score
is higher, as on equal scores, one of the two teams with `wonBy` "penalties". This holds for
all ratings, whatever numbers they are, and the identity, the teams, the scorer list and the
links of the match stay. -/
theorem simulate_only_when_pending (m : Js.Match) (rating1 rating2 : JsNum) (rng : Rng)
    (now : String)
    (hs : m.status = "pending" ∨ m.status = "completed" ∨ m.status = "locked") :
    (m.status ≠ "pending" →
      (m.simulate rating1 rating2 rng now).2 ≠ none ∧
      (m.simulate rating1 rating2 rng now).1 = m) ∧
    (m.status = "pending" →
      (m.simulate rating1 rating2 rng now).2 = none ∧
      (m.simulate rating1 rating2 rng now).1.status = "completed" ∧
      (m.simulate rating1 rating2 rng now).1.score =
        ⟨some (Js.generateScore rating1 rating2 rng).1.1,
          some (Js.generateScore rating1 rating2 rng).1.2⟩ ∧
      (((Js.generateScore rating1 rating2 rng).1.1.gt
          (Js.generateScore rating1 rating2 rng).1.2 = true ∧
        (m.simulate rating1 rating2 rng now).1.winner = some (m.team1.wonBy "normal")) ∨
       ((Js.generateScore rating1 rating2 rng).1.2.gt
          (Js.generateScore rating1 rating2 rng).1.1 = true ∧
        (m.simulate rating1 rating2 rng now).1.winner = some (m.team2.wonBy "normal")) ∨
       ((Js.generateScore rating1 rating2 rng).1.1.gt
          (Js.generateScore rating1 rating2 rng).1.2 = false ∧
        (Js.generateScore rating1 rating2 rng).1.2.gt
          (Js.generateScore rating1 rating2 rng).1.1 = false ∧
        ((m.simulate rating1 rating2 rng now).1.winner = some (m.team1.wonBy "penalties") ∨
         (m.simulate rating1 rating2 rng now).1.winner = some (m.team2.wonBy "penalties")))) ∧
      ((Js.generateScore rating1 rating2 rng).1.1 = (Js.generateScore rating1 rating2 rng).1.2 →
        (m.simulate rating1 rating2 rng now).1.winner = some (m.team1.wonBy "penalties") ∨
        (m.simulate rating1 rating2 rng now).1.winner = some (m.team2.wonBy "penalties")) ∧
      (m.simulate rating1 rating2 rng now).1.matchId = m.matchId ∧
      (m.simulate rating1 rating2 rng now).1.round = m.round ∧
      (m.simulate rating1 rating2 rng now).1.team1 = m.team1 ∧
      (m.simulate rating1 rating2 rng now).1.team2 = m.team2 ∧
      (m.simulate rating1 rating2 rng now).1.goalScorers = m.goalScorers ∧
      (m.simulate rating1 rating2 rng now).1.nextMatch = m.nextMatch ∧
      (m.simulate rating1 rating2 rng now).1.dependsOn = m.dependsOn) := by
  constructor
  · intro hp
    unfold Js.Match.simulate
    rcases hs with h | h | h
    · exact absurd h hp
    · rw [if_pos h]
      exact ⟨by simp, rfl⟩
    · by_cases hc : m.status = "completed"
      · rw [if_pos hc]
        exact ⟨by simp, rfl⟩
      · rw [if_neg hc, if_pos h]
        exact ⟨by simp, rfl⟩
  · intro hp
    have hc : m.status ≠ "completed" := by rw [hp]; decide
    have hl : m.status ≠ "locked" := by rw [hp]; decide
    unfold Js.Match.simulate
    rw [if_neg hc, if_neg hl]
    obtain ⟨hframe, w1, w2, w3⟩ := determineWinner_winner
      { m with score := ⟨some (Js.generateScore rating1 rating2 rng).1.1,
          some (Js.generateScore rating1 rating2 rng).1.2⟩ }
      _ _ (rng.drop 2) rfl
    refine ⟨rfl, rfl, ?_, ?_, ?_, ?_, ?_, ?_, ?_, ?_, ?_, ?_⟩
    · have h := congrArg Js.Match.score hframe
      exact h
    · cases h1 : (Js.generateScore rating1 rating2 rng).1.1.gt
          (Js.generateScore rating1 rating2 rng).1.2
      · cases h2 : (Js.generateScore rating1 rating2 rng).1.2.gt
            (Js.generateScore rating1 rating2 rng).1.1
        · exact Or.inr (Or.inr ⟨rfl, rfl, w3 h1 h2⟩)
        · exact Or.inr (Or.inl ⟨rfl, w2 h2 h1⟩)
      · exact Or.inl ⟨rfl, w1 h1⟩
    · intro he
      apply w3
      · rw [he]; exact JsNum.gt_irrefl _
      · rw [he]; exact JsNum.gt_irrefl _
    · have h := congrArg Js.Match.matchId hframe
      exact h
    · have h := congrArg Js.Match.round hframe
      exact h
    · have h := congrArg Js.Match.team1 hframe
      exact h
    · have h := congrArg Js.Match.team2 hframe
      exact h
    · have h := congrArg Js.Match.goalScorers hframe
      exact h
    · have h := congrArg Js.Match.nextMatch hframe
      exact h
    · have h := congrArg Js.Match.dependsOn hframe
      exact h

/-- C22 at a completed and at a locked match, which stay as they are, and at a pending match
with equal ratings and draws of `0.5`, which ends 3-3 and goes to Mali on penalties. -/
theorem simulate_only_when_pending_witness :
    ((completedMatch.simulate (.fin 60) (.fin 60) allHalf "now").2 ≠ none ∧
      (completedMatch.simulate (.fin 60) (.fin 60) allHalf "now").1 = completedMatch) ∧
    ((lockedSemiFinal.simulate (.fin 60) (.fin 60) allHalf "now").2 ≠ none ∧
      (lockedSemiFinal.simulate (.fin 60) (.fin 60) allHalf "now").1 = lockedSemiFinal) ∧
    (pendingMatch.simulate (.fin 60) (.fin 60) allHalf "now").2 = none ∧
    (pendingMatch.simulate (.fin 60) (.fin 60) allHalf "now").1.status = "completed" ∧
    (pendingMatch.simulate (.fin 60) (.fin 60) allHalf "now").1.score =
      ⟨some (.fin 3), some (.fin 3)⟩ ∧
    (pendingMatch.simulate (.fin 60) (.fin 60) allHalf "now").1.winner =
      some ((teamOf "Mali" 60).slot.wonBy "penalties") :=
  ⟨(simulate_only_when_pending completedMatch (.fin 60) (.fin 60) allHalf "now"
      (Or.inr (Or.inl rfl))).1 (by decide),
   (simulate_only_when_pending lockedSemiFinal (.fin 60) (.fin 60) allHalf "now"
      (Or.inr (Or.inr rfl))).1 (by decide),
   ((simulate_only_when_pending pendingMatch (.fin 60) (.fin 60) allHalf "now"
      (Or.inl rfl)).2 rfl).1,
   ((simulate_only_when_pending pendingMatch (.fin 60) (.fin 60) allHalf "now"
      (Or.inl rfl)).2 rfl).2.1,
   by decide!, by decide!⟩

end ANLeague
